import Mathlib

/-!
# Native Memory Tracker (HotSpot `services/memTracker.cpp`)

A shallow embedding of the tracker handle (`MemTracker::Tracker`) and of the
recorder plumbing it writes through (`write_tracking_record`,
`get_thread_recorder`, `get_new_or_pooled_instance`, `enqueue_pending_recorder`,
`shutdown`), followed by theorems about them.

Conventions of the embedding.

* The static fields of `MemTracker` (lines 57-75 of the source) are the fields
  of the structure `MemTracker`, with the static initialisers as defaults.  The
  statics of the collaborators that the code reads or writes
  (`SequenceGenerator`, `MemRecorder::_instance_count`) and the thread table
  are further fields of the same structure.
* The model is sequential: a compare-and-swap always meets the value just read,
  `ThreadCritical` has no effect on the state, and `assert` (compiled out of
  product builds) is not executed.
* A `Thread*` is `Option Nat`: `none` is `NULL`, `some i` designates entry `i`
  of the thread table.
* An `address` is a natural number, `NULL` is `0`.  `jint` values are integers
  wrapped to 32 bits by `jint_wrap`.
* Of what the headers `memTracker.hpp`, `memPtr.hpp` and `memRecorder.hpp`
  declare, constants and macros are the fields of the parameter `Platform`,
  and helper functions are modelled from the specification and marked as such.
-/

namespace NMT

/-! ## Enumerations -/

/-- Tracking level (`MemTracker::NMTLevel`). -/
inductive NMTLevel where
  | NMT_off
  | NMT_summary
  | NMT_detail
  deriving DecidableEq, Repr

/-- Lifecycle state (`MemTracker::NMTStates`), in the order of the
specification: uninit, single-thread bootstrap, multi-thread bootstrap,
started, shutdown pending, final shutdown, shutdown. -/
inductive NMTStates where
  | NMT_uninited
  | NMT_bootstrapping_single_thread
  | NMT_bootstrapping_multi_thread
  | NMT_started
  | NMT_shutdown_pending
  | NMT_final_shutdown
  | NMT_shutdown
  deriving DecidableEq, Repr

/-- Numeric value of a lifecycle state, the position in the enumeration. -/
def NMTStates.toNat : NMTStates → Nat
  | .NMT_uninited => 0
  | .NMT_bootstrapping_single_thread => 1
  | .NMT_bootstrapping_multi_thread => 2
  | .NMT_started => 3
  | .NMT_shutdown_pending => 4
  | .NMT_final_shutdown => 5
  | .NMT_shutdown => 6

/-- Shutdown reasons named by the source. -/
inductive ShutdownReason where
  | NMT_shutdown_none
  | NMT_shutdown_user
  | NMT_out_of_memory
  | NMT_initialization
  | NMT_use_malloc_only
  deriving DecidableEq, Repr

/-- Operation kinds of a tracker (`MemTracker::MemoryOperation`). -/
inductive MemoryOperation where
  | NoOp
  | Malloc
  | Realloc
  | Free
  | Reserve
  | Commit
  | ReserveAndCommit
  | Type
  | Uncommit
  | Release
  | ArenaSize
  | StackRelease
  deriving DecidableEq, Repr

/-! ## 32-bit integers -/

/-- Largest `jint`. -/
def max_jint : Int := 2147483647

/-- Two's-complement wrap of an integer to the range of `jint`. -/
def jint_wrap (x : Int) : Int := (x + 2147483648) % 4294967296 - 2147483648

/-! ## Platform parameters -/

/-- Constants and macros the tracker code uses and that the headers declare:
the operation tags of `MemPointerRecord` (memPtr.hpp), the macro
`NMT_CAN_TRACK` (memTracker.hpp), `sizeof(void*)`, the fixed capacity of a
recorder (memRecorder.hpp), the size `MAX_GENERATIONS` of the generation
buffer of the worker (memTrackWorker.hpp), the width in bits of
`unsigned long`, and the constant `MAX_UNSIGNED_LONG`. -/
structure Platform where
  malloc_tag : Nat
  free_tag : Nat
  virtual_memory_reserve_tag : Nat
  virtual_memory_commit_tag : Nat
  virtual_memory_type_tag : Nat
  virtual_memory_uncommit_tag : Nat
  virtual_memory_release_tag : Nat
  arena_size_tag : Nat
  NMT_CAN_TRACK : Nat → Bool
  sizeof_voidp : Nat
  recorder_capacity : Nat
  MAX_GENERATIONS : Int
  unsigned_long_bits : Nat
  MAX_UNSIGNED_LONG : Nat

/-! ## Records, recorders, threads -/

/-- One event record as passed to `MemRecorder::record(addr, flags, size, seq, pc)`. -/
structure MemPointerRecord where
  addr : Nat
  flags : Nat
  size : Nat
  seq : Int
  pc : Nat
  deriving DecidableEq, Repr

/-- Modelled from the spec: the recorder (`MemRecorder`, declared in
memRecorder.hpp) is an append-only buffer of event records of fixed capacity,
with a generation stamp set when it is taken from the pool.  The field `id` is
the identity (heap address) of the object; the intrusive `next` link is
represented by the position of the recorder in the list that holds it. -/
structure MemRecorder where
  id : Nat
  records : List MemPointerRecord := []
  _generation : Nat := 0
  deriving DecidableEq, Repr

/-- Modelled from the spec: `MemRecorder::is_full()`; a recorder is full when
its length equals the capacity. -/
def MemRecorder.is_full (p : Platform) (r : MemRecorder) : Bool :=
  r.records.length == p.recorder_capacity

/-- Modelled from the spec: `MemRecorder::record(addr, tags, size, seq, site)`
appends the record if the recorder is not full. -/
def MemRecorder.record (p : Platform) (r : MemRecorder) (addr flags size : Nat) (seq : Int)
    (pc : Nat) : MemRecorder :=
  if r.is_full p then r
  else { r with records := r.records ++ [⟨addr, flags, size, seq, pc⟩] }

/-- Modelled from the spec: `MemRecorder::clear()` empties the buffer. -/
def MemRecorder.clear (r : MemRecorder) : MemRecorder :=
  { r with records := [] }

/-- A thread as the tracker sees it: the answers of `is_Java_thread()`,
`is_safepoint_visible()` and
`SafepointSynchronize::safepoint_safe(thread, thread->thread_state())`, and the
recorder slot of a Java thread (`get_recorder` / `set_recorder`). -/
structure Thread where
  is_Java_thread : Bool
  is_safepoint_visible : Bool
  safepoint_safe : Bool
  _recorder : Option MemRecorder := none
  deriving DecidableEq, Repr

/-- Outcome of `new (std::nothrow) MemRecorder()`: no memory for the object, an
object at address `p` that reports `out_of_memory()`, or a usable object at
address `p`. -/
inductive NewResult where
  | null
  | oom (p : Nat)
  | ok (p : Nat)
  deriving DecidableEq, Repr

/-- Modelled from the spec: the snapshot (`MemSnapshot`, declared in
memSnapshot.hpp) is a black box of which the lifecycle code reads the probe
`out_of_memory()`. -/
structure MemSnapshot where
  out_of_memory : Bool := false
  deriving DecidableEq, Repr

/-- Modelled from the spec: the merge worker (`MemTrackWorker`, declared in
memTrackWorker.hpp) as the sync coordinator sees it: the answers of
`has_error()` and `generations_in_use()`, and the batches handed to it by
`at_sync_point(batch, class count)`, the oldest first. -/
structure MemTrackWorker where
  has_error : Bool := false
  generations_in_use : Int := 0
  batches : List (List MemRecorder × Nat) := []
  deriving DecidableEq, Repr

/-! ## The tracker subsystem state -/

/-- The static state of `MemTracker` and of the collaborators it touches. -/
structure MemTracker where
  _global_recorder : Option MemRecorder := none
  _merge_pending_queue : List MemRecorder := []
  _pooled_recorders : List MemRecorder := []
  _sync_point_skip_count : Int := 0
  _tracking_level : NMTLevel := .NMT_off
  _state : NMTStates := .NMT_uninited
  _reason : ShutdownReason := .NMT_shutdown_none
  _thread_count : Int := 255
  _pooled_recorder_count : Int := 0
  _pending_op_count : Int := 0
  _slowdown_calling_thread : Bool := false
  /-- The counter of `SequenceGenerator`. -/
  _seq_number : Int := 0
  /-- The generation of `SequenceGenerator`. -/
  _generation : Nat := 0
  /-- The static `MemRecorder::_instance_count`. -/
  _instance_count : Int := 0
  /-- The thread table. -/
  threads : List Thread := []
  _snapshot : Option MemSnapshot := none
  /-- Whether `_baseline` holds a baseline. -/
  _baseline : Bool := false
  /-- Whether `_query_lock` is allocated. -/
  _query_lock : Bool := false
  _worker_thread : Option MemTrackWorker := none
  _processing_generation : Nat := 0
  _worker_thread_idle : Bool := false
  /-- The global `NMT_track_callsite` (source line 40). -/
  NMT_track_callsite : Bool := false
  /-- The VM flag `UseMallocOnly`. -/
  UseMallocOnly : Bool := false
  /-- The VM flag `AutoShutdownNMT`. -/
  AutoShutdownNMT : Bool := true
  deriving DecidableEq, Repr

/-- Modelled from the spec: the probe `shutdown_in_progress()` (declared in
memTracker.hpp): the lifecycle state is shutdown_pending or later. -/
def shutdown_in_progress (s : MemTracker) : Bool :=
  decide (NMTStates.NMT_shutdown_pending.toNat ≤ s._state.toNat)

/-- Modelled from the spec: the probe `is_single_threaded_bootstrap()` (declared
in memTracker.hpp): the lifecycle state is the single-thread bootstrap. -/
def is_single_threaded_bootstrap (s : MemTracker) : Bool :=
  decide (s._state = .NMT_bootstrapping_single_thread)

/-- Modelled from the spec: the probe `is_on()` (declared in memTracker.hpp):
tracking is on when a tracking level other than off is selected and the
lifecycle has left the uninitialised state. -/
def is_on (s : MemTracker) : Bool :=
  decide (s._tracking_level ≠ .NMT_off) &&
    decide (NMTStates.NMT_bootstrapping_single_thread.toNat ≤ s._state.toNat)

/-- Modelled from the spec: `SequenceGenerator::next()` (declared in memPtr.hpp)
adds one to the 32-bit sequence counter and returns the new value. -/
def SequenceGenerator.next (s : MemTracker) : Int × MemTracker :=
  let seq := jint_wrap (s._seq_number + 1)
  (seq, { s with _seq_number := seq })

/-- Modelled from the spec: `inc_pending_op_count()` (declared in
memTracker.hpp), an atomic increment of the `jint` `_pending_op_count`. -/
def inc_pending_op_count (s : MemTracker) : MemTracker :=
  { s with _pending_op_count := jint_wrap (s._pending_op_count + 1) }

/-- Modelled from the spec: `dec_pending_op_count()` (declared in
memTracker.hpp), an atomic decrement of the `jint` `_pending_op_count`. -/
def dec_pending_op_count (s : MemTracker) : MemTracker :=
  { s with _pending_op_count := jint_wrap (s._pending_op_count - 1) }

/-! ## Lifecycle: `shutdown` -/

/-- `MemTracker::shutdown(reason)`, source lines 168-182. -/
def shutdown (s : MemTracker) (reason : ShutdownReason) : MemTracker :=
  if s._tracking_level = .NMT_off then s
  else if s._state.toNat ≤ NMTStates.NMT_bootstrapping_single_thread.toNat then
    { s with _state := .NMT_shutdown_pending, _reason := reason }
  else if s._state = .NMT_started then
    { s with _state := .NMT_shutdown_pending, _reason := reason }
  else s

/-! ## Recorders: pool, pending queue, per-thread slot -/

/-- The recorder slot of a thread reference: the global recorder for `NULL`,
the slot of the Java thread otherwise. -/
def get_slot (s : MemTracker) (thread : Option Nat) : Option MemRecorder :=
  match thread with
  | none => s._global_recorder
  | some i => (s.threads.get? i).bind (fun t => t._recorder)

/-- Assignment to the recorder slot of a thread reference: `_global_recorder = rc`
for `NULL`, `thread->set_recorder(rc)` otherwise. -/
def set_slot (s : MemTracker) (thread : Option Nat) (rc : Option MemRecorder) : MemTracker :=
  match thread with
  | none => { s with _global_recorder := rc }
  | some i => { s with threads := s.threads.modify (fun t => { t with _recorder := rc }) i }

/-- `MemTracker::enqueue_pending_recorder(rec)`, source lines 355-373: the
recorder is deleted when shutdown is in progress, which takes one off the
count of recorder instances, and pushed on the pending queue otherwise. -/
def enqueue_pending_recorder (s : MemTracker) (rec : MemRecorder) : MemTracker :=
  if shutdown_in_progress s then
    { s with _instance_count := s._instance_count - 1 }
  else
    { s with _merge_pending_queue := rec :: s._merge_pending_queue }

/-- `MemTracker::get_new_or_pooled_instance()`, source lines 279-302.  With an
empty pool a recorder is allocated (`a` is the outcome of the allocation); a
failed allocation shuts tracking down.  Otherwise the head of the pool is
popped and stamped with the current generation. -/
def get_new_or_pooled_instance (s : MemTracker) (a : NewResult) :
    Option MemRecorder × MemTracker :=
  match s._pooled_recorders with
  | [] =>
    match a with
    | .null => (none, shutdown s .NMT_out_of_memory)
    | .oom _ => (none, shutdown s .NMT_out_of_memory)
    | .ok p => (some { id := p }, { s with _instance_count := s._instance_count + 1 })
  | cur_head :: next_head =>
    (some { cur_head with _generation := s._generation },
     { s with _pooled_recorders := next_head,
              _pooled_recorder_count := jint_wrap (s._pooled_recorder_count - 1) })

/-- `MemTracker::get_thread_recorder(thread)`, source lines 249-273. -/
def get_thread_recorder (p : Platform) (s : MemTracker) (thread : Option Nat) (a : NewResult) :
    Option MemRecorder × MemTracker :=
  if shutdown_in_progress s then (none, s)
  else
    let rc := get_slot s thread
    let (rc, s) :=
      match rc with
      | some r => if r.is_full p then (none, enqueue_pending_recorder s r) else (some r, s)
      | none => (none, s)
    match rc with
    | none =>
      let (rc, s) := get_new_or_pooled_instance s a
      (rc, set_slot s thread rc)
    | some r => (some r, s)

/-- `MemTracker::write_tracking_record(addr, flags, size, seq, pc, thread)`,
source lines 343-350.  The recorder returned by `get_thread_recorder` is the
object held by the slot of `thread`, so the append shows in that slot. -/
def write_tracking_record (p : Platform) (s : MemTracker) (addr flags size : Nat) (seq : Int)
    (pc : Nat) (thread : Option Nat) (a : NewResult) : MemTracker :=
  let (rc, s) := get_thread_recorder p s thread a
  match rc with
  | some r => set_slot s thread (some (r.record p addr flags size seq pc))
  | none => s

/-! ## The tracker handle -/

/-- The fields of `MemTracker::Tracker`. -/
structure Tracker where
  _op : MemoryOperation
  _seq : Int
  _java_thread : Option Nat
  _need_thread_critical_lock : Bool
  deriving DecidableEq, Repr

/-- The test `_op == Realloc || _op == Uncommit || _op == Release` of the
constructor (source line 758). -/
def MemoryOperation.pre_reserves (op : MemoryOperation) : Bool :=
  op == .Realloc || op == .Uncommit || op == .Release

/-- The thread the constructor classifies, source lines 728-735: `NULL` in
single-threaded bootstrap, the argument `thr` if it is not `NULL`, the answer
`tls` of `ThreadLocalStorage::thread()` otherwise. -/
def Tracker.find_thread (s : MemTracker) (thr tls : Option Nat) : Option Nat :=
  if is_single_threaded_bootstrap s then none
  else
    match thr with
    | none => tls
    | some i => some i

/-- The values the constructor gives `_java_thread` and
`_need_thread_critical_lock`, source lines 737-755, for the thread found.  A
thread reference outside the thread table designates a thread that is not a
Java thread.  `check_NMT_load(thr)` only yields the processor and is not
represented. -/
def Tracker.lock_and_route (s : MemTracker) (thr : Option Nat) : Option Nat × Bool :=
  match thr with
  | some i =>
    match s.threads.get? i with
    | some th =>
      if th.is_Java_thread && th.is_safepoint_visible then (some i, th.safepoint_safe)
      else (none, true)
    | none => (none, true)
  | none => (none, !is_single_threaded_bootstrap s)

/-- The constructor `MemTracker::Tracker::Tracker(op, thr)`, source lines
719-771.  It sets `_op = NoOp` and `_seq = 0`, and assigns `_op`,
`_java_thread` and `_need_thread_critical_lock` only when tracking is on;
`mem` is the storage the tracker is constructed in, so with tracking off the
last two fields keep what the storage held.  `tls` is the answer of
`ThreadLocalStorage::thread()`. -/
def Tracker.new (s : MemTracker) (mem : Tracker) (op : MemoryOperation) (thr tls : Option Nat) :
    Tracker × MemTracker :=
  if is_on s then
    let thr := Tracker.find_thread s thr tls
    let t : Tracker :=
      { _op := op, _seq := 0, _java_thread := (Tracker.lock_and_route s thr).1,
        _need_thread_critical_lock := (Tracker.lock_and_route s thr).2 }
    if t._op.pre_reserves then
      if t._need_thread_critical_lock then
        let s := inc_pending_op_count s
        let (seq, s) := SequenceGenerator.next s
        ({ t with _seq := seq }, s)
      else
        let (seq, s) := SequenceGenerator.next s
        ({ t with _seq := seq }, s)
    else (t, s)
  else ({ mem with _op := .NoOp, _seq := 0 }, s)

/-- `MemTracker::Tracker::discard()`, source lines 773-781. -/
def Tracker.discard (t : Tracker) (s : MemTracker) : Tracker × MemTracker :=
  if is_on s && t._seq != 0 then
    let s := if t._need_thread_critical_lock then dec_pending_op_count s else s
    ({ t with _seq := 0 }, s)
  else (t, s)

/-- The two writes of the realloc variant of `record`, the same statements in
both branches (source lines 793-796 and 801-804): a free record of the old
address with the pre-reserved sequence number, then a malloc record of the new
address with a sequence number drawn now.  `a1` and `a2` are the outcomes of
the recorder allocations the two writes may need. -/
def Tracker.realloc_writes (p : Platform) (t : Tracker) (s : MemTracker)
    (old_addr new_addr size flags pc : Nat) (a1 a2 : NewResult) : MemTracker :=
  let s := write_tracking_record p s old_addr p.free_tag 0 t._seq pc t._java_thread a1
  let (seq, s) := SequenceGenerator.next s
  write_tracking_record p s new_addr (flags ||| p.malloc_tag) size seq pc t._java_thread a2

/-- The realloc variant `MemTracker::Tracker::record(old_addr, new_addr, size,
flags, pc)`, source lines 784-808. -/
def Tracker.record_realloc (p : Platform) (t : Tracker) (s : MemTracker)
    (old_addr new_addr size flags pc : Nat) (a1 a2 : NewResult) : Tracker × MemTracker :=
  if is_on s && p.NMT_CAN_TRACK flags && t._op != .NoOp then
    if t._need_thread_critical_lock then
      let s := Tracker.realloc_writes p t s old_addr new_addr size flags pc a1 a2
      let s := dec_pending_op_count s
      ({ t with _seq := 0 }, s)
    else
      let s := Tracker.realloc_writes p t s old_addr new_addr size flags pc a1 a2
      ({ t with _seq := 0 }, s)
  else (t, s)

/-- The `switch (_op)` of `MemTracker::Tracker::record(addr, size, flags, pc)`,
source lines 820-860: the tag and the address to store, or `none` where the
source stops the VM (`fatal` for Realloc, `ShouldNotReachHere` for the default
case). -/
def Tracker.record_switch (p : Platform) (op : MemoryOperation) (addr flags : Nat) :
    Option (Nat × Nat) :=
  match op with
  | .Malloc => some (flags ||| p.malloc_tag, addr)
  | .Free => some (p.free_tag, addr)
  | .Realloc => none
  | .Reserve => some (flags ||| p.virtual_memory_reserve_tag, addr)
  | .ReserveAndCommit => some (flags ||| p.virtual_memory_reserve_tag, addr)
  | .Commit => some (p.virtual_memory_commit_tag, addr)
  | .Type => some (flags ||| p.virtual_memory_type_tag, addr)
  | .Uncommit => some (p.virtual_memory_uncommit_tag, addr)
  | .Release => some (p.virtual_memory_release_tag, addr)
  | .ArenaSize => some (p.arena_size_tag, addr + p.sizeof_voidp)
  | .StackRelease => some (p.virtual_memory_release_tag, addr)
  | .NoOp => none

/-- The writes of `record`, the same statements in both branches (source lines
865-870 and 873-878): a sequence number is drawn unless one was pre-reserved,
the record is written, and for ReserveAndCommit a commit record with the
original flags and a further sequence number follows.  `a1` and `a2` are the
outcomes of the recorder allocations the writes may need. -/
def Tracker.record_writes (p : Platform) (t : Tracker) (s : MemTracker)
    (addr flags orig_flags size pc : Nat) (a1 a2 : NewResult) : MemTracker :=
  let (_seq, s) := if t._seq = 0 then SequenceGenerator.next s else (t._seq, s)
  let s := write_tracking_record p s addr flags size _seq pc t._java_thread a1
  if t._op = .ReserveAndCommit then
    let (seq, s) := SequenceGenerator.next s
    write_tracking_record p s addr (orig_flags ||| p.virtual_memory_commit_tag) size seq pc
      t._java_thread a2
  else s

/-- `MemTracker::Tracker::record(addr, size, flags, pc)`, source lines 810-882.
The result is `none` where the source stops the VM.  The parameter `pc` is
shadowed by the local `pc = CALLER_CALLER_PC` (source line 816), whose value is
the argument `caller_caller_pc`. -/
def Tracker.record (p : Platform) (t : Tracker) (s : MemTracker) (addr size flags pc : Nat)
    (caller_caller_pc : Nat) (a1 a2 : NewResult) : Option (Tracker × MemTracker) :=
  if addr = 0 then some (t, s)
  else if is_on s && p.NMT_CAN_TRACK flags && t._op != .NoOp then
    let pre_reserved_seq : Bool := t._seq != 0
    let pc := caller_caller_pc
    let orig_flags := flags
    match Tracker.record_switch p t._op addr flags with
    | none => none
    | some (flags, addr) =>
      if t._need_thread_critical_lock then
        let s := Tracker.record_writes p t s addr flags orig_flags size pc a1 a2
        let s := if pre_reserved_seq then dec_pending_op_count s else s
        some ({ t with _seq := 0 }, s)
      else
        let s := Tracker.record_writes p t s addr flags orig_flags size pc a1 a2
        some ({ t with _seq := 0 }, s)
  else some (t, s)

/-! ## Sequence generator: generation, `peek`, `reset` -/

/-- Modelled from the spec: `SequenceGenerator::peek()` (declared in memPtr.hpp)
reads the sequence counter. -/
def SequenceGenerator.peek (s : MemTracker) : Int := s._seq_number

/-- Modelled from the spec: `SequenceGenerator::current_generation()` (declared
in memPtr.hpp) reads the generation, an `unsigned long`. -/
def SequenceGenerator.current_generation (s : MemTracker) : Nat := s._generation

/-- Modelled from the spec: `SequenceGenerator::reset()` (declared in memPtr.hpp)
bumps the generation by one, in `unsigned long` arithmetic, and restarts the
sequence counter.  The counter restarts at 1: that is the value the source
asserts `peek()` to have when the drain has reset the generator and no memory
activity followed (source line 452). -/
def SequenceGenerator.reset (p : Platform) (s : MemTracker) : MemTracker :=
  { s with _seq_number := 1,
           _generation := (s._generation + 1) % 2 ^ p.unsigned_long_bits }

/-! ## Lifecycle: options, bootstrap, start, final shutdown -/

/-- `MemTracker::init_tracking_options(option_line)`, source lines 77-94.
`native_stack_walking` is the value of the macro
`PLATFORM_NATIVE_STACK_WALKING_SUPPORTED`.  The result is `none` where the
source calls `vm_exit_during_initialization`.  `strcmp(a, b) == 0` is equality
of the strings. -/
def init_tracking_options (s : MemTracker) (native_stack_walking : Bool) (option_line : String) :
    Option MemTracker :=
  let s := { s with _tracking_level := .NMT_off }
  if option_line = "=summary" then
    some { s with _tracking_level := .NMT_summary }
  else if option_line = "=detail" then
    if native_stack_walking then some { s with _tracking_level := .NMT_detail }
    else some { s with _tracking_level := .NMT_summary }
  else if option_line ≠ "=off" then none
  else some s

/-- `MemTracker::bootstrap_single_thread()`, source lines 97-119.  `query_lock`
tells whether the allocation of the query lock succeeds, `can_walk_stack` is
the answer of `can_walk_stack()`. -/
def bootstrap_single_thread (s : MemTracker) (query_lock can_walk_stack : Bool) : MemTracker :=
  if s._tracking_level ≠ .NMT_off then
    if s.UseMallocOnly then shutdown s .NMT_use_malloc_only
    else if !query_lock then shutdown { s with _query_lock := false } .NMT_out_of_memory
    else
      { s with _query_lock := true,
               _state := .NMT_bootstrapping_single_thread,
               NMT_track_callsite :=
                 decide (s._tracking_level = .NMT_detail) && can_walk_stack }
  else s

/-- `MemTracker::bootstrap_multi_thread()`, source lines 122-129. -/
def bootstrap_multi_thread (s : MemTracker) (can_walk_stack : Bool) : MemTracker :=
  if s._tracking_level ≠ .NMT_off ∧ s._state = .NMT_bootstrapping_single_thread then
    { s with _state := .NMT_bootstrapping_multi_thread,
             NMT_track_callsite :=
               decide (s._tracking_level = .NMT_detail) && can_walk_stack }
  else s

/-- `MemTracker::start_worker(snapshot)`, source lines 488-500.  `w` is the
outcome of `new (std::nothrow) MemTrackWorker(snapshot)`: `none` when there is
no memory for it.  Launching the thread (`start()`) is not represented. -/
def start_worker (s : MemTracker) (w : Option MemTrackWorker) : Bool × MemTracker :=
  match w with
  | none => (false, { s with _worker_thread := none })
  | some wk =>
    if wk.has_error then (false, { s with _worker_thread := none })
    else (true, { s with _worker_thread := some wk })

/-- `MemTracker::start()`, source lines 132-153.  `snap` is the outcome of
`new (std::nothrow) MemSnapshot()` and `w` that of the allocation of the
worker; `can_walk_stack` is the answer of `can_walk_stack()`. -/
def start (s : MemTracker) (snap : Option MemSnapshot) (w : Option MemTrackWorker)
    (can_walk_stack : Bool) : MemTracker :=
  if s._tracking_level = .NMT_off ∨ shutdown_in_progress s = true then s
  else
    match snap with
    | some sn =>
      if !sn.out_of_memory && (start_worker { s with _snapshot := some sn } w).1 then
        { (start_worker { s with _snapshot := some sn } w).2 with
            _state := .NMT_started,
            NMT_track_callsite :=
              decide (s._tracking_level = .NMT_detail) && can_walk_stack }
      else if !sn.out_of_memory then
        shutdown { (start_worker { s with _snapshot := some sn } w).2 with _snapshot := none }
          .NMT_initialization
      else
        shutdown { s with _snapshot := none } .NMT_initialization
    | none => shutdown { s with _snapshot := none } .NMT_initialization

/-- `MemTracker::get_pending_recorders()`, source lines 307-316: the whole
pending queue is taken and the queue is left empty. -/
def get_pending_recorders (s : MemTracker) : List MemRecorder × MemTracker :=
  (s._merge_pending_queue, { s with _merge_pending_queue := [] })

/-- Modelled from the spec: `delete rec` on the head of a chain of recorders
deletes every recorder of the chain (the destructor of `MemRecorder`, declared
in memRecorder.hpp), each deletion taking one off the count of recorder
instances. -/
def delete_recorders (s : MemTracker) (chain : List MemRecorder) : MemTracker :=
  { s with _instance_count := s._instance_count - chain.length }

/-- `MemTracker::release_thread_recorder(rec)`, source lines 321-339: the
recorder is deleted when shutdown is in progress or the pool counts more than
twice the thread count (the product in 32-bit `int` arithmetic), and cleared
and pushed on the pool otherwise. -/
def release_thread_recorder (s : MemTracker) (rec : MemRecorder) : MemTracker :=
  if shutdown_in_progress s ||
      decide (s._pooled_recorder_count > jint_wrap (s._thread_count * 2)) then
    delete_recorders s [rec]
  else
    { s with _pooled_recorders := rec.clear :: s._pooled_recorders,
             _pooled_recorder_count := jint_wrap (s._pooled_recorder_count + 1) }

/-- `MemTracker::thread_exiting(thread)`, source lines 506-514, for the Java
thread at entry `thread` of the thread table. -/
def thread_exiting (s : MemTracker) (thread : Nat) : MemTracker :=
  if is_on s then
    match get_slot s (some thread) with
    | some rec => set_slot (enqueue_pending_recorder s rec) (some thread) none
    | none => s
  else s

/-- `MemTracker::delete_all_pooled_recorders()`, source lines 220-234. -/
def delete_all_pooled_recorders (s : MemTracker) : MemTracker :=
  match s._pooled_recorders with
  | [] => s
  | cur_head :: rest =>
    { delete_recorders { s with _pooled_recorders := [] } (cur_head :: rest) with
        _pooled_recorder_count := 0 }

/-- `MemTracker::delete_all_pending_recorders()`, source lines 237-243. -/
def delete_all_pending_recorders (s : MemTracker) : MemTracker :=
  delete_recorders (get_pending_recorders s).2 (get_pending_recorders s).1

/-- `MemTracker::final_shutdown()`, source lines 185-217.  `current_is_worker`
is the answer of `Thread::current() == _worker_thread`.  The shutdown of the
symbol decoder is not represented. -/
def final_shutdown (s : MemTracker) (current_is_worker : Bool) : MemTracker :=
  let s := delete_all_pending_recorders s
  let s := delete_all_pooled_recorders s
  let s := { s with _baseline := false, _snapshot := none }
  let s :=
    if s._worker_thread.isSome && current_is_worker then { s with _worker_thread := none }
    else s
  { s with _state := .NMT_final_shutdown }

/-! ## Sync coordinator -/

/-- `MAX_SAFEPOINTS_TO_SKIP`, source line 384. -/
def MAX_SAFEPOINTS_TO_SKIP : Int := 128

/-- `SAFE_SEQUENCE_THRESHOLD`, source line 385. -/
def SAFE_SEQUENCE_THRESHOLD : Int := 30

/-- `HIGH_GENERATION_THRESHOLD`, source line 386. -/
def HIGH_GENERATION_THRESHOLD : Int := 60

/-- `MAX_RECORDER_THREAD_RATIO`, source line 387. -/
def MAX_RECORDER_THREAD_RATIO : Int := 30

/-- `MAX_RECORDER_PER_THREAD`, source line 388. -/
def MAX_RECORDER_PER_THREAD : Int := 100

/-- `SyncThreadRecorderClosure::do_thread(thread)`, source lines 43-54, applied
to entry `i` of the thread table; `_thread_count` is the counter of the
closure. -/
def SyncThreadRecorderClosure.do_thread (s : MemTracker) (_thread_count : Int) (i : Nat) :
    MemTracker × Int :=
  match s.threads.get? i with
  | none => (s, _thread_count)
  | some th =>
    (if th.is_Java_thread then
      match th._recorder with
      | some recorder => set_slot (enqueue_pending_recorder s recorder) (some i) none
      | none => s
     else s,
     jint_wrap (_thread_count + 1))

/-- Modelled from the spec: the threads that `Threads::threads_do` (thread.cpp)
walks, as entries of the thread table in table order: every thread of the
table but the Java threads that are not safepoint-visible, which the walk does
not reach (source lines 658-660). -/
def Threads.walked (s : MemTracker) : List Nat :=
  (List.range s.threads.length).filter (fun i =>
    match s.threads.get? i with
    | some th => !th.is_Java_thread || th.is_safepoint_visible
    | none => false)

/-- The closure `SyncThreadRecorderClosure` applied to the threads `is` in turn. -/
def SyncThreadRecorderClosure.walk (s : MemTracker) (_thread_count : Int) :
    List Nat → MemTracker × Int
  | [] => (s, _thread_count)
  | i :: is =>
    SyncThreadRecorderClosure.walk (SyncThreadRecorderClosure.do_thread s _thread_count i).1
      (SyncThreadRecorderClosure.do_thread s _thread_count i).2 is

/-- `Threads::threads_do(&stc)` for a fresh `SyncThreadRecorderClosure stc`: the
state after the walk and `stc.get_thread_count()`. -/
def Threads.threads_do (s : MemTracker) : MemTracker × Int :=
  SyncThreadRecorderClosure.walk s 0 (Threads.walked s)

/-- The throttle test of `sync`, source lines 407-409: `per_seq_in_use <
SAFE_SEQUENCE_THRESHOLD && per_gen_in_use >= HIGH_GENERATION_THRESHOLD`, with
the products in 32-bit `int` arithmetic and the division of C, rounding
towards zero. -/
def sync_should_skip (p : Platform) (s : MemTracker) (w : MemTrackWorker) : Bool :=
  let per_seq_in_use := Int.tdiv (jint_wrap (SequenceGenerator.peek s * 100)) max_jint
  let per_gen_in_use := Int.tdiv (jint_wrap (w.generations_in_use * 100)) p.MAX_GENERATIONS
  decide (per_seq_in_use < SAFE_SEQUENCE_THRESHOLD) &&
    decide (per_gen_in_use ≥ HIGH_GENERATION_THRESHOLD)

/-- The handing over of the global recorder in the drain of `sync`, source
lines 431-435: the global recorder becomes the head of the batch. -/
def sync_take_global (s : MemTracker) (pending_recorders : List MemRecorder) :
    List MemRecorder × MemTracker :=
  match s._global_recorder with
  | some g => (g :: pending_recorders, { s with _global_recorder := none })
  | none => (pending_recorders, s)

/-- The test on the outstanding recorder instances in the drain of `sync`,
source lines 439-446, with the products in 32-bit `int` arithmetic. -/
def sync_check_load (s : MemTracker) : MemTracker :=
  if !s.AutoShutdownNMT then
    let bound : Int := MAX_RECORDER_THREAD_RATIO * s._thread_count
    let slow : Bool := decide (s._instance_count > jint_wrap bound)
    { s with _slowdown_calling_thread := slow }
  else if s._instance_count ≥ jint_wrap (s._thread_count * MAX_RECORDER_PER_THREAD) then
    shutdown s .NMT_out_of_memory
  else s

/-- Modelled from the spec: `MemTrackWorker::at_sync_point(batch, class count)`
(declared in memTrackWorker.hpp) hands the batch and the class count to the
worker; called if `_worker_thread` is not `NULL` (source lines 449-451). -/
def sync_at_sync_point (s : MemTracker) (pending_recorders : List MemRecorder)
    (number_of_instance_classes : Nat) : MemTracker :=
  match s._worker_thread with
  | some w =>
    let w : MemTrackWorker :=
      { w with batches := w.batches ++ [(pending_recorders, number_of_instance_classes)] }
    { s with _worker_thread := some w }
  | none => s

/-- The drain of `sync`, the body of `if (_pending_op_count == 0)`, source lines
421-452.  `number_of_instance_classes` is the answer of
`InstanceKlass::number_of_instance_classes()`. -/
def sync_drain (p : Platform) (s : MemTracker) (number_of_instance_classes : Nat) : MemTracker :=
  let s := SequenceGenerator.reset p s
  let s := { s with _sync_point_skip_count := 0 }
  let s := { (Threads.threads_do s).1 with _thread_count := (Threads.threads_do s).2 }
  let pending_recorders := (get_pending_recorders s).1
  let s := (get_pending_recorders s).2
  let pending_recorders' := (sync_take_global s pending_recorders).1
  let s := (sync_take_global s pending_recorders).2
  let s := sync_check_load s
  sync_at_sync_point s pending_recorders' number_of_instance_classes

/-- The last part of `sync`, source lines 460-482: in state final_shutdown the
recorders of the threads, the global recorder and the pending recorders are
deleted, and once no recorder instance is left the state becomes shutdown and
the tracking level off. -/
def sync_final_shutdown (s : MemTracker) : MemTracker :=
  if s._state = .NMT_final_shutdown then
    let s := (Threads.threads_do s).1
    let s :=
      match s._global_recorder with
      | some g => { delete_recorders s [g] with _global_recorder := none }
      | none => s
    let s := delete_recorders (get_pending_recorders s).2 (get_pending_recorders s).1
    if s._instance_count = 0 then
      { s with _state := .NMT_shutdown, _tracking_level := .NMT_off }
    else s
  else s

/-- `MemTracker::sync()`, source lines 390-483.  `number_of_instance_classes` is
the answer of `InstanceKlass::number_of_instance_classes()`.  The two `return`
statements of the first part leave the function. -/
def sync (p : Platform) (s : MemTracker) (number_of_instance_classes : Nat) : MemTracker :=
  if s._state = .NMT_started then
    match s._worker_thread with
    | none => s
    | some w =>
      if s._sync_point_skip_count < MAX_SAFEPOINTS_TO_SKIP ∧ sync_should_skip p s w = true then
        { s with _sync_point_skip_count := jint_wrap (s._sync_point_skip_count + 1) }
      else
        sync_final_shutdown
          (if s._pending_op_count = 0 then sync_drain p s number_of_instance_classes
           else { s with _sync_point_skip_count := jint_wrap (s._sync_point_skip_count + 1) })
  else sync_final_shutdown s

/-! ## Waiting for the merge -/

/-- Conversion of an `unsigned long` value to `long`, two's complement. -/
def to_long (p : Platform) (x : Nat) : Int :=
  if x % 2 ^ p.unsigned_long_bits < 2 ^ (p.unsigned_long_bits - 1) then
    ((x % 2 ^ p.unsigned_long_bits : Nat) : Int)
  else ((x % 2 ^ p.unsigned_long_bits : Nat) : Int) - 2 ^ p.unsigned_long_bits

/-- The expression `MAX_UNSIGNED_LONG - current_processing_generation` of
`wbtest_wait_for_data_merge` (source lines 549 and 558): the difference in
`unsigned long` arithmetic, converted to `long`. -/
def generations_to_wrap (p : Platform) (current_processing_generation : Nat) : Int :=
  to_long p ((p.MAX_UNSIGNED_LONG + 2 ^ p.unsigned_long_bits
    - current_processing_generation % 2 ^ p.unsigned_long_bits) % 2 ^ p.unsigned_long_bits)

/-- What one turn of the loop of `wbtest_wait_for_data_merge` reads from the
running system: `shutdown_in_progress()` at the head of the loop,
`_worker_thread_idle`, whether `get_snapshot()` is not `NULL`, and
`_processing_generation` after the wait. -/
structure MergeObservation where
  shutdown_in_progress : Bool
  worker_thread_idle : Bool
  snapshot : Bool
  processing_generation : Nat
  deriving DecidableEq, Repr

/-- The test of the loop of `wbtest_wait_for_data_merge` that makes it return
`true`, source lines 552-565. -/
def merge_done (p : Platform) (generation_at_query_time : Nat) (generation_overflown : Bool)
    (generations_to_wrap0 : Int) (current_processing_generation : Nat) : Bool :=
  if !generation_overflown then
    decide (current_processing_generation > generation_at_query_time)
  else
    decide (generations_to_wrap p current_processing_generation > generations_to_wrap0) &&
      decide (current_processing_generation > generation_at_query_time)

/-- The loop of `wbtest_wait_for_data_merge`, source lines 551-581, one turn per
observation; `none` when the observations end before the loop returns.  The
safepoint forced when the worker is idle acts on the running system only. -/
def wbtest_wait_loop (p : Platform) (generation_at_query_time : Nat) (generation_overflown : Bool)
    (generations_to_wrap0 : Int) : Nat → List MergeObservation → Option Bool
  | _, [] => none
  | current_processing_generation, o :: os =>
    if o.shutdown_in_progress then some false
    else if merge_done p generation_at_query_time generation_overflown generations_to_wrap0
        current_processing_generation then some true
    else if !o.snapshot then some false
    else
      wbtest_wait_loop p generation_at_query_time generation_overflown generations_to_wrap0
        o.processing_generation os

/-- `MemTracker::wbtest_wait_for_data_merge()`, source lines 540-582, run against
the observations `obs`. -/
def wbtest_wait_for_data_merge (p : Platform) (s : MemTracker) (obs : List MergeObservation) :
    Option Bool :=
  let generation_at_query_time := SequenceGenerator.current_generation s
  let current_processing_generation := s._processing_generation
  let generation_overflown := decide (generation_at_query_time < current_processing_generation)
  wbtest_wait_loop p generation_at_query_time generation_overflown
    (generations_to_wrap p current_processing_generation) current_processing_generation obs

/-- The writes of a sequence of events through the slot of `thread`: one call of
`write_tracking_record` per event, each with the outcome of the recorder
allocation it may need. -/
def write_events (p : Platform) (s : MemTracker) (thread : Option Nat) :
    List (MemPointerRecord × NewResult) → MemTracker
  | [] => s
  | (e, a) :: es =>
    write_events p (write_tracking_record p s e.addr e.flags e.size e.seq e.pc thread a) thread es

/-- A sequence of `shutdown` calls, one per reason. -/
def shutdown_all (s : MemTracker) : List ShutdownReason → MemTracker
  | [] => s
  | r :: rs => shutdown_all (shutdown s r) rs

/-- A number of `sync` calls in a row, nothing happening in between. -/
def sync_repeat (p : Platform) (number_of_instance_classes : Nat) : Nat → MemTracker → MemTracker
  | 0, s => s
  | k + 1, s => sync_repeat p number_of_instance_classes k (sync p s number_of_instance_classes)

/-- A call on the recorder pool: `release_thread_recorder(rec)`,
`get_new_or_pooled_instance()` with the outcome of the allocation it may need,
or `delete_all_pooled_recorders()`. -/
inductive PoolCall where
  | release (rec : MemRecorder)
  | acquire (a : NewResult)
  | delete_all
  deriving DecidableEq, Repr

/-- The state after a call on the recorder pool. -/
def PoolCall.run (s : MemTracker) : PoolCall → MemTracker
  | .release rec => release_thread_recorder s rec
  | .acquire a => (get_new_or_pooled_instance s a).2
  | .delete_all => delete_all_pooled_recorders s

/-- A sequence of calls on the recorder pool, one after the other. -/
def pool_calls (s : MemTracker) : List PoolCall → MemTracker
  | [] => s
  | c :: cs => pool_calls (c.run s) cs

/-- How a tracker is completed: by one of the two variants of `record`, with
the arguments of the call and the outcomes of the recorder allocations the
writes may need, or by `discard`. -/
inductive Completion where
  | record (addr size flags pc caller_caller_pc : Nat) (a1 a2 : NewResult)
  | record_realloc (old_addr new_addr size flags pc : Nat) (a1 a2 : NewResult)
  | discard
  deriving DecidableEq, Repr

/-- One use of a tracker: it is constructed in the storage `mem` for the
operation `op` and the thread `thr` (`tls` is the answer of
`ThreadLocalStorage::thread()`) and completed before anything else happens. -/
structure TrackerUse where
  mem : Tracker
  op : MemoryOperation
  thr : Option Nat
  tls : Option Nat
  completion : Completion
  deriving DecidableEq, Repr

/-- The state after one use of a tracker; `none` where `record` stops the VM. -/
def TrackerUse.run (p : Platform) (s : MemTracker) (u : TrackerUse) : Option MemTracker :=
  match u.completion with
  | .record addr size flags pc caller_caller_pc a1 a2 =>
    ((Tracker.new s u.mem u.op u.thr u.tls).1.record p (Tracker.new s u.mem u.op u.thr u.tls).2
      addr size flags pc caller_caller_pc a1 a2).map Prod.snd
  | .record_realloc old_addr new_addr size flags pc a1 a2 =>
    some ((Tracker.new s u.mem u.op u.thr u.tls).1.record_realloc p
      (Tracker.new s u.mem u.op u.thr u.tls).2 old_addr new_addr size flags pc a1 a2).2
  | .discard =>
    some ((Tracker.new s u.mem u.op u.thr u.tls).1.discard
      (Tracker.new s u.mem u.op u.thr u.tls).2).2

/-- A sequence of uses of trackers, each completed before the next tracker is
constructed; `none` where a `record` stops the VM. -/
def tracker_uses (p : Platform) (s : MemTracker) : List TrackerUse → Option MemTracker
  | [] => some s
  | u :: us =>
    match u.run p s with
    | some s' => tracker_uses p s' us
    | none => none

/-! ## Observations used by the statements -/

/-- The records written through the slot of `thread` that have not been handed
to the worker: the records of the recorders on the pending queue, the oldest
recorder first, followed by the records of the recorder in the slot. -/
def written_records (s : MemTracker) (thread : Option Nat) : List MemPointerRecord :=
  (s._merge_pending_queue.reverse.map (fun r => r.records)).flatten ++
    (match get_slot s thread with
     | some r => r.records
     | none => [])

/-- The number of records a completed operation is expected to append: none for
NoOp, two for realloc and reserve-and-commit, one for every other kind. -/
def expected_record_count : MemoryOperation → Nat
  | .NoOp => 0
  | .Realloc => 2
  | .ReserveAndCommit => 2
  | _ => 1

/-- The records held by the pending queue, the oldest recorder first. -/
def pending_records (s : MemTracker) : List MemPointerRecord :=
  (s._merge_pending_queue.reverse.map (fun r => r.records)).flatten

/-- The value of `current_processing_generation` in `wbtest_wait_for_data_merge` after the
turns of the loop that read `obs`: `_processing_generation` as read by the last turn, or as read
at the query when there has been no turn. -/
def processing_generation_after (s : MemTracker) (obs : List MergeObservation) : Nat :=
  ((obs.map MergeObservation.processing_generation).getLast?).getD s._processing_generation

/-- The states in which `sync` is called along a run that starts with a skip count of zero and
in which every `sync` is called in state started, with a worker and with no pending operation.
Between two calls anything may change but the skip count, which `sync` alone writes (source lines
410, 422 and 454). -/
inductive SyncRun (p : Platform) : MemTracker → Prop
  | first (s : MemTracker) : s._sync_point_skip_count = 0 → SyncRun p s
  | next (s s' : MemTracker) (number_of_instance_classes : Nat) (w : MemTrackWorker) :
      SyncRun p s → s._state = .NMT_started → s._worker_thread = some w →
      s._pending_op_count = 0 →
      s'._sync_point_skip_count = (sync p s number_of_instance_classes)._sync_point_skip_count →
      SyncRun p s'

/-- The recorder in the slot of a thread if it is a Java thread. -/
def Thread.java_recorder (th : Thread) : Option MemRecorder :=
  if th.is_Java_thread then th._recorder else none

/-- The recorders in the slots of the Java threads among the entries `is` of the thread table,
in the order of `is`. -/
def java_slot_recorders (s : MemTracker) (is : List Nat) : List MemRecorder :=
  is.filterMap (fun i => (s.threads.get? i).bind Thread.java_recorder)

/-- Every Java thread that holds a recorder in its slot is safepoint-visible: the constructor of
the tracker routes to the slot of a safepoint-visible Java thread only, and `thread_exiting`
collects the recorder of a thread before it exits. -/
def slots_visible (s : MemTracker) : Prop :=
  ∀ th ∈ s.threads, th.is_Java_thread = true → th._recorder ≠ none →
    th.is_safepoint_visible = true

instance (s : MemTracker) : Decidable (slots_visible s) := by
  unfold slots_visible
  infer_instance

/-- The count of recorder instances that `sync` leaves in state final_shutdown when it has
deleted the recorders in the slots of the Java threads it walks, the global recorder and the
recorders on the pending queue. -/
def instances_after_deletion (s : MemTracker) : Int :=
  s._instance_count - (java_slot_recorders s (Threads.walked s)).length
    - s._global_recorder.toList.length - s._merge_pending_queue.length

/-- The assertion of the realloc variant of `record` (source line 787): the tracker it
completes has been constructed for Realloc or for NoOp. -/
def TrackerUse.asserted (u : TrackerUse) : Prop :=
  match u.completion with
  | .record_realloc _ _ _ _ _ _ _ => u.op = .Realloc ∨ u.op = .NoOp
  | _ => True

instance (u : TrackerUse) : Decidable u.asserted := by
  unfold TrackerUse.asserted
  split <;> infer_instance

/-- The recorders that may hold records: those in the slots of the threads, the global recorder
and those on the pending queue. -/
def recorders_in_use (s : MemTracker) : List MemRecorder :=
  s.threads.filterMap (fun t => t._recorder) ++ (s._global_recorder.toList ++ s._merge_pending_queue)

/-- The sequence numbers of the records of a recorder are strictly increasing in append order. -/
def MemRecorder.seq_increasing (r : MemRecorder) : Prop :=
  (r.records.map (fun e => e.seq)).Pairwise (fun a b => a < b)

instance (r : MemRecorder) : Decidable r.seq_increasing := by
  unfold MemRecorder.seq_increasing
  infer_instance

/-- The records of every recorder in use have strictly increasing sequence numbers, none above
the bound `b`. -/
def seq_ordered (s : MemTracker) (b : Int) : Prop :=
  ∀ r ∈ recorders_in_use s, r.seq_increasing ∧ ∀ e ∈ r.records, e.seq ≤ b

instance (s : MemTracker) (b : Int) : Decidable (seq_ordered s b) := by
  unfold seq_ordered
  infer_instance

/-- The recorders in the slots of the threads, in the order of the thread table. -/
def slot_recorders (s : MemTracker) : List MemRecorder :=
  s.threads.filterMap (fun t => t._recorder)

/-- The recorders of the batches handed to the worker. -/
def worker_recorders (s : MemTracker) : List MemRecorder :=
  match s._worker_thread with
  | some w => (w.batches.map Prod.fst).flatten
  | none => []

/-- The recorders the tracker subsystem references: those in the slots of the threads, the
global recorder, those of the pool, those of the pending queue and those of the batches handed
to the worker. -/
def referenced (s : MemTracker) : List MemRecorder :=
  slot_recorders s ++ (s._global_recorder.toList ++ (s._pooled_recorders ++
    (s._merge_pending_queue ++ worker_recorders s)))

/-- The number of recorders of a list whose identity is `a`. -/
def id_count (a : Nat) (l : List MemRecorder) : Nat :=
  (l.map (fun r => r.id)).count a

/-- The identities of the recorders referenced by the tracker subsystem and of the recorders
`held` by the callers the functions returned them to. -/
def owner_ids (s : MemTracker) (held : List MemRecorder) : List Nat :=
  (referenced s ++ held).map (fun r => r.id)

/-- Exclusive ownership: no recorder is referenced twice, be it from a slot, the pool, the
pending queue, a batch handed to the worker or a caller. -/
def exclusive (s : MemTracker) (held : List MemRecorder) : Prop :=
  (owner_ids s held).Nodup

instance (s : MemTracker) (held : List MemRecorder) : Decidable (exclusive s held) := by
  unfold exclusive
  infer_instance

/-- The number, 0 or 1, of recorders with identity `a` that an allocation creates. -/
def NewResult.id_count (n : NewResult) (a : Nat) : Nat :=
  match n with
  | .ok q => if q = a then 1 else 0
  | _ => 0

/-- The allocator returns the address of no recorder that is referenced. -/
def NewResult.fresh (a : NewResult) (s : MemTracker) (held : List MemRecorder) : Prop :=
  match a with
  | .ok q => q ∉ owner_ids s held
  | _ => True

instance (a : NewResult) (s : MemTracker) (held : List MemRecorder) :
    Decidable (a.fresh s held) := by
  unfold NewResult.fresh
  split <;> infer_instance

/-- The sequential steps on the recorders, on pairs of the state and of the recorders held by
callers.  `get_new_or_pooled_instance` and `get_pending_recorders` return recorders to the
caller; `release_thread_recorder` and `enqueue_pending_recorder` take a recorder the caller
holds; the worker takes the batches handed to it. -/
inductive OwnerStep (p : Platform) :
    MemTracker × List MemRecorder → MemTracker × List MemRecorder → Prop
  | get_thread_recorder (s : MemTracker) (held : List MemRecorder) (thread : Option Nat)
      (a : NewResult) : a.fresh s held →
      OwnerStep p (s, held) ((get_thread_recorder p s thread a).2, held)
  | get_new_or_pooled_instance (s : MemTracker) (held : List MemRecorder) (a : NewResult) :
      a.fresh s held →
      OwnerStep p (s, held)
        ((get_new_or_pooled_instance s a).2, (get_new_or_pooled_instance s a).1.toList ++ held)
  | release_thread_recorder (s : MemTracker) (held : List MemRecorder) (rec : MemRecorder) :
      rec ∈ held → OwnerStep p (s, held) (release_thread_recorder s rec, held.erase rec)
  | enqueue_pending_recorder (s : MemTracker) (held : List MemRecorder) (rec : MemRecorder) :
      rec ∈ held → OwnerStep p (s, held) (enqueue_pending_recorder s rec, held.erase rec)
  | get_pending_recorders (s : MemTracker) (held : List MemRecorder) :
      OwnerStep p (s, held) ((get_pending_recorders s).2, (get_pending_recorders s).1 ++ held)
  | thread_exiting (s : MemTracker) (held : List MemRecorder) (thread : Nat) :
      OwnerStep p (s, held) (thread_exiting s thread, held)
  | sync (s : MemTracker) (held : List MemRecorder) (number_of_instance_classes : Nat) :
      OwnerStep p (s, held) (sync p s number_of_instance_classes, held)
  | worker_takes (s : MemTracker) (held : List MemRecorder) (w : MemTrackWorker) :
      s._worker_thread = some w →
      OwnerStep p (s, held)
        ({ s with _worker_thread := some { w with batches := [] } },
          (w.batches.map Prod.fst).flatten ++ held)

/-- A thread reference is valid in a state when it is `NULL` or designates an
entry of the thread table. -/
def valid_thread (s : MemTracker) (thread : Option Nat) : Prop :=
  match thread with
  | none => True
  | some i => i < s.threads.length

instance (s : MemTracker) (thread : Option Nat) : Decidable (valid_thread s thread) := by
  unfold valid_thread
  cases thread <;> infer_instance

/-- Every recorder in the pool has been cleared, as `release_thread_recorder`
does before it pushes a recorder on the pool. -/
def pool_cleared (s : MemTracker) : Prop :=
  ∀ r ∈ s._pooled_recorders, r.records = []

instance (s : MemTracker) : Decidable (pool_cleared s) := by
  unfold pool_cleared
  infer_instance

/-- The records that `Tracker.record_writes` passes to `write_tracking_record`, in order. -/
def Tracker.record_list (p : Platform) (t : Tracker) (s : MemTracker)
    (addr flags orig_flags size pc : Nat) : List MemPointerRecord :=
  let seq1 := if t._seq = 0 then jint_wrap (s._seq_number + 1) else t._seq
  let c1 := if t._seq = 0 then jint_wrap (s._seq_number + 1) else s._seq_number
  ⟨addr, flags, size, seq1, pc⟩ ::
    (if t._op = .ReserveAndCommit then
      [⟨addr, orig_flags ||| p.virtual_memory_commit_tag, size, jint_wrap (c1 + 1), pc⟩]
     else [])

/-- Two states agree on the lifecycle state, the tracking level, the sequence
generator, the pending-op count and the size of the thread table. -/
structure SameControl (s s' : MemTracker) : Prop where
  state : s'._state = s._state
  level : s'._tracking_level = s._tracking_level
  seq : s'._seq_number = s._seq_number
  gen : s'._generation = s._generation
  pending : s'._pending_op_count = s._pending_op_count
  nthreads : s'.threads.length = s.threads.length

/-- The second state has the tracking level, the sequence generator and the
pending-op count of the first, and tracking is on in it if it is in the first. -/
structure SameCounters (s s' : MemTracker) : Prop where
  level : s'._tracking_level = s._tracking_level
  seq : s'._seq_number = s._seq_number
  gen : s'._generation = s._generation
  pending : s'._pending_op_count = s._pending_op_count
  ison : is_on s = true → is_on s' = true

/-- The second state differs from the first at most in the recorder slots of the threads, in the
pending queue and in the count of recorder instances. -/
structure SameButRecorders (s s' : MemTracker) : Prop where
  global : s'._global_recorder = s._global_recorder
  pool : s'._pooled_recorders = s._pooled_recorders
  skip : s'._sync_point_skip_count = s._sync_point_skip_count
  level : s'._tracking_level = s._tracking_level
  state : s'._state = s._state
  reason : s'._reason = s._reason
  thread_count : s'._thread_count = s._thread_count
  pooled_count : s'._pooled_recorder_count = s._pooled_recorder_count
  pending : s'._pending_op_count = s._pending_op_count
  slowdown : s'._slowdown_calling_thread = s._slowdown_calling_thread
  seq : s'._seq_number = s._seq_number
  gen : s'._generation = s._generation
  nthreads : s'.threads.length = s.threads.length
  snapshot : s'._snapshot = s._snapshot
  baseline : s'._baseline = s._baseline
  query_lock : s'._query_lock = s._query_lock
  worker : s'._worker_thread = s._worker_thread
  processing : s'._processing_generation = s._processing_generation
  idle : s'._worker_thread_idle = s._worker_thread_idle
  callsite : s'.NMT_track_callsite = s.NMT_track_callsite
  malloc_only : s'.UseMallocOnly = s.UseMallocOnly
  auto_shutdown : s'.AutoShutdownNMT = s.AutoShutdownNMT

/-- The answers of a thread that the tracker reads, its recorder slot left out. -/
def Thread.attributes (t : Thread) : Bool × Bool × Bool :=
  (t.is_Java_thread, t.is_safepoint_visible, t.safepoint_safe)

/-- The second state differs from the first at most in the recorder slots (of the threads and
the global one), in the pending queue, in the pool and in the counts of recorder instances and
of pooled recorders. -/
structure SameButStore (s s' : MemTracker) : Prop where
  skip : s'._sync_point_skip_count = s._sync_point_skip_count
  level : s'._tracking_level = s._tracking_level
  state : s'._state = s._state
  reason : s'._reason = s._reason
  thread_count : s'._thread_count = s._thread_count
  pending : s'._pending_op_count = s._pending_op_count
  slowdown : s'._slowdown_calling_thread = s._slowdown_calling_thread
  seq : s'._seq_number = s._seq_number
  gen : s'._generation = s._generation
  nthreads : s'.threads.length = s.threads.length
  attributes : ∀ j, (s'.threads.get? j).map Thread.attributes
    = (s.threads.get? j).map Thread.attributes
  worker : s'._worker_thread = s._worker_thread
  auto_shutdown : s'.AutoShutdownNMT = s.AutoShutdownNMT

/-- The state in the drain of `sync` when the recorders have been collected (source line 435),
before the test on the outstanding recorder instances. -/
def sync_collect (p : Platform) (s : MemTracker) : MemTracker :=
  (sync_take_global
    (get_pending_recorders
      { (Threads.threads_do { SequenceGenerator.reset p s with _sync_point_skip_count := 0 }).1 with
          _thread_count :=
            (Threads.threads_do
              { SequenceGenerator.reset p s with _sync_point_skip_count := 0 }).2 }).2
    (get_pending_recorders
      { (Threads.threads_do { SequenceGenerator.reset p s with _sync_point_skip_count := 0 }).1 with
          _thread_count :=
            (Threads.threads_do
              { SequenceGenerator.reset p s with _sync_point_skip_count := 0 }).2 }).1).2

/-- The batch that the drain of `sync` hands to the worker: the pending queue after the thread
walk, with the global recorder, if there is one, at its head. -/
def sync_batch (p : Platform) (s : MemTracker) : List MemRecorder :=
  (sync_take_global
    (get_pending_recorders
      { (Threads.threads_do { SequenceGenerator.reset p s with _sync_point_skip_count := 0 }).1 with
          _thread_count :=
            (Threads.threads_do
              { SequenceGenerator.reset p s with _sync_point_skip_count := 0 }).2 }).2
    (get_pending_recorders
      { (Threads.threads_do { SequenceGenerator.reset p s with _sync_point_skip_count := 0 }).1 with
          _thread_count :=
            (Threads.threads_do
              { SequenceGenerator.reset p s with _sync_point_skip_count := 0 }).2 }).1).1

/-! ## States and trackers for the worked examples -/

/-- A platform for the worked examples: one bit per operation tag, every flag trackable,
64-bit pointers and `unsigned long`, recorders of two records, 512 generations. -/
def demo_platform : Platform :=
  { malloc_tag := 1, free_tag := 2, virtual_memory_reserve_tag := 4,
    virtual_memory_commit_tag := 8, virtual_memory_type_tag := 16,
    virtual_memory_uncommit_tag := 32, virtual_memory_release_tag := 64, arena_size_tag := 128,
    NMT_CAN_TRACK := fun _ => true, sizeof_voidp := 8, recorder_capacity := 2,
    MAX_GENERATIONS := 512, unsigned_long_bits := 64, MAX_UNSIGNED_LONG := 18446744073709551615 }

/-- A started tracker subsystem with three threads: a Java thread running in the VM, a Java
thread in a safepoint-safe state, and a thread that is not a Java thread. -/
def demo_started : MemTracker :=
  { _tracking_level := .NMT_summary
    _state := .NMT_started
    threads := [⟨true, true, false, none⟩, ⟨true, true, true, none⟩, ⟨false, false, false, none⟩] }

/-- Storage for a tracker before its constructor runs. -/
def demo_storage : Tracker := ⟨.NoOp, 0, none, false⟩

/-- The tracker subsystem in the second phase of bootstrapping, tracking level summary. -/
def demo_bootstrapping : MemTracker :=
  { _tracking_level := .NMT_summary, _state := .NMT_bootstrapping_multi_thread }

/-- The platform of `demo_platform` with recorders that hold 100 records. -/
def demo_platform_100 : Platform := { demo_platform with recorder_capacity := 100 }

/-- The first of 101 events. -/
def demo_first : MemPointerRecord := ⟨16, 1, 8, 1, 0⟩

/-- The 99 events between the first and the last, with the outcome of an allocation for each. -/
def demo_mid : List (MemPointerRecord × NewResult) := List.replicate 99 (⟨32, 1, 8, 2, 0⟩, .ok 3)

/-- The last of 101 events. -/
def demo_last : MemPointerRecord := ⟨48, 1, 8, 3, 0⟩

/-- The 101 events, each with the outcome of the allocation the write may need. -/
def demo_events : List (MemPointerRecord × NewResult) :=
  (demo_first, .ok 1) :: demo_mid ++ [(demo_last, .ok 2)]

/-- A tracker subsystem whose generator is in generation 5 while the worker has processed
generation 3. -/
def demo_merging : MemTracker :=
  { _tracking_level := .NMT_summary, _state := .NMT_started, _generation := 5,
    _processing_generation := 3, _snapshot := some {}, _worker_thread := some {} }

/-- The started tracker subsystem of `demo_started` with a worker. -/
def demo_running : MemTracker :=
  { demo_started with _worker_thread := some {} }

/-- The tracker subsystem of `demo_started` with a worker that has 400 of the 512 generations
in use, so that `sync` is throttled. -/
def demo_throttled : MemTracker :=
  { demo_started with _worker_thread := some { generations_in_use := 400 } }

/-- The tracker subsystem of `demo_throttled` after 128 skipped safepoints. -/
def demo_skipped : MemTracker := { demo_throttled with _sync_point_skip_count := 128 }

/-- The tracker subsystem of `demo_started` where the recorder of the first thread holds one
record, one less than the recorders of `demo_platform` hold. -/
def demo_filling : MemTracker :=
  { demo_started with
      threads := [⟨true, true, false, some { id := 1, records := [demo_first] }⟩,
        ⟨true, true, true, none⟩, ⟨false, false, false, none⟩] }

/-- A Malloc tracker of the first thread of `demo_started`, which needs no lock. -/
def demo_malloc_tracker : Tracker := ⟨.Malloc, 0, some 0, false⟩

/-- The tracker subsystem of `demo_started` with a thread count of one. -/
def demo_single : MemTracker := { demo_started with _thread_count := 1 }

/-- The tracker subsystem of `demo_running` with a recorder in the slot of each Java thread, a
global recorder and a recorder on the pending queue, and four recorder instances. -/
def demo_collect : MemTracker :=
  { demo_running with
      _global_recorder := some { id := 4, records := [demo_last] }
      _merge_pending_queue := [{ id := 3, records := [demo_first, demo_last] }]
      _instance_count := 4
      threads := [⟨true, true, false, some { id := 1, records := [demo_first] }⟩,
        ⟨true, true, true, some { id := 2 }⟩, ⟨false, false, false, none⟩] }

/-- The tracker subsystem of `demo_collect` in state final_shutdown. -/
def demo_final : MemTracker := { demo_collect with _state := .NMT_final_shutdown }

/-- Two trackers of the first thread of `demo_started` whose lifetimes overlap: a Release
tracker is constructed, then a Malloc tracker is constructed and records, then the Release
tracker records. -/
def demo_overlap : Option MemTracker :=
  let release := Tracker.new demo_started demo_storage .Release (some 0) none
  let malloc := Tracker.new release.2 demo_storage .Malloc (some 0) none
  match malloc.1.record demo_platform malloc.2 4096 64 0 0 0 (.ok 1) .null with
  | some x => (release.1.record demo_platform x.2 8192 64 0 0 0 .null .null).map Prod.snd
  | none => none

/-- Three uses of trackers by the first thread of `demo_started`, one after the other: a
release, a reserve-and-commit and a realloc. -/
def demo_uses : List TrackerUse :=
  [⟨demo_storage, .Release, some 0, none, .record 4096 64 0 0 0 (.ok 1) .null⟩,
   ⟨demo_storage, .ReserveAndCommit, some 0, none, .record 8192 64 0 0 0 (.ok 2) (.ok 3)⟩,
   ⟨demo_storage, .Realloc, some 0, none, .record_realloc 8192 12288 64 0 0 (.ok 4) (.ok 5)⟩]

/-- The tracker subsystem of `demo_throttled` with half of the sequence numbers of the
generation in use. -/
def demo_half_used : MemTracker := { demo_throttled with _seq_number := 1073741823 }

/-- The tracker subsystem of `demo_running`, of three threads, with 200 recorder instances
outstanding. -/
def demo_busy : MemTracker := { demo_running with _instance_count := 200 }

/-- The tracker subsystem of `demo_running`, of three threads, with 300 recorder instances
outstanding. -/
def demo_loaded : MemTracker := { demo_running with _instance_count := 300 }

/-! ## Lemmas on the recorder plumbing -/

theorem jint_wrap_id (x : Int) (h1 : -2147483648 ≤ x) (h2 : x ≤ 2147483647) : jint_wrap x = x := by
  unfold jint_wrap; omega

theorem get_slot_set_slot (s : MemTracker) (thread : Option Nat) (rc : Option MemRecorder)
    (hv : valid_thread s thread) : get_slot (set_slot s thread rc) thread = rc := by
  cases thread with
  | none => rfl
  | some i =>
    simp only [valid_thread] at hv
    simp [get_slot, set_slot, List.get?_eq_getElem?, List.getElem?_modify, hv]

theorem SameControl_refl (s : MemTracker) : SameControl s s := ⟨rfl, rfl, rfl, rfl, rfl, rfl⟩

theorem SameControl_trans {a b c : MemTracker} (h1 : SameControl a b) (h2 : SameControl b c) :
    SameControl a c :=
  ⟨h2.state.trans h1.state, h2.level.trans h1.level, h2.seq.trans h1.seq, h2.gen.trans h1.gen,
    h2.pending.trans h1.pending, h2.nthreads.trans h1.nthreads⟩

theorem set_slot_frame (s : MemTracker) (thread : Option Nat) (rc : Option MemRecorder) :
    SameControl s (set_slot s thread rc) ∧
    (set_slot s thread rc)._merge_pending_queue = s._merge_pending_queue ∧
    (set_slot s thread rc)._pooled_recorders = s._pooled_recorders := by
  cases thread with
  | none => exact ⟨⟨rfl, rfl, rfl, rfl, rfl, rfl⟩, rfl, rfl⟩
  | some i => exact ⟨⟨rfl, rfl, rfl, rfl, rfl, by simp [set_slot]⟩, rfl, rfl⟩

theorem set_slot_control {s0 s : MemTracker} (thread : Option Nat) (rc : Option MemRecorder)
    (h : SameControl s0 s) : SameControl s0 (set_slot s thread rc) :=
  SameControl_trans h (set_slot_frame s thread rc).1

theorem valid_thread_of_length {s s' : MemTracker} {thread : Option Nat}
    (h : s'.threads.length = s.threads.length) (hv : valid_thread s thread) :
    valid_thread s' thread := by
  cases thread with
  | none => trivial
  | some i => simpa [valid_thread, h] using hv

theorem shutdown_in_progress_of_state {s s' : MemTracker} (h : s'._state = s._state) :
    shutdown_in_progress s' = shutdown_in_progress s := by
  simp [shutdown_in_progress, h]

theorem is_on_of_control {s s' : MemTracker} (h : SameControl s s') : is_on s' = is_on s := by
  simp [is_on, h.state, h.level]

theorem written_records_eq (s : MemTracker) (thread : Option Nat) :
    written_records s thread = pending_records s ++
      (match get_slot s thread with
       | some r => r.records
       | none => []) := rfl

/-- What `get_thread_recorder` returns when shutdown is not in progress and an allocation, if
needed, succeeds: a recorder that is not full and sits in the slot of the thread. -/
theorem get_thread_recorder_ok (p : Platform) (s : MemTracker) (thread : Option Nat) (q : Nat)
    (hcap : 0 < p.recorder_capacity) (hs : shutdown_in_progress s = false)
    (hv : valid_thread s thread) (hp : pool_cleared s) :
    ∃ r s1, get_thread_recorder p s thread (.ok q) = (some r, s1) ∧ r.is_full p = false ∧
      get_slot s1 thread = some r ∧ pending_records s1 ++ r.records = written_records s thread ∧
      SameControl s s1 ∧ pool_cleared s1 := by
  have hnew : ∀ s0 : MemTracker, shutdown_in_progress s0 = false → valid_thread s0 thread →
      pool_cleared s0 →
      ∃ r s1, (let (rc, s2) := get_new_or_pooled_instance s0 (.ok q); (rc, set_slot s2 thread rc))
          = (some r, s1) ∧ r.is_full p = false ∧ get_slot s1 thread = some r ∧
        pending_records s1 = pending_records s0 ∧ r.records = [] ∧
        SameControl s0 s1 ∧ pool_cleared s1 := by
    intro s0 _ hv0 hp0
    unfold get_new_or_pooled_instance
    cases hpool : s0._pooled_recorders with
    | nil =>
      refine ⟨_, _, rfl, ?_, ?_, ?_, rfl, ?_, ?_⟩
      · simp [MemRecorder.is_full]; omega
      · exact get_slot_set_slot _ _ _ (valid_thread_of_length rfl hv0)
      · simp [pending_records, (set_slot_frame _ _ _).2.1]
      · exact set_slot_control _ _ ⟨rfl, rfl, rfl, rfl, rfl, rfl⟩
      · intro r hr
        rw [(set_slot_frame _ _ _).2.2] at hr
        simp at hr
    | cons h t =>
      have hh : h.records = [] := hp0 h (by simp [hpool])
      refine ⟨_, _, rfl, ?_, ?_, ?_, hh, ?_, ?_⟩
      · simp [MemRecorder.is_full, hh]; omega
      · exact get_slot_set_slot _ _ _ (valid_thread_of_length rfl hv0)
      · simp [pending_records, (set_slot_frame _ _ _).2.1]
      · exact set_slot_control _ _ ⟨rfl, rfl, rfl, rfl, rfl, rfl⟩
      · intro r hr
        rw [(set_slot_frame _ _ _).2.2] at hr
        exact hp0 r (by simp [hpool]; exact Or.inr hr)
  unfold get_thread_recorder
  simp only [hs]
  cases hslot : get_slot s thread with
  | none =>
    obtain ⟨r, s1, h1, h2, h3, h4, h5, h6, h7⟩ := hnew s hs hv hp
    refine ⟨r, s1, ?_, h2, h3, ?_, h6, h7⟩
    · simpa using h1
    · simp [written_records_eq, hslot, h4, h5]
  | some r0 =>
    by_cases hf : r0.is_full p = true
    · have he : enqueue_pending_recorder s r0
          = { s with _merge_pending_queue := r0 :: s._merge_pending_queue } := by
        simp [enqueue_pending_recorder, hs]
      have hs' : shutdown_in_progress (enqueue_pending_recorder s r0) = false := by
        rw [he]
        exact hs
      obtain ⟨r, s1, h1, h2, h3, h4, h5, h6, h7⟩ := hnew (enqueue_pending_recorder s r0) hs'
        (valid_thread_of_length (by rw [he]) hv) (by rw [he]; exact hp)
      refine ⟨r, s1, ?_, h2, h3, ?_, ?_, h7⟩
      · simpa [hf] using h1
      · rw [h4, h5, he]
        simp [written_records_eq, hslot, pending_records]
      · rw [he] at h6
        exact ⟨h6.state, h6.level, h6.seq, h6.gen, h6.pending, h6.nthreads⟩
    · simp only [Bool.not_eq_true] at hf
      refine ⟨r0, s, ?_, hf, hslot, ?_, SameControl_refl s, hp⟩
      · simp [hf]
      · simp [written_records_eq, hslot]

theorem write_tracking_record_ok (p : Platform) (s : MemTracker) (addr flags size : Nat)
    (seq : Int) (pc : Nat) (thread : Option Nat) (q : Nat)
    (hcap : 0 < p.recorder_capacity) (hs : shutdown_in_progress s = false)
    (hv : valid_thread s thread) (hp : pool_cleared s) :
    written_records (write_tracking_record p s addr flags size seq pc thread (.ok q)) thread
      = written_records s thread ++ [⟨addr, flags, size, seq, pc⟩] ∧
    SameControl s (write_tracking_record p s addr flags size seq pc thread (.ok q)) ∧
    pool_cleared (write_tracking_record p s addr flags size seq pc thread (.ok q)) := by
  obtain ⟨r, s1, h1, h2, h3, h4, h5, h6⟩ := get_thread_recorder_ok p s thread q hcap hs hv hp
  have hw : write_tracking_record p s addr flags size seq pc thread (.ok q)
      = set_slot s1 thread (some (r.record p addr flags size seq pc)) := by
    simp [write_tracking_record, h1]
  have hv1 : valid_thread s1 thread := valid_thread_of_length h5.nthreads hv
  rw [hw]
  refine ⟨?_, SameControl_trans h5 (set_slot_frame _ _ _).1, ?_⟩
  · rw [written_records_eq, get_slot_set_slot _ _ _ hv1, ← h4]
    simp [MemRecorder.record, h2, pending_records, (set_slot_frame _ _ _).2.1]
  · intro x hx
    rw [(set_slot_frame _ _ _).2.2] at hx
    exact h6 x hx

theorem SameCounters_trans {a b c : MemTracker} (h1 : SameCounters a b) (h2 : SameCounters b c) :
    SameCounters a c :=
  ⟨h2.level.trans h1.level, h2.seq.trans h1.seq, h2.gen.trans h1.gen,
    h2.pending.trans h1.pending, fun h => h2.ison (h1.ison h)⟩

theorem set_slot_counters (s : MemTracker) (thread : Option Nat) (rc : Option MemRecorder) :
    SameCounters s (set_slot s thread rc) := by
  cases thread <;> exact ⟨rfl, rfl, rfl, rfl, fun h => h⟩

theorem shutdown_counters (s : MemTracker) (reason : ShutdownReason) :
    SameCounters s (shutdown s reason) := by
  unfold shutdown
  split
  · exact ⟨rfl, rfl, rfl, rfl, fun h => h⟩
  · rename_i hl
    split
    · refine ⟨rfl, rfl, rfl, rfl, fun _ => ?_⟩
      simp [is_on, hl, NMTStates.toNat]
    · split
      · refine ⟨rfl, rfl, rfl, rfl, fun _ => ?_⟩
        simp [is_on, hl, NMTStates.toNat]
      · exact ⟨rfl, rfl, rfl, rfl, fun h => h⟩

theorem enqueue_pending_recorder_counters (s : MemTracker) (rec : MemRecorder) :
    SameCounters s (enqueue_pending_recorder s rec) := by
  unfold enqueue_pending_recorder
  split <;> exact ⟨rfl, rfl, rfl, rfl, fun h => h⟩

theorem get_new_or_pooled_instance_counters (s : MemTracker) (a : NewResult) :
    SameCounters s (get_new_or_pooled_instance s a).2 := by
  unfold get_new_or_pooled_instance
  split
  · cases a with
    | null => exact shutdown_counters s _
    | oom q => exact shutdown_counters s _
    | ok q => exact ⟨rfl, rfl, rfl, rfl, fun h => h⟩
  · exact ⟨rfl, rfl, rfl, rfl, fun h => h⟩

theorem get_thread_recorder_counters (p : Platform) (s : MemTracker) (thread : Option Nat)
    (a : NewResult) : SameCounters s (get_thread_recorder p s thread a).2 := by
  unfold get_thread_recorder
  split
  · exact ⟨rfl, rfl, rfl, rfl, fun h => h⟩
  · cases get_slot s thread with
    | none =>
      exact SameCounters_trans (get_new_or_pooled_instance_counters s a) (set_slot_counters _ _ _)
    | some r =>
      by_cases hf : r.is_full p = true
      · simp only [hf, if_true]
        exact SameCounters_trans (enqueue_pending_recorder_counters s r)
          (SameCounters_trans (get_new_or_pooled_instance_counters _ a) (set_slot_counters _ _ _))
      · simp only [hf]
        exact ⟨rfl, rfl, rfl, rfl, fun h => h⟩

theorem write_tracking_record_counters (p : Platform) (s : MemTracker) (addr flags size : Nat)
    (seq : Int) (pc : Nat) (thread : Option Nat) (a : NewResult) :
    SameCounters s (write_tracking_record p s addr flags size seq pc thread a) := by
  unfold write_tracking_record
  have h := get_thread_recorder_counters p s thread a
  cases hg : get_thread_recorder p s thread a with
  | mk rc s1 =>
    rw [hg] at h
    cases rc with
    | none => exact h
    | some r => exact SameCounters_trans h (set_slot_counters _ _ _)

/-! ## Lemmas on the tracker handle -/

theorem lock_and_route_valid (s : MemTracker) (thr : Option Nat) :
    ∀ i, (Tracker.lock_and_route s thr).1 = some i → i < s.threads.length := by
  intro i h
  unfold Tracker.lock_and_route at h
  split at h
  · split at h
    · rename_i j th hth
      split at h
      · simp only [Option.some.injEq] at h
        subst h
        rw [List.get?_eq_some] at hth
        exact hth.1
      · simp at h
    · simp at h
  · simp at h

theorem Tracker.new_on (s : MemTracker) (mem : Tracker) (op : MemoryOperation) (thr tls : Option Nat)
    (hon : is_on s = true) :
    Tracker.new s mem op thr tls =
        (⟨op, if op.pre_reserves then jint_wrap (s._seq_number + 1) else 0,
          (Tracker.lock_and_route s (Tracker.find_thread s thr tls)).1,
          (Tracker.lock_and_route s (Tracker.find_thread s thr tls)).2⟩,
         if op.pre_reserves then
           { s with _seq_number := jint_wrap (s._seq_number + 1),
                    _pending_op_count :=
                      if (Tracker.lock_and_route s (Tracker.find_thread s thr tls)).2
                      then jint_wrap (s._pending_op_count + 1) else s._pending_op_count }
         else s) := by
  unfold Tracker.new
  simp only [hon, if_true]
  by_cases hp : op.pre_reserves = true
  · by_cases hl : (Tracker.lock_and_route s (Tracker.find_thread s thr tls)).2 = true <;>
      simp [hp, hl, inc_pending_op_count, SequenceGenerator.next]
  · simp [hp]

theorem SequenceGenerator_next_control (s : MemTracker) :
    (SequenceGenerator.next s).2._state = s._state ∧
    (SequenceGenerator.next s).2._tracking_level = s._tracking_level ∧
    (SequenceGenerator.next s).2._generation = s._generation ∧
    (SequenceGenerator.next s).2._pending_op_count = s._pending_op_count ∧
    (SequenceGenerator.next s).2.threads = s.threads ∧
    (SequenceGenerator.next s).2._pooled_recorders = s._pooled_recorders ∧
    (SequenceGenerator.next s).2._merge_pending_queue = s._merge_pending_queue ∧
    (SequenceGenerator.next s).2._global_recorder = s._global_recorder :=
  ⟨rfl, rfl, rfl, rfl, rfl, rfl, rfl, rfl⟩

theorem shutdown_in_progress_next (s : MemTracker) :
    shutdown_in_progress (SequenceGenerator.next s).2 = shutdown_in_progress s := rfl

theorem written_records_congr {s s' : MemTracker} (thread : Option Nat)
    (hq : s'._merge_pending_queue = s._merge_pending_queue)
    (hg : s'._global_recorder = s._global_recorder) (ht : s'.threads = s.threads) :
    written_records s' thread = written_records s thread := by
  cases thread with
  | none => simp [written_records, get_slot, hq, hg]
  | some i => simp [written_records, get_slot, hq, ht]

theorem written_records_next (s : MemTracker) (thread : Option Nat) :
    written_records (SequenceGenerator.next s).2 thread = written_records s thread :=
  written_records_congr _ rfl rfl rfl

/-- The writes of `record` when nothing stands in their way. -/
theorem record_writes_ok (p : Platform) (t : Tracker) (s : MemTracker)
    (addr flags orig_flags size pc q1 q2 : Nat)
    (hcap : 0 < p.recorder_capacity) (hs : shutdown_in_progress s = false)
    (hv : valid_thread s t._java_thread) (hp : pool_cleared s) :
    written_records (Tracker.record_writes p t s addr flags orig_flags size pc (.ok q1) (.ok q2))
        t._java_thread
      = written_records s t._java_thread ++ Tracker.record_list p t s addr flags orig_flags size pc ∧
    (Tracker.record_writes p t s addr flags orig_flags size pc (.ok q1) (.ok q2))._state = s._state ∧
    pool_cleared (Tracker.record_writes p t s addr flags orig_flags size pc (.ok q1) (.ok q2)) ∧
    (Tracker.record_writes p t s addr flags orig_flags size pc (.ok q1) (.ok q2)).threads.length
      = s.threads.length := by
  -- the state and sequence number of the first write
  obtain ⟨sq, sa, hsa, hsq, hca, hwa, hst, hpa, hta⟩ :
      ∃ sq sa, (if t._seq = 0 then SequenceGenerator.next s else (t._seq, s)) = (sq, sa) ∧
        sq = (if t._seq = 0 then jint_wrap (s._seq_number + 1) else t._seq) ∧
        sa._seq_number = (if t._seq = 0 then jint_wrap (s._seq_number + 1) else s._seq_number) ∧
        written_records sa t._java_thread = written_records s t._java_thread ∧
        sa._state = s._state ∧ pool_cleared sa ∧ sa.threads = s.threads := by
    by_cases h0 : t._seq = 0
    · exact ⟨jint_wrap (s._seq_number + 1), (SequenceGenerator.next s).2,
        by simp [h0, SequenceGenerator.next], by simp [h0], by simp [h0, SequenceGenerator.next],
        written_records_congr _ rfl rfl rfl, rfl, hp, rfl⟩
    · exact ⟨t._seq, s, by simp [h0], by simp [h0], by simp [h0], rfl, rfl, hp, rfl⟩
  have hsa' : shutdown_in_progress sa = false := by
    rw [shutdown_in_progress_of_state hst]; exact hs
  have hva : valid_thread sa t._java_thread := valid_thread_of_length (by rw [hta]) hv
  obtain ⟨w1, c1, p1⟩ := write_tracking_record_ok p sa addr flags size sq pc t._java_thread q1
    hcap hsa' hva hpa
  unfold Tracker.record_writes Tracker.record_list
  rw [hsa]
  by_cases hrc : t._op = .ReserveAndCommit
  · simp only [hrc, if_true]
    set sb := write_tracking_record p sa addr flags size sq pc t._java_thread (.ok q1) with hsb
    have hsb' : shutdown_in_progress (SequenceGenerator.next sb).2 = false := by
      exact ((shutdown_in_progress_next sb).trans
        (shutdown_in_progress_of_state c1.state)).trans hsa'
    have hvb : valid_thread (SequenceGenerator.next sb).2 t._java_thread :=
      valid_thread_of_length (s := sa) c1.nthreads hva
    obtain ⟨w2, c2, p2⟩ := write_tracking_record_ok p (SequenceGenerator.next sb).2 addr
      (orig_flags ||| p.virtual_memory_commit_tag) size (SequenceGenerator.next sb).1 pc
      t._java_thread q2 hcap hsb' hvb p1
    refine ⟨?_, ?_, p2, ?_⟩
    · show written_records (write_tracking_record p (SequenceGenerator.next sb).2 addr
        (orig_flags ||| p.virtual_memory_commit_tag) size (SequenceGenerator.next sb).1 pc
        t._java_thread (.ok q2)) t._java_thread = _
      rw [w2, written_records_next sb,
        w1, hwa]
      simp [SequenceGenerator.next, c1.seq, hca, hsq]
    · show (write_tracking_record p (SequenceGenerator.next sb).2 addr
        (orig_flags ||| p.virtual_memory_commit_tag) size (SequenceGenerator.next sb).1 pc
        t._java_thread (.ok q2))._state = _
      rw [c2.state]
      show sb._state = _
      rw [c1.state, hst]
    · show (write_tracking_record p (SequenceGenerator.next sb).2 addr
        (orig_flags ||| p.virtual_memory_commit_tag) size (SequenceGenerator.next sb).1 pc
        t._java_thread (.ok q2)).threads.length = _
      rw [c2.nthreads]
      show sb.threads.length = _
      rw [c1.nthreads, hta]
  · simp only [hrc, if_false]
    refine ⟨?_, ?_, p1, ?_⟩
    · rw [w1, hwa, hsq]
    · rw [c1.state, hst]
    · rw [c1.nthreads, hta]

/-- The writes of the realloc variant of `record` when nothing stands in their way. -/
theorem realloc_writes_ok (p : Platform) (t : Tracker) (s : MemTracker)
    (old_addr new_addr size flags pc q1 q2 : Nat)
    (hcap : 0 < p.recorder_capacity) (hs : shutdown_in_progress s = false)
    (hv : valid_thread s t._java_thread) (hp : pool_cleared s) :
    written_records (Tracker.realloc_writes p t s old_addr new_addr size flags pc (.ok q1) (.ok q2))
        t._java_thread
      = written_records s t._java_thread ++
          [⟨old_addr, p.free_tag, 0, t._seq, pc⟩,
           ⟨new_addr, flags ||| p.malloc_tag, size, jint_wrap (s._seq_number + 1), pc⟩] := by
  obtain ⟨w1, c1, p1⟩ := write_tracking_record_ok p s old_addr p.free_tag 0 t._seq pc
    t._java_thread q1 hcap hs hv hp
  set sb := write_tracking_record p s old_addr p.free_tag 0 t._seq pc t._java_thread (.ok q1)
    with hsb
  have hsb' : shutdown_in_progress (SequenceGenerator.next sb).2 = false :=
    ((shutdown_in_progress_next sb).trans
      (shutdown_in_progress_of_state c1.state)).trans hs
  have hvb : valid_thread (SequenceGenerator.next sb).2 t._java_thread :=
    valid_thread_of_length (s := s) c1.nthreads hv
  obtain ⟨w2, -, -⟩ := write_tracking_record_ok p (SequenceGenerator.next sb).2 new_addr
    (flags ||| p.malloc_tag) size (SequenceGenerator.next sb).1 pc t._java_thread q2 hcap hsb' hvb p1
  show written_records (write_tracking_record p (SequenceGenerator.next sb).2 new_addr
    (flags ||| p.malloc_tag) size (SequenceGenerator.next sb).1 pc t._java_thread (.ok q2))
    t._java_thread = _
  rw [w2, written_records_next sb, w1]
  simp [SequenceGenerator.next, c1.seq]

/-- The writes of `record` leave the pending-op count and the tracking level as they are and
keep tracking on, whatever the outcome of the allocations. -/
theorem record_writes_pending (p : Platform) (t : Tracker) (s : MemTracker)
    (addr flags orig_flags size pc : Nat) (a1 a2 : NewResult) :
    (Tracker.record_writes p t s addr flags orig_flags size pc a1 a2)._pending_op_count
      = s._pending_op_count := by
  unfold Tracker.record_writes
  by_cases h0 : t._seq = 0 <;> by_cases hrc : t._op = .ReserveAndCommit <;>
    simp only [h0, hrc, if_true, if_false] <;>
    simp [(write_tracking_record_counters _ _ _ _ _ _ _ _ _).pending, SequenceGenerator.next]

/-- The writes of the realloc variant leave the pending-op count as it is. -/
theorem realloc_writes_pending (p : Platform) (t : Tracker) (s : MemTracker)
    (old_addr new_addr size flags pc : Nat) (a1 a2 : NewResult) :
    (Tracker.realloc_writes p t s old_addr new_addr size flags pc a1 a2)._pending_op_count
      = s._pending_op_count := by
  unfold Tracker.realloc_writes
  simp [(write_tracking_record_counters _ _ _ _ _ _ _ _ _).pending, SequenceGenerator.next]

/-- The result of `record` once its guards are passed. -/
theorem record_eq (p : Platform) (t : Tracker) (s : MemTracker) (addr size flags pc cpc : Nat)
    (a1 a2 : NewResult) (tag addr' : Nat)
    (haddr : addr ≠ 0) (hon : is_on s = true) (hct : p.NMT_CAN_TRACK flags = true)
    (hsw : Tracker.record_switch p t._op addr flags = some (tag, addr')) :
    t.record p s addr size flags pc cpc a1 a2 =
      some ({ t with _seq := 0 },
        if t._need_thread_critical_lock && t._seq != 0 then
          dec_pending_op_count (Tracker.record_writes p t s addr' tag flags size cpc a1 a2)
        else Tracker.record_writes p t s addr' tag flags size cpc a1 a2) := by
  have hop : t._op ≠ .NoOp := by
    intro h
    rw [h] at hsw
    simp [Tracker.record_switch] at hsw
  unfold Tracker.record
  simp only [haddr, if_false, hon, hct, Bool.and_self, bne_iff_ne, ne_eq, hop, not_false_eq_true,
    decide_True, Bool.true_and, if_true, hsw]
  by_cases hl : t._need_thread_critical_lock = true
  · by_cases h0 : t._seq = 0 <;> simp [hl, h0]
  · simp [hl]

/-- The result of the realloc variant of `record` once its guards are passed. -/
theorem record_realloc_eq (p : Platform) (t : Tracker) (s : MemTracker)
    (old_addr new_addr size flags pc : Nat) (a1 a2 : NewResult)
    (hon : is_on s = true) (hct : p.NMT_CAN_TRACK flags = true) (hop : t._op ≠ .NoOp) :
    t.record_realloc p s old_addr new_addr size flags pc a1 a2 =
      ({ t with _seq := 0 },
        if t._need_thread_critical_lock then
          dec_pending_op_count (Tracker.realloc_writes p t s old_addr new_addr size flags pc a1 a2)
        else Tracker.realloc_writes p t s old_addr new_addr size flags pc a1 a2) := by
  unfold Tracker.record_realloc
  by_cases hl : t._need_thread_critical_lock = true <;> simp [hon, hct, hop, hl]

theorem dec_pending_op_count_written (s : MemTracker) (thread : Option Nat) :
    written_records (dec_pending_op_count s) thread = written_records s thread :=
  written_records_congr _ rfl rfl rfl


theorem record_switch_some (p : Platform) (op : MemoryOperation) (addr flags : Nat)
    (h1 : op ≠ .NoOp) (h2 : op ≠ .Realloc) :
    ∃ tag, Tracker.record_switch p op addr flags
      = some (tag, if op = .ArenaSize then addr + p.sizeof_voidp else addr) := by
  cases op <;> simp [Tracker.record_switch] at *

/-- Effect of `record` when its guards are passed and nothing stands in the way of the writes. -/
theorem record_ok (p : Platform) (t : Tracker) (s : MemTracker) (addr size flags pc cpc q1 q2 : Nat)
    (tag addr' : Nat)
    (haddr : addr ≠ 0) (hon : is_on s = true) (hct : p.NMT_CAN_TRACK flags = true)
    (hs : shutdown_in_progress s = false) (hv : valid_thread s t._java_thread)
    (hp : pool_cleared s) (hcap : 0 < p.recorder_capacity)
    (hsw : Tracker.record_switch p t._op addr flags = some (tag, addr')) :
    ∃ s', t.record p s addr size flags pc cpc (.ok q1) (.ok q2) = some ({ t with _seq := 0 }, s') ∧
      written_records s' t._java_thread
        = written_records s t._java_thread ++ Tracker.record_list p t s addr' tag flags size cpc := by
  refine ⟨_, record_eq p t s addr size flags pc cpc _ _ tag addr' haddr hon hct hsw, ?_⟩
  have h := (record_writes_ok p t s addr' tag flags size cpc q1 q2 hcap hs hv hp).1
  split
  · rw [dec_pending_op_count_written, h]
  · exact h

theorem new_written (s : MemTracker) (mem : Tracker) (op : MemoryOperation) (thr tls : Option Nat) :
    (Tracker.new s mem op thr tls).2._merge_pending_queue = s._merge_pending_queue ∧
    (Tracker.new s mem op thr tls).2._global_recorder = s._global_recorder ∧
    (Tracker.new s mem op thr tls).2.threads = s.threads ∧
    (Tracker.new s mem op thr tls).2._pooled_recorders = s._pooled_recorders ∧
    (Tracker.new s mem op thr tls).2._state = s._state ∧
    (Tracker.new s mem op thr tls).2._tracking_level = s._tracking_level ∧
    (Tracker.new s mem op thr tls).2._generation = s._generation := by
  unfold Tracker.new
  split
  · simp only []
    split
    · split <;> exact ⟨rfl, rfl, rfl, rfl, rfl, rfl, rfl⟩
    · exact ⟨rfl, rfl, rfl, rfl, rfl, rfl, rfl⟩
  · exact ⟨rfl, rfl, rfl, rfl, rfl, rfl, rfl⟩

theorem new_valid_thread (s : MemTracker) (mem : Tracker) (op : MemoryOperation)
    (thr tls : Option Nat) (hon : is_on s = true) :
    valid_thread s (Tracker.new s mem op thr tls).1._java_thread := by
  rw [Tracker.new_on s mem op thr tls hon]
  have h := lock_and_route_valid s (Tracker.find_thread s thr tls)
  cases hj : (Tracker.lock_and_route s (Tracker.find_thread s thr tls)).1 with
  | none => simp [valid_thread, hj]
  | some i => simpa [valid_thread, hj] using h i hj

theorem discard_written (t : Tracker) (s : MemTracker) :
    (t.discard s).2._merge_pending_queue = s._merge_pending_queue ∧
    (t.discard s).2._global_recorder = s._global_recorder ∧
    (t.discard s).2.threads = s.threads ∧
    (t.discard s).2._seq_number = s._seq_number := by
  unfold Tracker.discard
  split
  · split <;> exact ⟨rfl, rfl, rfl, rfl⟩
  · exact ⟨rfl, rfl, rfl, rfl⟩

theorem record_list_length (p : Platform) (t : Tracker) (s : MemTracker)
    (addr flags orig_flags size pc : Nat) (h1 : t._op ≠ .NoOp) (h2 : t._op ≠ .Realloc) :
    (Tracker.record_list p t s addr flags orig_flags size pc).length
      = expected_record_count t._op := by
  unfold Tracker.record_list
  cases h : t._op <;> simp [h, expected_record_count] at *


/-! # The claims -/

/-! ## C1 -/

/-- C1 (counterexample to the claim as stated): a Malloc tracker constructed while tracking is on
and completed by `record` with a null address appends no record, where the claim demands one. -/
theorem C1_null_address_appends_nothing :
    is_on demo_started = true ∧
    (Tracker.new demo_started demo_storage .Malloc none none).1._op = .Malloc ∧
    (written_records (Tracker.new demo_started demo_storage .Malloc none none).2 none).length
      + expected_record_count .Malloc = 1 ∧
    ((Tracker.new demo_started demo_storage .Malloc none none).1.record demo_platform
        (Tracker.new demo_started demo_storage .Malloc none none).2 0 64 1280 0 0 (.ok 1) (.ok 2)).map
      (fun r => (written_records r.2 none).length) = some 0 := by
  decide

/-- C1 (amended): for a tracker constructed while tracking is on and no shutdown is in progress,
`discard` appends no record on any route; and when the address is not null, the flags can be
tracked, recorders hold at least one record, pooled recorders are cleared and the allocation of a
new recorder succeeds, `record` appends through the route of the tracker exactly
`expected_record_count op` records for every kind but Realloc (none for NoOp, two for
ReserveAndCommit, one otherwise) and the realloc variant of `record` appends exactly two for
Realloc. -/
theorem C1_record_count (p : Platform) (s : MemTracker) (mem : Tracker) (op : MemoryOperation)
    (thr tls : Option Nat) (addr old_addr new_addr size flags pc cpc q1 q2 : Nat)
    (hon : is_on s = true) (hs : shutdown_in_progress s = false)
    (hcap : 0 < p.recorder_capacity) (hp : pool_cleared s)
    (haddr : addr ≠ 0) (hct : p.NMT_CAN_TRACK flags = true) :
    (∀ th, written_records
        ((Tracker.new s mem op thr tls).1.discard (Tracker.new s mem op thr tls).2).2 th
        = written_records s th) ∧
    (op ≠ .Realloc → ∃ t' s',
      (Tracker.new s mem op thr tls).1.record p (Tracker.new s mem op thr tls).2 addr size flags pc
          cpc (.ok q1) (.ok q2) = some (t', s') ∧
      (written_records s' (Tracker.new s mem op thr tls).1._java_thread).length
        = (written_records s (Tracker.new s mem op thr tls).1._java_thread).length
          + expected_record_count op) ∧
    (op = .Realloc →
      (written_records ((Tracker.new s mem op thr tls).1.record_realloc p
          (Tracker.new s mem op thr tls).2 old_addr new_addr size flags pc (.ok q1) (.ok q2)).2
          (Tracker.new s mem op thr tls).1._java_thread).length
        = (written_records s (Tracker.new s mem op thr tls).1._java_thread).length
          + expected_record_count op) := by
  obtain ⟨hq, hg, hth, hpool, hst, hlv, -⟩ := new_written s mem op thr tls
  have hv := new_valid_thread s mem op thr tls hon
  have hop : (Tracker.new s mem op thr tls).1._op = op := by
    rw [Tracker.new_on s mem op thr tls hon]
  generalize Tracker.new s mem op thr tls = ts at *
  obtain ⟨t, s1⟩ := ts
  simp only at hq hg hth hpool hst hlv hv hop ⊢
  have hw1 : ∀ th, written_records s1 th = written_records s th :=
    fun th => written_records_congr th hq hg hth
  have hon1 : is_on s1 = true := by simpa [is_on, hst, hlv] using hon
  have hs1 : shutdown_in_progress s1 = false := by
    rw [shutdown_in_progress_of_state hst]; exact hs
  have hv1 : valid_thread s1 t._java_thread := valid_thread_of_length (by rw [hth]) hv
  have hp1 : pool_cleared s1 := by
    intro r hr; rw [hpool] at hr; exact hp r hr
  refine ⟨?_, ?_, ?_⟩
  · intro th
    obtain ⟨d1, d2, d3, -⟩ := discard_written t s1
    rw [written_records_congr th d1 d2 d3, hw1]
  · intro hne
    by_cases hnoop : op = .NoOp
    · refine ⟨t, s1, ?_, ?_⟩
      · simp [Tracker.record, hop, hnoop, haddr]
      · simp [hw1, hnoop, expected_record_count]
    · obtain ⟨tag, hsw⟩ := record_switch_some p t._op addr flags (hop ▸ hnoop) (hop ▸ hne)
      obtain ⟨s', h1, h2⟩ := record_ok p t s1 addr size flags pc cpc q1 q2 tag _ haddr hon1 hct hs1
        hv1 hp1 hcap hsw
      refine ⟨_, s', h1, ?_⟩
      rw [h2, List.length_append, record_list_length p t s1 _ _ _ _ _ (hop ▸ hnoop) (hop ▸ hne),
        hw1, hop]
  · intro he
    rw [record_realloc_eq p t s1 old_addr new_addr size flags pc _ _ hon1 hct
      (by rw [hop, he]; decide)]
    have h := realloc_writes_ok p t s1 old_addr new_addr size flags pc q1 q2 hcap hs1 hv1 hp1
    simp only []
    split
    · rw [dec_pending_op_count_written, h, hw1, he]
      simp [expected_record_count]
    · rw [h, hw1, he]
      simp [expected_record_count]

/-- C1 (witness): the amended statement at a Malloc tracker of an unattached thread in the started
state. -/
theorem C1_record_count_witness :
    ∃ t' s', (Tracker.new demo_started demo_storage .Malloc none none).1.record demo_platform
        (Tracker.new demo_started demo_storage .Malloc none none).2 4096 64 1280 0 0 (.ok 1) (.ok 2)
        = some (t', s') ∧
      (written_records s' (Tracker.new demo_started demo_storage .Malloc none none).1._java_thread).length
        = (written_records demo_started
            (Tracker.new demo_started demo_storage .Malloc none none).1._java_thread).length
          + expected_record_count .Malloc :=
  (C1_record_count demo_platform demo_started demo_storage .Malloc none none 4096 1 2 64 1280 0 0 1 2
    (by decide) (by decide) (by decide) (by decide) (by decide)
    (by decide)).2.1 (by decide)

/-! ## C2 -/

/-- C2: a Realloc tracker is constructed in `s0` while tracking is on; `s2` is a later state of the
same generation (same generation number, sequence counter not below the one the construction
left, generator not saturated) in which the realloc variant of `record` writes its two records.
Then the free record carries the sequence number reserved at construction, the malloc record
carries the number drawn at record time, and the former is strictly less than the latter. -/
theorem C2_realloc_free_before_malloc (p : Platform) (s0 s2 : MemTracker) (mem : Tracker)
    (thr tls : Option Nat) (old_addr new_addr size flags pc q1 q2 : Nat)
    (hon0 : is_on s0 = true) (hseq0 : 0 ≤ s0._seq_number) (hsat0 : s0._seq_number < max_jint)
    (hgen : s2._generation = s0._generation)
    (hlater : (Tracker.new s0 mem .Realloc thr tls).2._seq_number ≤ s2._seq_number)
    (hsat : s2._seq_number < max_jint)
    (hon : is_on s2 = true) (hs : shutdown_in_progress s2 = false)
    (hthreads : s2.threads.length = s0.threads.length)
    (hcap : 0 < p.recorder_capacity) (hp : pool_cleared s2)
    (hct : p.NMT_CAN_TRACK flags = true) :
    ∃ free malloc : MemPointerRecord,
      written_records ((Tracker.new s0 mem .Realloc thr tls).1.record_realloc p s2 old_addr
          new_addr size flags pc (.ok q1) (.ok q2)).2
          (Tracker.new s0 mem .Realloc thr tls).1._java_thread
        = written_records s2 (Tracker.new s0 mem .Realloc thr tls).1._java_thread
            ++ [free, malloc] ∧
      free.addr = old_addr ∧ free.flags = p.free_tag ∧
      malloc.addr = new_addr ∧ malloc.flags = flags ||| p.malloc_tag ∧
      (Tracker.new s0 mem .Realloc thr tls).1._seq = (SequenceGenerator.next s0).1 ∧
      free.seq = (Tracker.new s0 mem .Realloc thr tls).1._seq ∧
      malloc.seq = (SequenceGenerator.next s2).1 ∧
      free.seq < malloc.seq ∧
      ((Tracker.new s0 mem .Realloc thr tls).1.record_realloc p s2 old_addr new_addr size flags pc
          (.ok q1) (.ok q2)).2._generation = s0._generation := by
  have hv := new_valid_thread s0 mem .Realloc thr tls hon0
  have hnew := Tracker.new_on s0 mem .Realloc thr tls hon0
  have hpre : MemoryOperation.pre_reserves .Realloc = true := by decide
  simp only [hpre, if_true] at hnew
  rw [hnew] at hlater hv ⊢
  simp only at hlater hv ⊢
  unfold max_jint at hsat0 hsat
  have hw0 : jint_wrap (s0._seq_number + 1) = s0._seq_number + 1 := jint_wrap_id _ (by omega) (by omega)
  have hw2 : jint_wrap (s2._seq_number + 1) = s2._seq_number + 1 := by
    rw [hw0] at hlater
    exact jint_wrap_id _ (by omega) (by omega)
  set t : Tracker := ⟨.Realloc, jint_wrap (s0._seq_number + 1),
    (Tracker.lock_and_route s0 (Tracker.find_thread s0 thr tls)).1,
    (Tracker.lock_and_route s0 (Tracker.find_thread s0 thr tls)).2⟩ with ht
  have hv2 : valid_thread s2 t._java_thread := valid_thread_of_length hthreads hv
  have hw := realloc_writes_ok p t s2 old_addr new_addr size flags pc q1 q2 hcap hs hv2 hp
  have hg : (Tracker.realloc_writes p t s2 old_addr new_addr size flags pc (.ok q1)
      (.ok q2))._generation = s2._generation := by
    unfold Tracker.realloc_writes
    simp [(write_tracking_record_counters _ _ _ _ _ _ _ _ _).gen, SequenceGenerator.next]
  refine ⟨⟨old_addr, p.free_tag, 0, t._seq, pc⟩,
    ⟨new_addr, flags ||| p.malloc_tag, size, jint_wrap (s2._seq_number + 1), pc⟩,
    ?_, rfl, rfl, rfl, rfl, rfl, rfl, rfl, ?_, ?_⟩
  · rw [record_realloc_eq p t s2 old_addr new_addr size flags pc _ _ hon hct (by simp [ht])]
    simp only []
    split
    · rw [dec_pending_op_count_written, hw]
    · exact hw
  · show jint_wrap (s0._seq_number + 1) < jint_wrap (s2._seq_number + 1)
    rw [hw0] at hlater
    rw [hw0, hw2]
    omega
  · rw [record_realloc_eq p t s2 old_addr new_addr size flags pc _ _ hon hct (by simp [ht])]
    simp only []
    split
    · show (Tracker.realloc_writes p t s2 old_addr new_addr size flags pc (.ok q1)
        (.ok q2))._generation = _
      rw [hg, hgen]
    · rw [hg, hgen]

/-- C2 (witness): a Realloc tracker of an unattached thread, recorded in the state its
construction left; the free record has sequence number 1 and the malloc record 2. -/
theorem C2_realloc_free_before_malloc_witness :
    ∃ free malloc : MemPointerRecord,
      written_records ((Tracker.new demo_started demo_storage .Realloc none none).1.record_realloc
          demo_platform (Tracker.new demo_started demo_storage .Realloc none none).2 10 11 128 1280 0
          (.ok 1) (.ok 2)).2
          (Tracker.new demo_started demo_storage .Realloc none none).1._java_thread
        = written_records (Tracker.new demo_started demo_storage .Realloc none none).2
            (Tracker.new demo_started demo_storage .Realloc none none).1._java_thread
            ++ [free, malloc] ∧
      free.addr = 10 ∧ free.flags = demo_platform.free_tag ∧
      malloc.addr = 11 ∧ malloc.flags = 1280 ||| demo_platform.malloc_tag ∧
      (Tracker.new demo_started demo_storage .Realloc none none).1._seq
        = (SequenceGenerator.next demo_started).1 ∧
      free.seq = (Tracker.new demo_started demo_storage .Realloc none none).1._seq ∧
      malloc.seq
        = (SequenceGenerator.next (Tracker.new demo_started demo_storage .Realloc none none).2).1 ∧
      free.seq < malloc.seq ∧
      ((Tracker.new demo_started demo_storage .Realloc none none).1.record_realloc demo_platform
          (Tracker.new demo_started demo_storage .Realloc none none).2 10 11 128 1280 0
          (.ok 1) (.ok 2)).2._generation = demo_started._generation :=
  C2_realloc_free_before_malloc demo_platform demo_started
    (Tracker.new demo_started demo_storage .Realloc none none).2 demo_storage none none
    10 11 128 1280 0 1 2 (by decide) (by decide) (by decide) (by decide) (by decide) (by decide)
    (by decide) (by decide) (by decide) (by decide)
    (by decide) (by decide)

/-! ## C3 -/

/-- C3: while tracking is on, the constructor decides locking and routing as the policy table
says.  In single-threaded bootstrap: no lock, global recorder, whatever the thread argument.
Otherwise the thread classified is the argument, or the thread found in thread-local storage
when the argument is null: with no thread found, with a thread that is not a Java thread or
with a Java thread not safepoint-visible, the critical section and the global recorder; with a
safepoint-visible Java thread, the recorder of that thread, and the critical section exactly
when the state of the thread is safepoint-safe. -/
theorem C3_locking_policy (s : MemTracker) (mem : Tracker) (op : MemoryOperation)
    (thr tls : Option Nat) (hon : is_on s = true) :
    (is_single_threaded_bootstrap s = true →
      (Tracker.new s mem op thr tls).1._need_thread_critical_lock = false ∧
      (Tracker.new s mem op thr tls).1._java_thread = none) ∧
    (is_single_threaded_bootstrap s = false →
      (thr = none ∧ tls = none →
        (Tracker.new s mem op thr tls).1._need_thread_critical_lock = true ∧
        (Tracker.new s mem op thr tls).1._java_thread = none) ∧
      (∀ i, (thr = some i ∨ (thr = none ∧ tls = some i)) →
        (s.threads.get? i = none →
          (Tracker.new s mem op thr tls).1._need_thread_critical_lock = true ∧
          (Tracker.new s mem op thr tls).1._java_thread = none) ∧
        (∀ th, s.threads.get? i = some th →
          ((th.is_Java_thread = false ∨ th.is_safepoint_visible = false) →
            (Tracker.new s mem op thr tls).1._need_thread_critical_lock = true ∧
            (Tracker.new s mem op thr tls).1._java_thread = none) ∧
          ((th.is_Java_thread = true ∧ th.is_safepoint_visible = true) →
            (Tracker.new s mem op thr tls).1._need_thread_critical_lock = th.safepoint_safe ∧
            (Tracker.new s mem op thr tls).1._java_thread = some i)))) := by
  rw [Tracker.new_on s mem op thr tls hon]
  simp only []
  refine ⟨fun hb => ?_, fun hb => ⟨fun h => ?_, fun i hi => ?_⟩⟩
  · simp [Tracker.find_thread, Tracker.lock_and_route, hb]
  · simp [Tracker.find_thread, Tracker.lock_and_route, hb, h.1, h.2]
  · have hf : Tracker.find_thread s thr tls = some i := by
      rcases hi with h | ⟨h1, h2⟩
      · simp [Tracker.find_thread, hb, h]
      · simp [Tracker.find_thread, hb, h1, h2]
    rw [hf]
    refine ⟨fun hn => ?_, fun th hth => ⟨fun h => ?_, fun h => ?_⟩⟩
    · rw [List.get?_eq_getElem?] at hn
      simp [Tracker.lock_and_route, hn]
    · rw [List.get?_eq_getElem?] at hth
      rcases h with h | h <;> simp [Tracker.lock_and_route, hth, h]
    · rw [List.get?_eq_getElem?] at hth
      simp [Tracker.lock_and_route, hth, h.1, h.2]

/-- C3 (witness): in the started state the Java thread in a safepoint-safe state gets the
critical section and its own recorder. -/
theorem C3_locking_policy_witness :
    (Tracker.new demo_started demo_storage .Malloc (some 1) none).1._need_thread_critical_lock
      = true ∧
    (Tracker.new demo_started demo_storage .Malloc (some 1) none).1._java_thread = some 1 :=
  (((C3_locking_policy demo_started demo_storage .Malloc (some 1) none (by decide)).2
    (by decide)).2 1 (Or.inl rfl)).2 ⟨true, true, true, none⟩ (by decide) |>.2 ⟨rfl, rfl⟩

/-! ## C4 -/

/-- C4: with the sequence counter and the pending-op count in the non-negative, unsaturated range
of `jint`: while tracking is on, the constructor stores a non-zero sequence number exactly for
Realloc, Uncommit and Release (the number drawn, one past the counter), and raises the pending-op
count by one exactly when the operation is one of those three and the critical section is
required, leaving it unchanged otherwise; for every other operation, and whenever tracking is
off, the stored sequence number is zero and the state is unchanged. -/
theorem C4_pre_reserve (s : MemTracker) (mem : Tracker) (op : MemoryOperation)
    (thr tls : Option Nat)
    (hseq : 0 ≤ s._seq_number) (hsat : s._seq_number < max_jint)
    (hpend : 0 ≤ s._pending_op_count) (hpsat : s._pending_op_count < max_jint) :
    (is_on s = true →
      ((Tracker.new s mem op thr tls).1._seq ≠ 0 ↔
        (op = .Realloc ∨ op = .Uncommit ∨ op = .Release)) ∧
      ((op = .Realloc ∨ op = .Uncommit ∨ op = .Release) →
        (Tracker.new s mem op thr tls).1._seq = s._seq_number + 1 ∧
        (Tracker.new s mem op thr tls).2._seq_number = s._seq_number + 1) ∧
      ((Tracker.new s mem op thr tls).2._pending_op_count = s._pending_op_count + 1 ↔
        ((op = .Realloc ∨ op = .Uncommit ∨ op = .Release) ∧
          (Tracker.new s mem op thr tls).1._need_thread_critical_lock = true)) ∧
      (¬ ((op = .Realloc ∨ op = .Uncommit ∨ op = .Release) ∧
          (Tracker.new s mem op thr tls).1._need_thread_critical_lock = true) →
        (Tracker.new s mem op thr tls).2._pending_op_count = s._pending_op_count) ∧
      (¬ (op = .Realloc ∨ op = .Uncommit ∨ op = .Release) →
        (Tracker.new s mem op thr tls).2 = s)) ∧
    (is_on s = false →
      (Tracker.new s mem op thr tls).1._seq = 0 ∧ (Tracker.new s mem op thr tls).2 = s) := by
  unfold max_jint at hsat hpsat
  have hw : jint_wrap (s._seq_number + 1) = s._seq_number + 1 := jint_wrap_id _ (by omega) (by omega)
  have hwp : jint_wrap (s._pending_op_count + 1) = s._pending_op_count + 1 :=
    jint_wrap_id _ (by omega) (by omega)
  have hpre : op.pre_reserves = true ↔ (op = .Realloc ∨ op = .Uncommit ∨ op = .Release) := by
    cases op <;> simp [MemoryOperation.pre_reserves]
  refine ⟨fun hon => ?_, fun hoff => ?_⟩
  · rw [Tracker.new_on s mem op thr tls hon]
    simp only []
    by_cases hp : op.pre_reserves = true
    · have hp' := hpre.1 hp
      simp only [hp, if_true, hw, hwp]
      refine ⟨?_, ?_, ?_, ?_, ?_⟩
      · constructor
        · intro _; exact hp'
        · intro _; omega
      · intro _; simp
      · by_cases hl : (Tracker.lock_and_route s (Tracker.find_thread s thr tls)).2 = true
        · simp [hl, hp']
        · simp [hl]
      · intro h
        have hl : (Tracker.lock_and_route s (Tracker.find_thread s thr tls)).2 = false := by
          by_contra hc
          exact h ⟨hp', by simpa using hc⟩
        simp [hl]
      · intro h; exact absurd hp' h
    · have hp' : ¬ (op = .Realloc ∨ op = .Uncommit ∨ op = .Release) := fun h => hp (hpre.2 h)
      simp only [Bool.not_eq_true] at hp
      simp only [hp, Bool.false_eq_true, if_false]
      refine ⟨?_, ?_, ?_, ?_, ?_⟩
      · simp [hp']
      · intro h; exact absurd h hp'
      · constructor
        · intro h; omega
        · intro h; exact absurd h.1 hp'
      · intro _; trivial
      · intro _; trivial
  · simp [Tracker.new, hoff]

/-- C4 (witness): a Release tracker of an unattached thread in the started state reserves
sequence number 1, one past the counter, which it leaves at 1. -/
theorem C4_pre_reserve_witness :
    (Tracker.new demo_started demo_storage .Release none none).1._seq = 0 + 1 ∧
    (Tracker.new demo_started demo_storage .Release none none).2._seq_number = 0 + 1 :=
  ((C4_pre_reserve demo_started demo_storage .Release none none (by decide) (by decide) (by decide)
    (by decide)).1 (by decide)).2.1 (Or.inr (Or.inr rfl))

/-! ## C5 -/

/-- C5 (counterexample to the claim as stated): a Release tracker of an unattached thread raises
the pending-op count from 0 to 1 at construction; completed by `record` with a null address, the
count is still 1. -/
theorem C5_null_address_keeps_pending :
    is_on demo_started = true ∧
    demo_started._pending_op_count = 0 ∧
    (Tracker.new demo_started demo_storage .Release none none).2._pending_op_count = 1 ∧
    ((Tracker.new demo_started demo_storage .Release none none).1.record demo_platform
        (Tracker.new demo_started demo_storage .Release none none).2 0 4096 0 0 0 (.ok 1) (.ok 2)).map
      (fun r => r.2._pending_op_count) = some 1 := by
  decide

/-- C5 (amended): for a release-class tracker (Realloc, Uncommit, Release) constructed while
tracking is on, with the sequence counter and the pending-op count in the non-negative,
unsaturated range of `jint`, the pending-op count is not negative after construction, and it is
back at its value before construction after exactly one call of `discard`, of the realloc variant
of `record` with flags that can be tracked, or, for Uncommit and Release, of `record` with a
non-null address and flags that can be tracked, whatever the outcome of the allocations. -/
theorem C5_pending_balanced (p : Platform) (s : MemTracker) (mem : Tracker) (op : MemoryOperation)
    (thr tls : Option Nat) (addr old_addr new_addr size flags pc cpc : Nat) (a1 a2 : NewResult)
    (hon : is_on s = true) (hop : op = .Realloc ∨ op = .Uncommit ∨ op = .Release)
    (hseq : 0 ≤ s._seq_number) (hsat : s._seq_number < max_jint)
    (hpend : 0 ≤ s._pending_op_count) (hpsat : s._pending_op_count < max_jint)
    (haddr : addr ≠ 0) (hct : p.NMT_CAN_TRACK flags = true) :
    0 ≤ (Tracker.new s mem op thr tls).2._pending_op_count ∧
    ((Tracker.new s mem op thr tls).1.discard (Tracker.new s mem op thr tls).2).2._pending_op_count
      = s._pending_op_count ∧
    ((Tracker.new s mem op thr tls).1.record_realloc p (Tracker.new s mem op thr tls).2 old_addr
        new_addr size flags pc a1 a2).2._pending_op_count = s._pending_op_count ∧
    (op ≠ .Realloc → ∃ t' s',
      (Tracker.new s mem op thr tls).1.record p (Tracker.new s mem op thr tls).2 addr size flags pc
        cpc a1 a2 = some (t', s') ∧
      s'._pending_op_count = s._pending_op_count) := by
  unfold max_jint at hsat hpsat
  have hw : jint_wrap (s._seq_number + 1) = s._seq_number + 1 := jint_wrap_id _ (by omega) (by omega)
  have hwp : jint_wrap (s._pending_op_count + 1) = s._pending_op_count + 1 :=
    jint_wrap_id _ (by omega) (by omega)
  have hwm : jint_wrap (s._pending_op_count + 1 - 1) = s._pending_op_count := by
    rw [jint_wrap_id _ (by omega) (by omega)]; omega
  have hpre : op.pre_reserves = true := by
    rcases hop with h | h | h <;> rw [h] <;> decide
  have hnoop : op ≠ .NoOp := by
    rcases hop with h | h | h <;> rw [h] <;> decide
  obtain ⟨-, -, -, -, hst, hlv, -⟩ := new_written s mem op thr tls
  have hnew := Tracker.new_on s mem op thr tls hon
  simp only [hpre, if_true, hw, hwp] at hnew
  have hop1 : (Tracker.new s mem op thr tls).1._op = op := by rw [hnew]
  have hseq1 : (Tracker.new s mem op thr tls).1._seq ≠ 0 := by
    rw [hnew]; simp only []; omega
  have hp1 : (Tracker.new s mem op thr tls).2._pending_op_count
      = if (Tracker.new s mem op thr tls).1._need_thread_critical_lock = true
        then s._pending_op_count + 1 else s._pending_op_count := by
    rw [hnew]
  generalize Tracker.new s mem op thr tls = ts at *
  obtain ⟨t, s1⟩ := ts
  simp only at hst hlv hop1 hseq1 hp1 ⊢
  clear hnew
  have hon1 : is_on s1 = true := by simpa [is_on, hst, hlv] using hon
  have hb : (t._seq != 0) = true := by simpa using hseq1
  refine ⟨?_, ?_, ?_, ?_⟩
  · rw [hp1]; split <;> omega
  · have : t.discard s1 = ({ t with _seq := 0 },
        if t._need_thread_critical_lock = true then dec_pending_op_count s1 else s1) := by
      simp [Tracker.discard, hon1, hseq1]
    rw [this]
    by_cases hl : t._need_thread_critical_lock = true
    · simp only [hl, if_true, dec_pending_op_count] at hp1 ⊢
      rw [hp1]; exact hwm
    · simp only [Bool.not_eq_true] at hl
      simp only [hl, Bool.false_eq_true, if_false] at hp1 ⊢
      rw [hp1]
  · rw [record_realloc_eq p t s1 old_addr new_addr size flags pc a1 a2 hon1 hct
      (by rw [hop1]; exact hnoop)]
    by_cases hl : t._need_thread_critical_lock = true
    · simp only [hl, if_true, dec_pending_op_count, realloc_writes_pending] at hp1 ⊢
      rw [hp1]; exact hwm
    · simp only [Bool.not_eq_true] at hl
      simp only [hl, Bool.false_eq_true, if_false, realloc_writes_pending] at hp1 ⊢
      rw [hp1]
  · intro hne
    obtain ⟨tag, hsw⟩ := record_switch_some p t._op addr flags (by rw [hop1]; exact hnoop)
      (by rw [hop1]; exact hne)
    refine ⟨_, _, record_eq p t s1 addr size flags pc cpc a1 a2 tag _ haddr hon1 hct hsw, ?_⟩
    by_cases hl : t._need_thread_critical_lock = true
    · simp only [hl, hb, Bool.and_self, if_true, dec_pending_op_count, record_writes_pending]
        at hp1 ⊢
      rw [hp1]; exact hwm
    · simp only [Bool.not_eq_true] at hl
      simp only [hl, Bool.false_and, Bool.false_eq_true, if_false, record_writes_pending] at hp1 ⊢
      rw [hp1]

/-- C5 (witness): a Release tracker of an unattached thread in the started state, completed by
`record` with a non-null address: the pending-op count is 0 before and after. -/
theorem C5_pending_balanced_witness :
    ∃ t' s', (Tracker.new demo_started demo_storage .Release none none).1.record demo_platform
        (Tracker.new demo_started demo_storage .Release none none).2 4096 64 1280 0 0 (.ok 1) (.ok 2)
        = some (t', s') ∧
      s'._pending_op_count = demo_started._pending_op_count :=
  (C5_pending_balanced demo_platform demo_started demo_storage .Release none none 4096 10 11 64 1280
    0 0 (.ok 1) (.ok 2) (by decide) (Or.inr (Or.inr rfl)) (by decide) (by decide) (by decide)
    (by decide) (by decide) (by decide)).2.2.2 (by decide)

/-! ## C6 -/

/-- C6: `discard` is idempotent: called twice it yields the tracker and the state (pending-op
count and recorders included) that one call yields; and after a `record` call, of either variant,
that wrote its record(s) through the route of the tracker, `discard` changes nothing. -/
theorem C6_discard_idempotent (p : Platform) (t : Tracker) (s : MemTracker)
    (addr old_addr new_addr size flags pc cpc : Nat) (a1 a2 : NewResult) :
    (t.discard s).1.discard (t.discard s).2 = t.discard s ∧
    (∀ t' s', t.record p s addr size flags pc cpc a1 a2 = some (t', s') →
      written_records s' t._java_thread ≠ written_records s t._java_thread →
      t'.discard s' = (t', s')) ∧
    (written_records (t.record_realloc p s old_addr new_addr size flags pc a1 a2).2 t._java_thread
        ≠ written_records s t._java_thread →
      (t.record_realloc p s old_addr new_addr size flags pc a1 a2).1.discard
          (t.record_realloc p s old_addr new_addr size flags pc a1 a2).2
        = t.record_realloc p s old_addr new_addr size flags pc a1 a2) := by
  refine ⟨?_, ?_, ?_⟩
  · by_cases hg : (is_on s && t._seq != 0) = true
    · have h1 : t.discard s = ({ t with _seq := 0 },
          if t._need_thread_critical_lock = true then dec_pending_op_count s else s) := by
        simp [Tracker.discard, hg]
      rw [h1]
      simp [Tracker.discard]
    · have h1 : t.discard s = (t, s) := by simp [Tracker.discard, hg]
      rw [h1]
      exact h1
  · intro t' s' hrec hw
    unfold Tracker.record at hrec
    split at hrec
    · simp only [Option.some.injEq, Prod.mk.injEq] at hrec
      exact absurd (by rw [hrec.2]) hw
    · split at hrec
      · simp only [] at hrec
        split at hrec
        · exact absurd hrec (by simp)
        · split at hrec <;>
            (simp only [Option.some.injEq, Prod.mk.injEq] at hrec
             rw [← hrec.1]
             simp [Tracker.discard])
      · simp only [Option.some.injEq, Prod.mk.injEq] at hrec
        exact absurd (by rw [hrec.2]) hw
  · intro hw
    unfold Tracker.record_realloc at hw ⊢
    split
    · split <;> simp [Tracker.discard]
    · rename_i hg
      simp only [hg] at hw
      exact absurd rfl hw

/-- C6 (witness): a Malloc tracker in the started state records to the global recorder; the
`discard` that follows changes nothing. -/
theorem C6_discard_idempotent_witness :
    (⟨.Malloc, 0, none, true⟩ : Tracker).discard
        { demo_started with
            _global_recorder := some ⟨1, [⟨4096, 1281, 64, 1, 0⟩], 0⟩
            _seq_number := 1
            _instance_count := 1 }
      = (⟨.Malloc, 0, none, true⟩,
        { demo_started with
            _global_recorder := some ⟨1, [⟨4096, 1281, 64, 1, 0⟩], 0⟩
            _seq_number := 1
            _instance_count := 1 }) :=
  (C6_discard_idempotent demo_platform ⟨.Malloc, 0, none, true⟩ demo_started 4096 10 11 64 1280 0 0
    (.ok 1) (.ok 2)).2.1 _ _ (by decide) (by decide)

/-! ## C7 -/

/-- C7 (counterexample to the claim as stated): a Release tracker of an unattached thread reserves
sequence number 1 and is discarded; the `record` call that follows draws sequence number 2 and
appends a record carrying it to the global recorder, which was empty. -/
theorem C7_record_after_discard_appends :
    ((Tracker.new demo_started demo_storage .Release none none).1.discard
        (Tracker.new demo_started demo_storage .Release none none).2).2._seq_number = 1 ∧
    written_records ((Tracker.new demo_started demo_storage .Release none none).1.discard
        (Tracker.new demo_started demo_storage .Release none none).2).2 none = [] ∧
    (((Tracker.new demo_started demo_storage .Release none none).1.discard
        (Tracker.new demo_started demo_storage .Release none none).2).1.record demo_platform
        ((Tracker.new demo_started demo_storage .Release none none).1.discard
          (Tracker.new demo_started demo_storage .Release none none).2).2
        4096 64 1280 0 0 (.ok 1) (.ok 2)).map
      (fun r => ((written_records r.2 none).map (fun x => x.seq), r.2._seq_number))
      = some ([2], 2) := by
  decide

/-- C7 (amended): after `discard`, called while tracking is on, the tracker holds no reserved
sequence number, and a `record(addr, size, flags, pc)` call that follows leaves the pending-op
count unchanged.  That call is a no-op when the address is null, tracking is off, the flags
cannot be tracked or the operation is NoOp.  Otherwise it is not: for an operation other than
Realloc, when no shutdown is in progress and a recorder is available, it draws a sequence number
and appends the record(s) of the operation, the first carrying the number drawn. -/
theorem C7_record_after_discard (p : Platform) (t : Tracker) (s : MemTracker)
    (addr size flags pc cpc : Nat) (a1 a2 : NewResult) (q1 q2 : Nat) :
    (is_on s = true → (t.discard s).1._seq = 0) ∧
    (∀ t' s', (t.discard s).1.record p (t.discard s).2 addr size flags pc cpc a1 a2 = some (t', s') →
      s'._pending_op_count = (t.discard s).2._pending_op_count) ∧
    ((addr = 0 ∨ is_on s = false ∨ p.NMT_CAN_TRACK flags = false ∨ t._op = .NoOp) →
      (t.discard s).1.record p (t.discard s).2 addr size flags pc cpc a1 a2 = some (t.discard s)) ∧
    (addr ≠ 0 → is_on s = true → p.NMT_CAN_TRACK flags = true → t._op ≠ .NoOp →
      t._op ≠ .Realloc → shutdown_in_progress s = false → valid_thread s t._java_thread →
      pool_cleared s → 0 < p.recorder_capacity →
      ∃ t' s' first rest,
        (t.discard s).1.record p (t.discard s).2 addr size flags pc cpc (.ok q1) (.ok q2)
          = some (t', s') ∧
        written_records s' t._java_thread
          = written_records (t.discard s).2 t._java_thread ++ first :: rest ∧
        first.seq = (SequenceGenerator.next (t.discard s).2).1 ∧
        (first :: rest).length = expected_record_count t._op) := by
  -- what `discard` leaves
  have hd : (t.discard s).1._op = t._op ∧ (t.discard s).1._java_thread = t._java_thread ∧
      (t.discard s).1._need_thread_critical_lock = t._need_thread_critical_lock ∧
      (is_on s = true → (t.discard s).1._seq = 0) ∧
      (t.discard s).2._state = s._state ∧ (t.discard s).2._tracking_level = s._tracking_level ∧
      (t.discard s).2.threads = s.threads ∧ (t.discard s).2._pooled_recorders = s._pooled_recorders ∧
      (is_on s = false → t.discard s = (t, s)) := by
    unfold Tracker.discard
    by_cases hon : is_on s = true
    · by_cases h0 : t._seq = 0
      · simp [hon, h0]
      · by_cases hl : t._need_thread_critical_lock = true <;>
          simp [hon, h0, hl, dec_pending_op_count]
    · simp [hon]
  obtain ⟨hop, hjt, hlock, hseq, hst, hlv, hth, hpool, hoff⟩ := hd
  have hon' : is_on (t.discard s).2 = is_on s := by simp [is_on, hst, hlv]
  generalize t.discard s = ts at *
  obtain ⟨t1, s1⟩ := ts
  simp only at hop hjt hlock hseq hst hlv hth hpool hoff hon' ⊢
  refine ⟨hseq, ?_, ?_, ?_⟩
  · intro t' s' hrec
    by_cases haddr : addr = 0
    · simp [Tracker.record, haddr] at hrec
      rw [← hrec.2]
    · by_cases hg : (is_on s1 && p.NMT_CAN_TRACK flags && t1._op != .NoOp) = true
      · have hg' := hg
        simp only [Bool.and_eq_true, bne_iff_ne, ne_eq] at hg'
        obtain ⟨⟨h1, h2⟩, h3⟩ := hg'
        cases hsw : Tracker.record_switch p t1._op addr flags with
        | none => simp [Tracker.record, haddr, hg, hsw] at hrec
        | some ta =>
          obtain ⟨tag, addr'⟩ := ta
          rw [record_eq p t1 s1 addr size flags pc cpc a1 a2 tag addr' haddr h1 h2 hsw] at hrec
          have h0 : t1._seq = 0 := hseq (hon' ▸ h1)
          simp only [h0, bne_self_eq_false, Bool.and_false, Bool.false_eq_true, if_false,
            Option.some.injEq, Prod.mk.injEq] at hrec
          rw [← hrec.2, record_writes_pending]
      · simp [Tracker.record, haddr, hg] at hrec
        rw [← hrec.2]
  · intro h
    by_cases haddr : addr = 0
    · simp [Tracker.record, haddr]
    · have hg : (is_on s1 && p.NMT_CAN_TRACK flags && t1._op != .NoOp) = false := by
        rcases h with h | h | h | h
        · exact absurd h haddr
        · simp [hon', h]
        · simp [h]
        · simp [hop, h]
      simp [Tracker.record, haddr, hg]
  · intro haddr hon hct hnoop hnre hs hv hp hcap
    obtain ⟨tag, hsw⟩ := record_switch_some p t1._op addr flags (hop ▸ hnoop) (hop ▸ hnre)
    have hs1 : shutdown_in_progress s1 = false := by
      rw [shutdown_in_progress_of_state hst]; exact hs
    have hv1 : valid_thread s1 t1._java_thread := by
      rw [hjt]; exact valid_thread_of_length (by rw [hth]) hv
    have hp1 : pool_cleared s1 := by
      intro r hr; rw [hpool] at hr; exact hp r hr
    obtain ⟨s', h1, h2⟩ := record_ok p t1 s1 addr size flags pc cpc q1 q2 tag _ haddr
      (hon'.trans hon) hct hs1 hv1 hp1 hcap hsw
    have hlen := record_list_length p t1 s1 (if t1._op = .ArenaSize then addr + p.sizeof_voidp
      else addr) tag flags size cpc (hop ▸ hnoop) (hop ▸ hnre)
    rw [hjt] at h2
    refine ⟨_, s', _, _, h1, h2, ?_, hlen.trans (by rw [hop])⟩
    simp [hseq hon, SequenceGenerator.next]

/-- C7 (witness): a discarded Release tracker of an unattached thread in the started state; the
`record` call that follows appends one record, which carries the sequence number drawn. -/
theorem C7_record_after_discard_witness :
    ∃ t' s' first rest,
      ((⟨.Release, 1, none, true⟩ : Tracker).discard demo_started).1.record demo_platform
          ((⟨.Release, 1, none, true⟩ : Tracker).discard demo_started).2 4096 64 1280 0 0
          (.ok 1) (.ok 2) = some (t', s') ∧
      written_records s' none
        = written_records ((⟨.Release, 1, none, true⟩ : Tracker).discard demo_started).2 none
            ++ first :: rest ∧
      first.seq
        = (SequenceGenerator.next ((⟨.Release, 1, none, true⟩ : Tracker).discard demo_started).2).1 ∧
      (first :: rest).length = expected_record_count .Release :=
  (C7_record_after_discard demo_platform ⟨.Release, 1, none, true⟩ demo_started 4096 64 1280 0 0
    (.ok 1) (.ok 2) 1 2).2.2.2 (by decide) (by decide) (by decide) (by decide) (by decide)
    (by decide) (by decide) (by decide) (by decide)

/-! ## C8 -/

/-- C8: a `record(addr, size, flags, pc)` call that writes (non-null address, tracking on, flags
that can be tracked, no shutdown in progress, a recorder available) stores in its first record
the caller's flags OR-ed with the malloc tag for Malloc, with the virtual-reserve tag for Reserve
and ReserveAndCommit, with the type tag for Type; and the bare tag, the caller's flags dropped,
for Free (free tag), Uncommit (virtual-uncommit tag), Release and StackRelease (virtual-release
tag). -/
theorem C8_stored_tag (p : Platform) (t : Tracker) (s : MemTracker)
    (addr size flags pc cpc q1 q2 : Nat)
    (haddr : addr ≠ 0) (hon : is_on s = true) (hct : p.NMT_CAN_TRACK flags = true)
    (hs : shutdown_in_progress s = false) (hv : valid_thread s t._java_thread)
    (hp : pool_cleared s) (hcap : 0 < p.recorder_capacity)
    (hnoop : t._op ≠ .NoOp) (hnre : t._op ≠ .Realloc) :
    ∃ t' s' first rest,
      t.record p s addr size flags pc cpc (.ok q1) (.ok q2) = some (t', s') ∧
      written_records s' t._java_thread = written_records s t._java_thread ++ first :: rest ∧
      (t._op = .Malloc → first.flags = flags ||| p.malloc_tag) ∧
      (t._op = .Reserve ∨ t._op = .ReserveAndCommit →
        first.flags = flags ||| p.virtual_memory_reserve_tag) ∧
      (t._op = .Type → first.flags = flags ||| p.virtual_memory_type_tag) ∧
      (t._op = .Free → first.flags = p.free_tag) ∧
      (t._op = .Uncommit → first.flags = p.virtual_memory_uncommit_tag) ∧
      (t._op = .Release ∨ t._op = .StackRelease →
        first.flags = p.virtual_memory_release_tag) := by
  obtain ⟨tag, hsw⟩ := record_switch_some p t._op addr flags hnoop hnre
  obtain ⟨s', h1, h2⟩ := record_ok p t s addr size flags pc cpc q1 q2 tag _ haddr hon hct hs hv hp
    hcap hsw
  refine ⟨_, s', _, _, h1, h2, ?_⟩
  simp only []
  refine ⟨?_, ?_, ?_, ?_, ?_, ?_⟩ <;> intro h
  · rw [h] at hsw; simp [Tracker.record_switch] at hsw; exact hsw.symm
  · rcases h with h | h <;> (rw [h] at hsw; simp [Tracker.record_switch] at hsw; exact hsw.symm)
  · rw [h] at hsw; simp [Tracker.record_switch] at hsw; exact hsw.symm
  · rw [h] at hsw; simp [Tracker.record_switch] at hsw; exact hsw.symm
  · rw [h] at hsw; simp [Tracker.record_switch] at hsw; exact hsw.symm
  · rcases h with h | h <;> (rw [h] at hsw; simp [Tracker.record_switch] at hsw; exact hsw.symm)

/-- C8 (witness): a Free tracker of an unattached thread in the started state, called with
category flags 1280, stores the bare free tag. -/
theorem C8_stored_tag_witness :
    ∃ t' s' first rest,
      (⟨.Free, 0, none, true⟩ : Tracker).record demo_platform demo_started 4096 0 1280 0 0
        (.ok 1) (.ok 2) = some (t', s') ∧
      written_records s' none = written_records demo_started none ++ first :: rest ∧
      first.flags = demo_platform.free_tag := by
  obtain ⟨t', s', first, rest, h1, h2, -, -, -, h6, -, -⟩ :=
    C8_stored_tag demo_platform ⟨.Free, 0, none, true⟩ demo_started 4096 0 1280 0 0 1 2
      (by decide) (by decide) (by decide) (by decide) (by decide) (by decide) (by decide)
      (by decide) (by decide)
  exact ⟨t', s', first, rest, h1, h2, h6 rfl⟩

/-! ## C9 -/

/-- C9 (counterexample to the claim as stated): a Commit tracker called with category flags 1280
stores the bare virtual-commit tag 8, not the union 1288 of the flags with the tag. -/
theorem C9_commit_drops_category_flags :
    ((⟨.Commit, 0, none, true⟩ : Tracker).record demo_platform demo_started 4096 64 1280 0 0
        (.ok 1) (.ok 2)).map (fun r => (written_records r.2 none).map (fun x => x.flags))
      = some [8] ∧
    (1280 ||| demo_platform.virtual_memory_commit_tag) = 1288 := by
  decide

/-- C9 (amended): for a Commit tracker, a `record(addr, size, flags, pc)` call that writes stores
one record whose tag is the bare virtual-commit tag: the caller's category flags are dropped, as
for Free and the release-class operations. -/
theorem C9_commit_tag (p : Platform) (t : Tracker) (s : MemTracker)
    (addr size flags pc cpc q1 q2 : Nat)
    (haddr : addr ≠ 0) (hon : is_on s = true) (hct : p.NMT_CAN_TRACK flags = true)
    (hs : shutdown_in_progress s = false) (hv : valid_thread s t._java_thread)
    (hp : pool_cleared s) (hcap : 0 < p.recorder_capacity)
    (hop : t._op = .Commit) :
    ∃ t' s' r,
      t.record p s addr size flags pc cpc (.ok q1) (.ok q2) = some (t', s') ∧
      written_records s' t._java_thread = written_records s t._java_thread ++ [r] ∧
      r.flags = p.virtual_memory_commit_tag ∧ r.addr = addr ∧ r.size = size := by
  have hsw : Tracker.record_switch p t._op addr flags = some (p.virtual_memory_commit_tag, addr) := by
    rw [hop]; rfl
  obtain ⟨s', h1, h2⟩ := record_ok p t s addr size flags pc cpc q1 q2 _ _ haddr hon hct hs hv hp
    hcap hsw
  refine ⟨_, s', ⟨addr, p.virtual_memory_commit_tag, size,
    if t._seq = 0 then jint_wrap (s._seq_number + 1) else t._seq, cpc⟩, h1, ?_, rfl, rfl, rfl⟩
  rw [h2]
  simp [Tracker.record_list, hop]

/-- C9 (witness): the amended statement at a Commit tracker of an unattached thread in the started
state. -/
theorem C9_commit_tag_witness :
    ∃ t' s' r,
      (⟨.Commit, 0, none, true⟩ : Tracker).record demo_platform demo_started 4096 64 1280 0 0
        (.ok 1) (.ok 2) = some (t', s') ∧
      written_records s' none = written_records demo_started none ++ [r] ∧
      r.flags = demo_platform.virtual_memory_commit_tag ∧ r.addr = 4096 ∧ r.size = 64 :=
  C9_commit_tag demo_platform ⟨.Commit, 0, none, true⟩ demo_started 4096 64 1280 0 0 1 2
    (by decide) (by decide) (by decide) (by decide) (by decide) (by decide) (by decide) rfl

/-! ## C10 -/

/-- C10: a `record(addr, size, flags, pc)` call that writes stores, for an ArenaSize tracker, one
record at the address `addr` plus one pointer width, with the arena-size tag; for every other
operation kind each record it stores is at the address `addr` passed to it. -/
theorem C10_stored_address (p : Platform) (t : Tracker) (s : MemTracker)
    (addr size flags pc cpc q1 q2 : Nat)
    (haddr : addr ≠ 0) (hon : is_on s = true) (hct : p.NMT_CAN_TRACK flags = true)
    (hs : shutdown_in_progress s = false) (hv : valid_thread s t._java_thread)
    (hp : pool_cleared s) (hcap : 0 < p.recorder_capacity)
    (hnoop : t._op ≠ .NoOp) (hnre : t._op ≠ .Realloc) :
    ∃ t' s' first rest,
      t.record p s addr size flags pc cpc (.ok q1) (.ok q2) = some (t', s') ∧
      written_records s' t._java_thread = written_records s t._java_thread ++ first :: rest ∧
      (t._op = .ArenaSize →
        rest = [] ∧ first.addr = addr + p.sizeof_voidp ∧ first.flags = p.arena_size_tag) ∧
      (t._op ≠ .ArenaSize → ∀ r ∈ first :: rest, r.addr = addr) := by
  obtain ⟨tag, hsw⟩ := record_switch_some p t._op addr flags hnoop hnre
  obtain ⟨s', h1, h2⟩ := record_ok p t s addr size flags pc cpc q1 q2 tag _ haddr hon hct hs hv hp
    hcap hsw
  refine ⟨_, s', _, _, h1, h2, ?_, ?_⟩
  · intro h
    rw [h] at hsw
    simp [Tracker.record_switch] at hsw
    simp [h, hsw]
  · intro h r hr
    simp only [h, if_false, List.mem_cons] at hr
    rcases hr with hr | hr
    · rw [hr]
    · split at hr
      · simp only [List.mem_singleton] at hr
        rw [hr]
      · simp at hr

/-- C10 (witness): an ArenaSize tracker of an unattached thread in the started state, called at
address 4096, stores the record at address 4104 with the arena-size tag. -/
theorem C10_stored_address_witness :
    ∃ t' s' first rest,
      (⟨.ArenaSize, 0, none, true⟩ : Tracker).record demo_platform demo_started 4096 64 1280 0 0
        (.ok 1) (.ok 2) = some (t', s') ∧
      written_records s' none = written_records demo_started none ++ first :: rest ∧
      rest = [] ∧ first.addr = 4096 + demo_platform.sizeof_voidp ∧
      first.flags = demo_platform.arena_size_tag := by
  obtain ⟨t', s', first, rest, h1, h2, h3, -⟩ :=
    C10_stored_address demo_platform ⟨.ArenaSize, 0, none, true⟩ demo_started 4096 64 1280 0 0 1 2
      (by decide) (by decide) (by decide) (by decide) (by decide) (by decide) (by decide)
      (by decide) (by decide)
  exact ⟨t', s', first, rest, h1, h2, h3 rfl⟩

/-! ## Lemmas on the thread walk and the sync coordinator -/

theorem SameButRecorders_refl (s : MemTracker) : SameButRecorders s s :=
  ⟨rfl, rfl, rfl, rfl, rfl, rfl, rfl, rfl, rfl, rfl, rfl, rfl, rfl, rfl, rfl, rfl, rfl, rfl, rfl,
    rfl, rfl, rfl⟩

theorem SameButRecorders_trans {a b c : MemTracker} (h1 : SameButRecorders a b)
    (h2 : SameButRecorders b c) : SameButRecorders a c :=
  ⟨h2.global.trans h1.global, h2.pool.trans h1.pool, h2.skip.trans h1.skip,
    h2.level.trans h1.level, h2.state.trans h1.state, h2.reason.trans h1.reason,
    h2.thread_count.trans h1.thread_count, h2.pooled_count.trans h1.pooled_count,
    h2.pending.trans h1.pending, h2.slowdown.trans h1.slowdown, h2.seq.trans h1.seq,
    h2.gen.trans h1.gen, h2.nthreads.trans h1.nthreads, h2.snapshot.trans h1.snapshot,
    h2.baseline.trans h1.baseline, h2.query_lock.trans h1.query_lock, h2.worker.trans h1.worker,
    h2.processing.trans h1.processing, h2.idle.trans h1.idle, h2.callsite.trans h1.callsite,
    h2.malloc_only.trans h1.malloc_only, h2.auto_shutdown.trans h1.auto_shutdown⟩

theorem do_thread_frame (s : MemTracker) (c : Int) (i : Nat) :
    SameButRecorders s (SyncThreadRecorderClosure.do_thread s c i).1 := by
  unfold SyncThreadRecorderClosure.do_thread
  cases s.threads.get? i with
  | none => exact SameButRecorders_refl s
  | some th =>
    simp only []
    split
    · cases th._recorder with
      | none => exact SameButRecorders_refl s
      | some r =>
        simp only [enqueue_pending_recorder, set_slot]
        split <;>
          exact ⟨rfl, rfl, rfl, rfl, rfl, rfl, rfl, rfl, rfl, rfl, rfl, rfl, by simp, rfl, rfl, rfl,
            rfl, rfl, rfl, rfl, rfl, rfl⟩
    · exact SameButRecorders_refl s

theorem walk_frame (is : List Nat) : ∀ (s : MemTracker) (c : Int),
    SameButRecorders s (SyncThreadRecorderClosure.walk s c is).1 := by
  induction is with
  | nil => intro s c; exact SameButRecorders_refl s
  | cons i is ih =>
    intro s c
    exact SameButRecorders_trans (do_thread_frame s c i) (ih _ _)

theorem threads_do_frame (s : MemTracker) : SameButRecorders s (Threads.threads_do s).1 :=
  walk_frame _ s 0

theorem shutdown_state_le (s : MemTracker) (r : ShutdownReason) :
    s._state.toNat ≤ (shutdown s r)._state.toNat := by
  unfold shutdown
  split
  · exact le_refl _
  · split
    · rename_i h; simpa [NMTStates.toNat] using le_trans h (by decide)
    · split
      · rename_i h; simp [h, NMTStates.toNat]
      · exact le_refl _

theorem sync_final_shutdown_state_le (s : MemTracker) :
    s._state.toNat ≤ (sync_final_shutdown s)._state.toNat := by
  unfold sync_final_shutdown
  split
  · rename_i h
    simp only []
    split
    · simp [h, NMTStates.toNat]
    · simp only [delete_recorders, get_pending_recorders]
      split <;> simp [(threads_do_frame s).state]
  · exact le_refl _

theorem sync_drain_state_le (p : Platform) (s : MemTracker) (n : Nat) :
    s._state.toNat ≤ (sync_drain p s n)._state.toNat := by
  unfold sync_drain
  simp only []
  generalize hS : SequenceGenerator.reset p s = s1
  have h1 : s1._state = s._state := by rw [← hS]; rfl
  have h2 := (threads_do_frame { s1 with _sync_point_skip_count := 0 }).state
  generalize (Threads.threads_do { s1 with _sync_point_skip_count := 0 }) = w at h2 ⊢
  have hat : ∀ (x : MemTracker) (l : List MemRecorder), (sync_at_sync_point x l n)._state = x._state := by
    intro x l; unfold sync_at_sync_point; split <;> rfl
  rw [hat]
  have hcl : ∀ x : MemTracker, x._state.toNat ≤ (sync_check_load x)._state.toNat := by
    intro x
    unfold sync_check_load
    split
    · exact le_refl _
    · split
      · exact shutdown_state_le _ _
      · exact le_refl _
  refine le_trans ?_ (hcl _)
  have htg : ∀ (x : MemTracker) (l : List MemRecorder), (sync_take_global x l).2._state = x._state := by
    intro x l; unfold sync_take_global; split <;> rfl
  rw [htg]
  simp only [get_pending_recorders]
  rw [h2, h1]

theorem sync_state_le (p : Platform) (s : MemTracker) (n : Nat) :
    s._state.toNat ≤ (sync p s n)._state.toNat := by
  unfold sync
  split
  · split
    · exact le_refl _
    · split
      · exact le_refl _
      · refine le_trans ?_ (sync_final_shutdown_state_le _)
        split
        · exact sync_drain_state_le p s n
        · exact le_refl _
  · exact sync_final_shutdown_state_le s

/-! ## C11 -/

/-- C11: a ReserveAndCommit tracker is constructed in `s0` while tracking is on and its
`record(addr, size, flags, pc)` writes in a state `s` whose generator is not saturated.  It
appends two records, in this order and both at `addr` with `size`: a reserve record tagged with
the flags OR-ed with the virtual-reserve tag, then a commit record tagged with the original flags
OR-ed with the virtual-commit tag; the sequence number of the reserve record is drawn first, that
of the commit record after it, and the latter is the greater. -/
theorem C11_reserve_and_commit (p : Platform) (s0 s : MemTracker) (mem : Tracker)
    (thr tls : Option Nat) (addr size flags pc cpc q1 q2 : Nat)
    (hon0 : is_on s0 = true) (hthreads : s.threads.length = s0.threads.length)
    (hseq : 0 ≤ s._seq_number) (hsat : s._seq_number + 1 < max_jint)
    (haddr : addr ≠ 0) (hon : is_on s = true) (hct : p.NMT_CAN_TRACK flags = true)
    (hs : shutdown_in_progress s = false) (hp : pool_cleared s)
    (hcap : 0 < p.recorder_capacity) :
    ∃ t' s' reserve commit,
      (Tracker.new s0 mem .ReserveAndCommit thr tls).1.record p s addr size flags pc cpc
        (.ok q1) (.ok q2) = some (t', s') ∧
      written_records s' (Tracker.new s0 mem .ReserveAndCommit thr tls).1._java_thread
        = written_records s (Tracker.new s0 mem .ReserveAndCommit thr tls).1._java_thread
            ++ [reserve, commit] ∧
      reserve.addr = addr ∧ reserve.size = size ∧
      reserve.flags = flags ||| p.virtual_memory_reserve_tag ∧
      commit.addr = addr ∧ commit.size = size ∧
      commit.flags = flags ||| p.virtual_memory_commit_tag ∧
      reserve.seq = (SequenceGenerator.next s).1 ∧
      commit.seq = (SequenceGenerator.next (SequenceGenerator.next s).2).1 ∧
      reserve.seq < commit.seq := by
  have hv := new_valid_thread s0 mem .ReserveAndCommit thr tls hon0
  have hnew := Tracker.new_on s0 mem .ReserveAndCommit thr tls hon0
  have hpre : MemoryOperation.pre_reserves .ReserveAndCommit = false := by decide
  simp only [hpre, Bool.false_eq_true, if_false] at hnew
  rw [hnew] at hv ⊢
  simp only at hv ⊢
  generalize (Tracker.lock_and_route s0 (Tracker.find_thread s0 thr tls)).1 = jt at hv ⊢
  generalize (Tracker.lock_and_route s0 (Tracker.find_thread s0 thr tls)).2 = lock
  have hv2 : valid_thread s jt := valid_thread_of_length hthreads hv
  have hsw : Tracker.record_switch p (⟨.ReserveAndCommit, 0, jt, lock⟩ : Tracker)._op addr flags
      = some (flags ||| p.virtual_memory_reserve_tag, addr) := rfl
  obtain ⟨s', h1, h2⟩ := record_ok p ⟨.ReserveAndCommit, 0, jt, lock⟩ s addr size flags pc cpc q1 q2
    _ _ haddr hon hct hs hv2 hp hcap hsw
  unfold max_jint at hsat
  have hw1 : jint_wrap (s._seq_number + 1) = s._seq_number + 1 :=
    jint_wrap_id _ (by omega) (by omega)
  have hw2 : jint_wrap (s._seq_number + 1 + 1) = s._seq_number + 1 + 1 :=
    jint_wrap_id _ (by omega) (by omega)
  refine ⟨_, s', ⟨addr, flags ||| p.virtual_memory_reserve_tag, size, jint_wrap (s._seq_number + 1),
    cpc⟩, ⟨addr, flags ||| p.virtual_memory_commit_tag, size,
    jint_wrap (jint_wrap (s._seq_number + 1) + 1), cpc⟩, h1, ?_, rfl, rfl, rfl, rfl, rfl, rfl, rfl,
    rfl, ?_⟩
  · rw [h2]
    simp [Tracker.record_list]
  · show jint_wrap (s._seq_number + 1) < jint_wrap (jint_wrap (s._seq_number + 1) + 1)
    rw [hw1, hw2]
    omega

/-- C11 (witness): a ReserveAndCommit tracker of an unattached thread in the started state: the
reserve record has sequence number 1, the commit record 2. -/
theorem C11_reserve_and_commit_witness :
    ∃ t' s' reserve commit,
      (Tracker.new demo_started demo_storage .ReserveAndCommit none none).1.record demo_platform
        demo_started 4096 64 1280 0 0 (.ok 1) (.ok 2) = some (t', s') ∧
      written_records s'
          (Tracker.new demo_started demo_storage .ReserveAndCommit none none).1._java_thread
        = written_records demo_started
            (Tracker.new demo_started demo_storage .ReserveAndCommit none none).1._java_thread
            ++ [reserve, commit] ∧
      reserve.addr = 4096 ∧ reserve.size = 64 ∧
      reserve.flags = 1280 ||| demo_platform.virtual_memory_reserve_tag ∧
      commit.addr = 4096 ∧ commit.size = 64 ∧
      commit.flags = 1280 ||| demo_platform.virtual_memory_commit_tag ∧
      reserve.seq = (SequenceGenerator.next demo_started).1 ∧
      commit.seq = (SequenceGenerator.next (SequenceGenerator.next demo_started).2).1 ∧
      reserve.seq < commit.seq :=
  C11_reserve_and_commit demo_platform demo_started demo_started demo_storage none none
    4096 64 1280 0 0 1 2 (by decide) (by decide) (by decide) (by decide) (by decide) (by decide)
    (by decide) (by decide) (by decide) (by decide)

/-! ## C12 -/

/-- C12: `init_tracking_options` sets the tracking level, whatever it was, to off for "=off", to
summary for "=summary", and for "=detail" to detail where native stack walking is supported and to
summary where it is not, leaving the rest of the state as it is; and it raises the fatal
initialization error exactly for every other string. -/
theorem C12_init_tracking_options (s : MemTracker) (native_stack_walking : Bool)
    (option_line : String) :
    init_tracking_options s native_stack_walking "=off"
      = some { s with _tracking_level := .NMT_off } ∧
    init_tracking_options s native_stack_walking "=summary"
      = some { s with _tracking_level := .NMT_summary } ∧
    init_tracking_options s true "=detail" = some { s with _tracking_level := .NMT_detail } ∧
    init_tracking_options s false "=detail" = some { s with _tracking_level := .NMT_summary } ∧
    (init_tracking_options s native_stack_walking option_line = none ↔
      (option_line ≠ "=off" ∧ option_line ≠ "=summary" ∧ option_line ≠ "=detail")) := by
  refine ⟨?_, ?_, ?_, ?_, ?_⟩
  · simp [init_tracking_options]
  · simp [init_tracking_options]
  · simp [init_tracking_options]
  · simp [init_tracking_options]
  · unfold init_tracking_options
    by_cases h1 : option_line = "=summary"
    · simp [h1]
    · by_cases h2 : option_line = "=detail"
      · cases native_stack_walking <;> simp [h2]
      · by_cases h3 : option_line = "=off"
        · simp [h3]
        · simp [h1, h2, h3]

/-! ## C13 -/

/-- C13: with tracking enabled, `shutdown(r)` in state started moves the state to shutdown_pending
and stores `r` as the reason; and whatever `shutdown` calls follow, with whatever reasons, they
leave the state, the stored reason included, as that first call left it. -/
theorem C13_shutdown_latched (s : MemTracker) (r : ShutdownReason) (rs : List ShutdownReason)
    (hlv : s._tracking_level ≠ .NMT_off) (hst : s._state = .NMT_started) :
    (shutdown s r)._state = .NMT_shutdown_pending ∧ (shutdown s r)._reason = r ∧
    shutdown_all (shutdown s r) rs = shutdown s r := by
  have h1 : shutdown s r = { s with _state := .NMT_shutdown_pending, _reason := r } := by
    simp [shutdown, hlv, hst, NMTStates.toNat]
  have hfix : ∀ (x : MemTracker) (r' : ShutdownReason), x._state = .NMT_shutdown_pending →
      shutdown x r' = x := by
    intro x r' hx
    unfold shutdown
    split
    · rfl
    · simp [hx, NMTStates.toNat]
  refine ⟨by rw [h1], by rw [h1], ?_⟩
  have hpend : (shutdown s r)._state = .NMT_shutdown_pending := by rw [h1]
  generalize shutdown s r = x at hpend
  induction rs with
  | nil => rfl
  | cons r' rs ih =>
    show shutdown_all (shutdown x r') rs = x
    rw [hfix x r' hpend]
    exact ih

/-- C13 (witness): in the started state a shutdown for lack of memory is latched against a later
user shutdown and a later initialization shutdown. -/
theorem C13_shutdown_latched_witness :
    (shutdown demo_started .NMT_out_of_memory)._state = .NMT_shutdown_pending ∧
    (shutdown demo_started .NMT_out_of_memory)._reason = .NMT_out_of_memory ∧
    shutdown_all (shutdown demo_started .NMT_out_of_memory)
        [.NMT_shutdown_user, .NMT_initialization]
      = shutdown demo_started .NMT_out_of_memory :=
  C13_shutdown_latched demo_started .NMT_out_of_memory [.NMT_shutdown_user, .NMT_initialization]
    (by decide) (by decide)

/-- A failing `start()` in the second phase of bootstrapping leaves the lifecycle state and the
stored reason as they were: `shutdown` acts only in the states up to the single-thread bootstrap
and in state started. -/
theorem start_failure_keeps_state (s : MemTracker) (snap : Option MemSnapshot)
    (w : Option MemTrackWorker) (cws : Bool)
    (hlv : s._tracking_level ≠ .NMT_off) (hst : s._state = .NMT_bootstrapping_multi_thread)
    (hfail : snap = none ∨ (∃ sn, snap = some sn ∧ sn.out_of_memory = true) ∨ w = none ∨
      (∃ wk, w = some wk ∧ wk.has_error = true)) :
    (start s snap w cws)._state = .NMT_bootstrapping_multi_thread ∧
    (start s snap w cws)._reason = s._reason := by
  have hsh : ∀ x : MemTracker, x._tracking_level = s._tracking_level → x._state = s._state →
      x._reason = s._reason →
      (shutdown x .NMT_initialization)._state = .NMT_bootstrapping_multi_thread ∧
      (shutdown x .NMT_initialization)._reason = s._reason := by
    intro x h1 h2 h3
    simp [shutdown, h1, h2, h3, hlv, hst, NMTStates.toNat]
  have hguard : ¬ (s._tracking_level = .NMT_off ∨ shutdown_in_progress s = true) := by
    simp [hlv, shutdown_in_progress, hst, NMTStates.toNat]
  unfold start
  simp only [hguard, if_false]
  cases snap with
  | none => exact hsh _ rfl rfl rfl
  | some sn =>
    simp only []
    by_cases hoom : sn.out_of_memory = true
    · simp only [hoom, Bool.not_true, Bool.false_and, Bool.false_eq_true, if_false]
      exact hsh _ rfl rfl rfl
    · simp only [Bool.not_eq_true] at hoom
      have hw : (start_worker { s with _snapshot := some sn } w).1 = false := by
        rcases hfail with h | ⟨sn', h, h'⟩ | h | ⟨wk, h, h'⟩
        · cases h
        · cases h; rw [hoom] at h'; cases h'
        · rw [h]; rfl
        · rw [h]; simp [start_worker, h']
      simp only [hoom, hw, Bool.not_false, Bool.and_false, Bool.false_eq_true, if_false, if_true]
      apply hsh
      · show (start_worker { s with _snapshot := some sn } w).2._tracking_level = _
        unfold start_worker; split
        · rfl
        · split <;> rfl
      · show (start_worker { s with _snapshot := some sn } w).2._state = _
        unfold start_worker; split
        · rfl
        · split <;> rfl
      · show (start_worker { s with _snapshot := some sn } w).2._reason = _
        unfold start_worker; split
        · rfl
        · split <;> rfl

/-! ## C14 -/

/-- C14 (the code at the failing inputs): `start()` called with tracking enabled in state
bootstrapping_multi_thread and failing, because the snapshot cannot be allocated, the snapshot
reports out-of-memory, the worker cannot be allocated or the worker reports an error, returns
with the state still bootstrapping_multi_thread, no shutdown in progress and no reason stored. -/
theorem C14_failed_start_is_not_shut_down :
    demo_bootstrapping._tracking_level = .NMT_summary ∧
    demo_bootstrapping._state = .NMT_bootstrapping_multi_thread ∧
    (start demo_bootstrapping none (some {}) true)._state = .NMT_bootstrapping_multi_thread ∧
    (start demo_bootstrapping none (some {}) true)._reason = .NMT_shutdown_none ∧
    shutdown_in_progress (start demo_bootstrapping none (some {}) true) = false ∧
    (start demo_bootstrapping (some { out_of_memory := true }) (some {}) true)._state
      = .NMT_bootstrapping_multi_thread ∧
    (start demo_bootstrapping (some { out_of_memory := true }) (some {}) true)._reason
      = .NMT_shutdown_none ∧
    (start demo_bootstrapping (some {}) none true)._state = .NMT_bootstrapping_multi_thread ∧
    (start demo_bootstrapping (some {}) none true)._reason = .NMT_shutdown_none ∧
    (start demo_bootstrapping (some {}) (some { has_error := true }) true)._state
      = .NMT_bootstrapping_multi_thread ∧
    (start demo_bootstrapping (some {}) (some { has_error := true }) true)._reason
      = .NMT_shutdown_none := by
  decide

/-! ## C15 -/

/-- C15 (counterexample to the claim as stated): with tracking enabled, `bootstrap_single_thread`
called in state started leaves the earlier state bootstrapping_single_thread, and
`final_shutdown` called in state shutdown leaves the earlier state final_shutdown. -/
theorem C15_state_moves_back :
    demo_started._state = .NMT_started ∧
    (bootstrap_single_thread demo_started true true)._state = .NMT_bootstrapping_single_thread ∧
    ¬ (demo_started._state.toNat
        ≤ (bootstrap_single_thread demo_started true true)._state.toNat) ∧
    (final_shutdown { demo_started with _state := .NMT_shutdown } true)._state
      = .NMT_final_shutdown ∧
    ¬ (NMTStates.NMT_shutdown.toNat
        ≤ (final_shutdown { demo_started with _state := .NMT_shutdown } true)._state.toNat) := by
  decide

/-- C15 (amended): the state after the operation is equal to or later than the state before it,
for every state, for `bootstrap_multi_thread`, `start`, `shutdown(reason)` and `sync`; for
`bootstrap_single_thread` when it is called no later than in the single-thread bootstrap (the
source asserts state uninit); and for `final_shutdown` when it is called in a state other than
shutdown. -/
theorem C15_state_monotone (p : Platform) (s : MemTracker) (query_lock cws current_is_worker : Bool)
    (snap : Option MemSnapshot) (w : Option MemTrackWorker) (r : ShutdownReason) (n : Nat) :
    (s._state.toNat ≤ NMTStates.NMT_bootstrapping_single_thread.toNat →
      s._state.toNat ≤ (bootstrap_single_thread s query_lock cws)._state.toNat) ∧
    s._state.toNat ≤ (bootstrap_multi_thread s cws)._state.toNat ∧
    s._state.toNat ≤ (start s snap w cws)._state.toNat ∧
    s._state.toNat ≤ (shutdown s r)._state.toNat ∧
    (s._state ≠ .NMT_shutdown →
      s._state.toNat ≤ (final_shutdown s current_is_worker)._state.toNat) ∧
    s._state.toNat ≤ (sync p s n)._state.toNat := by
  have hsw : ∀ (x : MemTracker) (w : Option MemTrackWorker), (start_worker x w).2._state = x._state := by
    intro x w; unfold start_worker; split
    · rfl
    · split <;> rfl
  refine ⟨?_, ?_, ?_, shutdown_state_le s r, ?_, sync_state_le p s n⟩
  · intro h
    unfold bootstrap_single_thread
    split
    · split
      · exact shutdown_state_le _ _
      · split
        · exact shutdown_state_le { s with _query_lock := false } _
        · exact h
    · exact le_refl _
  · unfold bootstrap_multi_thread
    split
    · rename_i h; simp [h.2, NMTStates.toNat]
    · exact le_refl _
  · unfold start
    split
    · exact le_refl _
    · rename_i hg
      have hlt : s._state.toNat < NMTStates.NMT_shutdown_pending.toNat := by
        simp only [not_or, shutdown_in_progress, decide_eq_true_eq, not_le] at hg
        exact hg.2
      cases snap with
      | none => exact shutdown_state_le { s with _snapshot := none } _
      | some sn =>
        simp only []
        split
        · simp only [NMTStates.toNat] at hlt ⊢
          omega
        · split
          · refine le_trans ?_ (shutdown_state_le _ _)
            show s._state.toNat ≤ (start_worker { s with _snapshot := some sn } w).2._state.toNat
            rw [hsw]
          · exact shutdown_state_le { s with _snapshot := none } _
  · intro h
    show s._state.toNat ≤ NMTStates.NMT_final_shutdown.toNat
    cases hs : s._state <;> simp_all [NMTStates.toNat]

/-- C15 (witness): `bootstrap_single_thread` called in state uninit with tracking enabled moves
the state forward. -/
theorem C15_state_monotone_witness :
    NMTStates.NMT_uninited.toNat
      ≤ (bootstrap_single_thread { _tracking_level := .NMT_summary } true true)._state.toNat :=
  (C15_state_monotone demo_platform { _tracking_level := .NMT_summary } true true true none none
    .NMT_shutdown_none 0).1 (by decide)

theorem write_tracking_record_shutdown (p : Platform) (s : MemTracker) (addr flags size : Nat)
    (seq : Int) (pc : Nat) (thread : Option Nat) (a : NewResult)
    (hs : shutdown_in_progress s = true) :
    write_tracking_record p s addr flags size seq pc thread a = s := by
  simp [write_tracking_record, get_thread_recorder, hs]

/-- While shutdown is in progress the writes of `record` change the sequence counter at most. -/
theorem record_writes_shutdown (p : Platform) (t : Tracker) (s : MemTracker)
    (addr flags orig_flags size pc : Nat) (a1 a2 : NewResult)
    (hs : shutdown_in_progress s = true) :
    ∃ c, Tracker.record_writes p t s addr flags orig_flags size pc a1 a2
      = { s with _seq_number := c } := by
  unfold Tracker.record_writes
  by_cases h0 : t._seq = 0
  · simp only [h0, if_true]
    have h1 : shutdown_in_progress (SequenceGenerator.next s).2 = true :=
      (shutdown_in_progress_next s).trans hs
    rw [write_tracking_record_shutdown _ _ _ _ _ _ _ _ _ h1]
    split
    · have h2 : shutdown_in_progress (SequenceGenerator.next (SequenceGenerator.next s).2).2 = true :=
        (shutdown_in_progress_next _).trans h1
      rw [write_tracking_record_shutdown _ _ _ _ _ _ _ _ _ h2]
      exact ⟨_, rfl⟩
    · exact ⟨_, rfl⟩
  · simp only [h0, if_false]
    rw [write_tracking_record_shutdown _ _ _ _ _ _ _ _ _ hs]
    split
    · have h1 : shutdown_in_progress (SequenceGenerator.next s).2 = true :=
        (shutdown_in_progress_next s).trans hs
      rw [write_tracking_record_shutdown _ _ _ _ _ _ _ _ _ h1]
      exact ⟨_, rfl⟩
    · exact ⟨s._seq_number, rfl⟩

/-- While shutdown is in progress the writes of the realloc variant of `record` change the
sequence counter at most. -/
theorem realloc_writes_shutdown (p : Platform) (t : Tracker) (s : MemTracker)
    (old_addr new_addr size flags pc : Nat) (a1 a2 : NewResult)
    (hs : shutdown_in_progress s = true) :
    ∃ c, Tracker.realloc_writes p t s old_addr new_addr size flags pc a1 a2
      = { s with _seq_number := c } := by
  unfold Tracker.realloc_writes
  rw [write_tracking_record_shutdown _ _ _ _ _ _ _ _ _ hs]
  have h1 : shutdown_in_progress (SequenceGenerator.next s).2 = true :=
    (shutdown_in_progress_next s).trans hs
  simp only []
  rw [write_tracking_record_shutdown _ _ _ _ _ _ _ _ _ h1]
  exact ⟨_, rfl⟩

/-! ## C16 -/

/-- C16 (counterexample to the claim as stated): in state shutdown_pending, with the tracking
level still summary, a tracker constructed for Malloc is a Malloc tracker, not a NoOp tracker. -/
theorem C16_tracker_in_shutdown_is_not_noop :
    shutdown_in_progress { demo_started with _state := .NMT_shutdown_pending } = true ∧
    (Tracker.new { demo_started with _state := .NMT_shutdown_pending } demo_storage .Malloc
      none none).1._op = .Malloc := by
  decide

/-- C16 (amended): whenever the state is shutdown_pending or later, `write_tracking_record`
leaves the whole state unchanged, and both variants of `record`, on any tracker, leave every
thread slot, the global recorder, the pool and the pending queue unchanged, so no record is
appended.  A tracker constructed then is a NoOp tracker only once tracking is off, that is once
the tracking level is off; while the level is on the tracker keeps the operation it was asked
for. -/
theorem C16_events_dropped (p : Platform) (s : MemTracker) (mem t : Tracker)
    (op : MemoryOperation) (thr tls thread : Option Nat)
    (addr old_addr new_addr size flags pc cpc : Nat) (seq : Int) (a a1 a2 : NewResult)
    (hs : shutdown_in_progress s = true) :
    write_tracking_record p s addr flags size seq pc thread a = s ∧
    (∀ t' s', t.record p s addr size flags pc cpc a1 a2 = some (t', s') →
      s'.threads = s.threads ∧ s'._global_recorder = s._global_recorder ∧
      s'._pooled_recorders = s._pooled_recorders ∧
      s'._merge_pending_queue = s._merge_pending_queue) ∧
    ((t.record_realloc p s old_addr new_addr size flags pc a1 a2).2.threads = s.threads ∧
      (t.record_realloc p s old_addr new_addr size flags pc a1 a2).2._global_recorder
        = s._global_recorder ∧
      (t.record_realloc p s old_addr new_addr size flags pc a1 a2).2._pooled_recorders
        = s._pooled_recorders ∧
      (t.record_realloc p s old_addr new_addr size flags pc a1 a2).2._merge_pending_queue
        = s._merge_pending_queue) ∧
    (is_on s = true ↔ s._tracking_level ≠ .NMT_off) ∧
    (s._tracking_level ≠ .NMT_off → (Tracker.new s mem op thr tls).1._op = op) ∧
    (s._tracking_level = .NMT_off → (Tracker.new s mem op thr tls).1._op = .NoOp) := by
  have hon : is_on s = true ↔ s._tracking_level ≠ .NMT_off := by
    simp only [shutdown_in_progress, decide_eq_true_eq, NMTStates.toNat] at hs
    simp only [is_on, Bool.and_eq_true, decide_eq_true_eq, NMTStates.toNat]
    constructor
    · intro h; exact h.1
    · intro h; exact ⟨h, by omega⟩
  refine ⟨write_tracking_record_shutdown _ _ _ _ _ _ _ _ _ hs, ?_, ?_, hon, ?_, ?_⟩
  · intro t' s' hrec
    unfold Tracker.record at hrec
    split at hrec
    · simp only [Option.some.injEq, Prod.mk.injEq] at hrec
      rw [← hrec.2]; exact ⟨rfl, rfl, rfl, rfl⟩
    · split at hrec
      · simp only [] at hrec
        split at hrec
        · exact absurd hrec (by simp)
        · rename_i tag addr' _
          obtain ⟨c, hc⟩ := record_writes_shutdown p t s addr' tag flags size cpc a1 a2 hs
          rw [hc] at hrec
          split at hrec
          · split at hrec <;>
              (simp only [Option.some.injEq, Prod.mk.injEq] at hrec
               rw [← hrec.2]; exact ⟨rfl, rfl, rfl, rfl⟩)
          · simp only [Option.some.injEq, Prod.mk.injEq] at hrec
            rw [← hrec.2]; exact ⟨rfl, rfl, rfl, rfl⟩
      · simp only [Option.some.injEq, Prod.mk.injEq] at hrec
        rw [← hrec.2]; exact ⟨rfl, rfl, rfl, rfl⟩
  · unfold Tracker.record_realloc
    obtain ⟨c, hc⟩ := realloc_writes_shutdown p t s old_addr new_addr size flags pc a1 a2 hs
    split
    · split <;> (rw [hc]; exact ⟨rfl, rfl, rfl, rfl⟩)
    · exact ⟨rfl, rfl, rfl, rfl⟩
  · intro h
    rw [Tracker.new_on s mem op thr tls (hon.2 h)]
  · intro h
    have hoff : is_on s = false := by
      cases hb : is_on s
      · rfl
      · exact absurd h (hon.1 hb)
    simp [Tracker.new, hoff]

/-- C16 (witness): in state shutdown_pending a Malloc tracker records nothing: the global
recorder is still absent and the pending queue still empty. -/
theorem C16_events_dropped_witness :
    ((⟨.Malloc, 0, none, true⟩ : Tracker).record demo_platform
        { demo_started with _state := .NMT_shutdown_pending } 4096 64 1280 0 0
        (.ok 1) (.ok 2)).map (fun r => (r.2._global_recorder, r.2._merge_pending_queue))
      = some (none, []) := by
  have h := (C16_events_dropped demo_platform { demo_started with _state := .NMT_shutdown_pending }
    demo_storage ⟨.Malloc, 0, none, true⟩ .Malloc none none none 4096 10 11 64 1280 0 0 1
    (.ok 1) (.ok 1) (.ok 2) (by decide)).2.1
  cases hr : (⟨.Malloc, 0, none, true⟩ : Tracker).record demo_platform
      { demo_started with _state := .NMT_shutdown_pending } 4096 64 1280 0 0 (.ok 1) (.ok 2) with
  | none => exact absurd hr (by decide)
  | some r =>
    obtain ⟨-, h2, -, h4⟩ := h r.1 r.2 hr
    simp only [Option.map_some', h2, h4]
    rfl

/-! ## Lemmas on sequences of writes -/

theorem SameButStore_refl (s : MemTracker) : SameButStore s s :=
  ⟨rfl, rfl, rfl, rfl, rfl, rfl, rfl, rfl, rfl, rfl, fun _ => rfl, rfl, rfl⟩

theorem SameButStore_trans {a b c : MemTracker} (h1 : SameButStore a b)
    (h2 : SameButStore b c) : SameButStore a c :=
  ⟨h2.skip.trans h1.skip, h2.level.trans h1.level, h2.state.trans h1.state,
    h2.reason.trans h1.reason, h2.thread_count.trans h1.thread_count,
    h2.pending.trans h1.pending, h2.slowdown.trans h1.slowdown, h2.seq.trans h1.seq,
    h2.gen.trans h1.gen, h2.nthreads.trans h1.nthreads,
    fun j => (h2.attributes j).trans (h1.attributes j), h2.worker.trans h1.worker,
    h2.auto_shutdown.trans h1.auto_shutdown⟩

theorem set_slot_store (s : MemTracker) (thread : Option Nat) (rc : Option MemRecorder) :
    SameButStore s (set_slot s thread rc) := by
  cases thread with
  | none => exact ⟨rfl, rfl, rfl, rfl, rfl, rfl, rfl, rfl, rfl, rfl, fun _ => rfl, rfl, rfl⟩
  | some i =>
    refine ⟨rfl, rfl, rfl, rfl, rfl, rfl, rfl, rfl, rfl, by simp [set_slot], ?_, rfl, rfl⟩
    intro j
    simp only [set_slot, List.get?_eq_getElem?, List.getElem?_modify]
    cases hj : s.threads[j]? with
    | none => rfl
    | some th =>
      by_cases hij : i = j <;> simp [hij, Thread.attributes]

/-- What `set_slot` leaves of the store: the pending queue, the pool and the two counts. -/
theorem set_slot_rest (s : MemTracker) (thread : Option Nat) (rc : Option MemRecorder) :
    (set_slot s thread rc)._merge_pending_queue = s._merge_pending_queue ∧
    (set_slot s thread rc)._pooled_recorders = s._pooled_recorders ∧
    (set_slot s thread rc)._instance_count = s._instance_count ∧
    (set_slot s thread rc)._pooled_recorder_count = s._pooled_recorder_count := by
  cases thread <;> exact ⟨rfl, rfl, rfl, rfl⟩

/-- A write through a slot whose recorder is not full appends to that recorder and touches
nothing else. -/
theorem write_tracking_record_append (p : Platform) (s : MemTracker) (e : MemPointerRecord)
    (thread : Option Nat) (a : NewResult) (r : MemRecorder)
    (hs : shutdown_in_progress s = false) (hslot : get_slot s thread = some r)
    (hlen : r.records.length < p.recorder_capacity) :
    write_tracking_record p s e.addr e.flags e.size e.seq e.pc thread a
      = set_slot s thread (some { r with records := r.records ++ [e] }) := by
  have hf : r.is_full p = false := by
    simp [MemRecorder.is_full]; omega
  simp [write_tracking_record, get_thread_recorder, hs, hslot, hf, MemRecorder.record]

/-- A write through an empty slot, with an empty pool and a successful allocation, puts a new
recorder holding the record in the slot. -/
theorem write_tracking_record_fresh (p : Platform) (s : MemTracker) (e : MemPointerRecord)
    (thread : Option Nat) (q : Nat)
    (hcap : 0 < p.recorder_capacity)
    (hs : shutdown_in_progress s = false) (hslot : get_slot s thread = none)
    (hpool : s._pooled_recorders = []) :
    write_tracking_record p s e.addr e.flags e.size e.seq e.pc thread (.ok q)
      = set_slot (set_slot { s with _instance_count := s._instance_count + 1 } thread
          (some { id := q })) thread (some { id := q, records := [e] }) := by
  have hf : MemRecorder.is_full p { id := q } = false := by
    simp [MemRecorder.is_full]; omega
  simp [write_tracking_record, get_thread_recorder, hs, hslot, get_new_or_pooled_instance, hpool,
    MemRecorder.record, hf]

/-- A write through a slot whose recorder is full, with an empty pool and a successful
allocation, pushes that recorder on the pending queue and puts a new recorder holding the record
in the slot. -/
theorem write_tracking_record_overflow (p : Platform) (s : MemTracker) (e : MemPointerRecord)
    (thread : Option Nat) (q : Nat) (r : MemRecorder)
    (hcap : 0 < p.recorder_capacity)
    (hs : shutdown_in_progress s = false) (hslot : get_slot s thread = some r)
    (hlen : r.records.length = p.recorder_capacity)
    (hpool : s._pooled_recorders = []) :
    write_tracking_record p s e.addr e.flags e.size e.seq e.pc thread (.ok q)
      = set_slot (set_slot { s with _merge_pending_queue := r :: s._merge_pending_queue,
                                    _instance_count := s._instance_count + 1 } thread
          (some { id := q })) thread (some { id := q, records := [e] }) := by
  have hf : MemRecorder.is_full p { id := q } = false := by
    simp [MemRecorder.is_full]; omega
  have hfr : r.is_full p = true := by
    simp [MemRecorder.is_full, hlen]
  simp [write_tracking_record, get_thread_recorder, hs, hslot, get_new_or_pooled_instance, hpool,
    MemRecorder.record, hf, hfr, enqueue_pending_recorder]

/-- Writes that fit in the recorder of the slot are all appended to it. -/
theorem write_events_fill (p : Platform) (thread : Option Nat) :
    ∀ (events : List (MemPointerRecord × NewResult)) (s : MemTracker) (r : MemRecorder),
    shutdown_in_progress s = false → valid_thread s thread → get_slot s thread = some r →
    r.records.length + events.length ≤ p.recorder_capacity →
    get_slot (write_events p s thread events) thread
      = some { r with records := r.records ++ events.map Prod.fst } ∧
    SameButStore s (write_events p s thread events) ∧
    (write_events p s thread events)._merge_pending_queue = s._merge_pending_queue ∧
    (write_events p s thread events)._pooled_recorders = s._pooled_recorders ∧
    (write_events p s thread events)._instance_count = s._instance_count := by
  intro events
  induction events with
  | nil =>
    intro s r _ _ hslot _
    refine ⟨?_, SameButStore_refl s, rfl, rfl, rfl⟩
    simp only [write_events, List.map_nil, List.append_nil]
    exact hslot
  | cons x events ih =>
    intro s r hs hv hslot hlen
    obtain ⟨e, a⟩ := x
    simp only [List.length_cons] at hlen
    have hw := write_tracking_record_append p s e thread a r hs hslot (by omega)
    simp only [write_events]
    rw [hw]
    have hst := set_slot_store s thread (some { r with records := r.records ++ [e] })
    obtain ⟨hq, hpl, hic, -⟩ := set_slot_rest s thread (some { r with records := r.records ++ [e] })
    have hs' : shutdown_in_progress (set_slot s thread (some { r with records := r.records ++ [e] }))
        = false := by
      rw [shutdown_in_progress_of_state hst.state]; exact hs
    have hv' : valid_thread (set_slot s thread (some { r with records := r.records ++ [e] })) thread :=
      valid_thread_of_length hst.nthreads hv
    obtain ⟨h1, h2, h3, h4, h5⟩ := ih _ { r with records := r.records ++ [e] } hs' hv'
      (get_slot_set_slot _ _ _ hv) (by simp; omega)
    refine ⟨?_, SameButStore_trans hst h2, h3.trans hq, h4.trans hpl, h5.trans hic⟩
    rw [h1]
    simp

/-- Writes whose allocations succeed are all appended to the records written through the
slot, in the order written. -/
theorem write_events_written (p : Platform) (thread : Option Nat) :
    ∀ (events : List (MemPointerRecord × NewResult)) (s : MemTracker),
    0 < p.recorder_capacity → shutdown_in_progress s = false → valid_thread s thread →
    pool_cleared s → (∀ x ∈ events, ∃ q, x.2 = .ok q) →
    written_records (write_events p s thread events) thread
      = written_records s thread ++ events.map Prod.fst := by
  intro events
  induction events with
  | nil => intro s _ _ _ _ _; simp [write_events]
  | cons x events ih =>
    intro s hcap hs hv hp hok
    obtain ⟨e, a⟩ := x
    obtain ⟨q, hq⟩ := hok (e, a) (by simp)
    simp only at hq
    subst hq
    obtain ⟨w1, c1, p1⟩ := write_tracking_record_ok p s e.addr e.flags e.size e.seq e.pc thread q
      hcap hs hv hp
    simp only [write_events]
    rw [ih _ hcap ((shutdown_in_progress_of_state c1.state).trans hs)
      (valid_thread_of_length c1.nthreads hv) p1 (fun x hx => hok x (by simp [hx])), w1]
    simp

theorem sync_drain_eq (p : Platform) (s : MemTracker) (n : Nat) :
    sync_drain p s n
      = sync_at_sync_point (sync_check_load (sync_collect p s)) (sync_batch p s) n := rfl

theorem do_thread_count (s : MemTracker) (c : Int) (i : Nat) (hi : i < s.threads.length) :
    (SyncThreadRecorderClosure.do_thread s c i).2 = jint_wrap (c + 1) := by
  unfold SyncThreadRecorderClosure.do_thread
  have : ∃ th, s.threads.get? i = some th := by
    rw [List.get?_eq_getElem?]
    exact ⟨s.threads[i], List.getElem?_eq_getElem hi⟩
  obtain ⟨th, hth⟩ := this
  rw [hth]

/-- The walk counts the threads it is applied to. -/
theorem walk_count (is : List Nat) : ∀ (s : MemTracker) (c : Int),
    (∀ i ∈ is, i < s.threads.length) → -2147483648 ≤ c → c + is.length ≤ 2147483647 →
    (SyncThreadRecorderClosure.walk s c is).2 = c + is.length := by
  induction is with
  | nil => intro s c _ _ _; simp [SyncThreadRecorderClosure.walk]
  | cons i is ih =>
    intro s c hi h1 h2
    simp only [List.length_cons, Nat.cast_add, Nat.cast_one] at h2
    simp only [SyncThreadRecorderClosure.walk]
    have hc := do_thread_count s c i (hi i (by simp))
    rw [ih _ _ ?_ ?_ ?_, hc, jint_wrap_id _ (by omega) (by omega)]
    · simp only [List.length_cons, Nat.cast_add, Nat.cast_one]; omega
    · intro j hj
      rw [(do_thread_frame s c i).nthreads]
      exact hi j (by simp [hj])
    · rw [hc, jint_wrap_id _ (by omega) (by omega)]; omega
    · rw [hc, jint_wrap_id _ (by omega) (by omega)]; omega

theorem walked_lt (s : MemTracker) : ∀ i ∈ Threads.walked s, i < s.threads.length := by
  intro i hi
  simp only [Threads.walked, List.mem_filter, List.mem_range] at hi
  exact hi.1

theorem walked_length_le (s : MemTracker) : (Threads.walked s).length ≤ s.threads.length := by
  unfold Threads.walked
  exact le_trans (List.length_filter_le _ _) (by simp)

/-- The thread walk counts the threads walked. -/
theorem threads_do_count (s : MemTracker) (h : (s.threads.length : Int) ≤ 2147483647) :
    (Threads.threads_do s).2 = (Threads.walked s).length := by
  unfold Threads.threads_do
  have hl := walked_length_le s
  rw [walk_count _ s 0 (walked_lt s) (by omega) (by omega)]
  simp

/-- Outside shutdown `do_thread` deletes no recorder and only adds to the pending queue. -/
theorem do_thread_keeps (s : MemTracker) (c : Int) (i : Nat)
    (hs : shutdown_in_progress s = false) :
    (SyncThreadRecorderClosure.do_thread s c i).1._instance_count = s._instance_count ∧
    ∃ l, (SyncThreadRecorderClosure.do_thread s c i).1._merge_pending_queue
      = l ++ s._merge_pending_queue := by
  unfold SyncThreadRecorderClosure.do_thread
  cases s.threads.get? i with
  | none => exact ⟨rfl, [], rfl⟩
  | some th =>
    simp only []
    split
    · cases th._recorder with
      | none => exact ⟨rfl, [], rfl⟩
      | some r =>
        unfold enqueue_pending_recorder
        rw [hs]
        exact ⟨rfl, [r], rfl⟩
    · exact ⟨rfl, [], rfl⟩

/-- Outside shutdown the walk deletes no recorder and only adds to the pending queue. -/
theorem walk_keeps (is : List Nat) : ∀ (s : MemTracker) (c : Int),
    shutdown_in_progress s = false →
    (SyncThreadRecorderClosure.walk s c is).1._instance_count = s._instance_count ∧
    ∃ l, (SyncThreadRecorderClosure.walk s c is).1._merge_pending_queue
      = l ++ s._merge_pending_queue := by
  induction is with
  | nil => intro s c _; exact ⟨rfl, [], rfl⟩
  | cons i is ih =>
    intro s c hs
    obtain ⟨h1, l1, h2⟩ := do_thread_keeps s c i hs
    have hs1 : shutdown_in_progress (SyncThreadRecorderClosure.do_thread s c i).1 = false :=
      (shutdown_in_progress_of_state (do_thread_frame s c i).state).trans hs
    obtain ⟨h3, l2, h4⟩ := ih (SyncThreadRecorderClosure.do_thread s c i).1
      (SyncThreadRecorderClosure.do_thread s c i).2 hs1
    simp only [SyncThreadRecorderClosure.walk]
    exact ⟨h3.trans h1, l2 ++ l1, by rw [h4, h2, List.append_assoc]⟩

/-- `do_thread` on one thread leaves the entries of the other threads as they are. -/
theorem do_thread_other (s : MemTracker) (c : Int) (i j : Nat) (hij : i ≠ j) :
    (SyncThreadRecorderClosure.do_thread s c i).1.threads.get? j = s.threads.get? j := by
  unfold SyncThreadRecorderClosure.do_thread
  cases s.threads.get? i with
  | none => rfl
  | some th =>
    simp only []
    split
    · cases th._recorder with
      | none => rfl
      | some r =>
        simp only [set_slot, enqueue_pending_recorder]
        split <;> simp [List.get?_eq_getElem?, List.getElem?_modify, hij]
    · rfl

/-- Outside shutdown the walk puts on the pending queue the recorder of every Java thread it is
applied to. -/
theorem walk_collects (is : List Nat) : ∀ (s : MemTracker) (c : Int) (i : Nat) (th : Thread)
    (r : MemRecorder), shutdown_in_progress s = false → i ∈ is → s.threads.get? i = some th →
    th.is_Java_thread = true → th._recorder = some r →
    r ∈ (SyncThreadRecorderClosure.walk s c is).1._merge_pending_queue := by
  induction is with
  | nil => intro s c i th r _ hi; simp at hi
  | cons j is ih =>
    intro s c i th r hs hi hth hjava hrec
    have hs1 : shutdown_in_progress (SyncThreadRecorderClosure.do_thread s c j).1 = false :=
      (shutdown_in_progress_of_state (do_thread_frame s c j).state).trans hs
    simp only [SyncThreadRecorderClosure.walk]
    by_cases hji : j = i
    · subst hji
      obtain ⟨-, l, hl⟩ := walk_keeps is (SyncThreadRecorderClosure.do_thread s c j).1
        (SyncThreadRecorderClosure.do_thread s c j).2 hs1
      rw [hl]
      apply List.mem_append_right
      unfold SyncThreadRecorderClosure.do_thread
      rw [hth]
      simp only [hjava, hrec, if_true]
      unfold enqueue_pending_recorder
      rw [hs]
      simp [set_slot]
    · have hi' : i ∈ is := by
        simp only [List.mem_cons] at hi
        rcases hi with h | h
        · exact absurd h.symm hji
        · exact h
      exact ih _ _ i th r hs1 hi' ((do_thread_other s c j i hji).trans hth) hjava hrec

theorem sync_take_global_store (s : MemTracker) (l : List MemRecorder) :
    SameButStore s (sync_take_global s l).2 := by
  unfold sync_take_global
  split
  · exact ⟨rfl, rfl, rfl, rfl, rfl, rfl, rfl, rfl, rfl, rfl, fun _ => rfl, rfl, rfl⟩
  · exact SameButStore_refl s

/-- What the drain of `sync` has done when the recorders are collected: the generator is reset,
the skip counter is zero, the thread count is that of the walk, and the lifecycle state, the
reason, the pending-op count, the worker and the flags are as before. -/
theorem sync_collect_fields (p : Platform) (s : MemTracker) :
    (sync_collect p s)._state = s._state ∧
    (sync_collect p s)._tracking_level = s._tracking_level ∧
    (sync_collect p s)._reason = s._reason ∧
    (sync_collect p s)._worker_thread = s._worker_thread ∧
    (sync_collect p s).AutoShutdownNMT = s.AutoShutdownNMT ∧
    (sync_collect p s)._pending_op_count = s._pending_op_count ∧
    (sync_collect p s)._sync_point_skip_count = 0 ∧
    (sync_collect p s)._seq_number = 1 ∧
    (sync_collect p s)._generation = (s._generation + 1) % 2 ^ p.unsigned_long_bits ∧
    (sync_collect p s)._thread_count
      = (Threads.threads_do
          { SequenceGenerator.reset p s with _sync_point_skip_count := 0 }).2 ∧
    (sync_collect p s)._slowdown_calling_thread = s._slowdown_calling_thread := by
  have hw := threads_do_frame { SequenceGenerator.reset p s with _sync_point_skip_count := 0 }
  have hg := fun x l => sync_take_global_store x l
  unfold sync_collect
  refine ⟨?_, ?_, ?_, ?_, ?_, ?_, ?_, ?_, ?_, ?_, ?_⟩
  · rw [(hg _ _).state]; exact hw.state
  · rw [(hg _ _).level]; exact hw.level
  · rw [(hg _ _).reason]; exact hw.reason
  · rw [(hg _ _).worker]; exact hw.worker
  · rw [(hg _ _).auto_shutdown]; exact hw.auto_shutdown
  · rw [(hg _ _).pending]; exact hw.pending
  · rw [(hg _ _).skip]; exact hw.skip
  · rw [(hg _ _).seq]; exact hw.seq
  · rw [(hg _ _).gen]; exact hw.gen
  · rw [(hg _ _).thread_count]; rfl
  · rw [(hg _ _).slowdown]; exact hw.slowdown

theorem sync_collect_instance (p : Platform) (s : MemTracker)
    (hs : shutdown_in_progress s = false) :
    (sync_collect p s)._instance_count = s._instance_count := by
  have hs1 : shutdown_in_progress
      { SequenceGenerator.reset p s with _sync_point_skip_count := 0 } = false := hs
  have h := (walk_keeps (Threads.walked
    { SequenceGenerator.reset p s with _sync_point_skip_count := 0 })
    { SequenceGenerator.reset p s with _sync_point_skip_count := 0 } 0 hs1).1
  unfold sync_collect sync_take_global
  split
  · exact h
  · exact h

theorem write_events_append (p : Platform) (thread : Option Nat) :
    ∀ (xs ys : List (MemPointerRecord × NewResult)) (s : MemTracker),
    write_events p s thread (xs ++ ys) = write_events p (write_events p s thread xs) thread ys := by
  intro xs
  induction xs with
  | nil => intro ys s; rfl
  | cons x xs ih =>
    intro ys s
    obtain ⟨e, a⟩ := x
    simp only [List.cons_append, write_events]
    exact ih ys _

/-- One more event than a recorder holds, written through an empty slot with an empty pending
queue and an empty pool: the first recorder, full, is on the pending queue, the second holds the
last record and is in the slot, and two recorder instances have been created. -/
theorem write_events_overflow (p : Platform) (s : MemTracker) (thread : Option Nat)
    (e1 e2 : MemPointerRecord) (q1 q2 : Nat) (mid : List (MemPointerRecord × NewResult))
    (hs : shutdown_in_progress s = false) (hv : valid_thread s thread)
    (hcap : mid.length + 1 = p.recorder_capacity)
    (hslot : get_slot s thread = none) (hqueue : s._merge_pending_queue = [])
    (hpool : s._pooled_recorders = []) :
    (write_events p s thread ((e1, .ok q1) :: mid ++ [(e2, .ok q2)]))._merge_pending_queue
      = [{ id := q1, records := e1 :: mid.map Prod.fst }] ∧
    get_slot (write_events p s thread ((e1, .ok q1) :: mid ++ [(e2, .ok q2)])) thread
      = some { id := q2, records := [e2] } ∧
    (write_events p s thread ((e1, .ok q1) :: mid ++ [(e2, .ok q2)]))._instance_count
      = s._instance_count + 2 ∧
    SameButStore s (write_events p s thread ((e1, .ok q1) :: mid ++ [(e2, .ok q2)])) := by
  have hc : 0 < p.recorder_capacity := by omega
  -- the first write
  have h1 := write_tracking_record_fresh p s e1 thread q1 hc hs hslot hpool
  generalize hs1 : write_tracking_record p s e1.addr e1.flags e1.size e1.seq e1.pc thread (.ok q1)
    = s1 at h1
  have hb1 : SameButStore s s1 := by
    rw [h1]
    refine SameButStore_trans (SameButStore_trans ?_ (set_slot_store _ _ _)) (set_slot_store _ _ _)
    exact ⟨rfl, rfl, rfl, rfl, rfl, rfl, rfl, rfl, rfl, rfl, fun _ => rfl, rfl, rfl⟩
  have hv1 : valid_thread s1 thread := valid_thread_of_length hb1.nthreads hv
  have hsd1 : shutdown_in_progress s1 = false :=
    (shutdown_in_progress_of_state hb1.state).trans hs
  have hslot1 : get_slot s1 thread = some { id := q1, records := [e1] } := by
    rw [h1]
    apply get_slot_set_slot
    exact valid_thread_of_length (set_slot_store _ _ _).nthreads
      (valid_thread_of_length (s := s) rfl hv)
  have hrest1 : s1._merge_pending_queue = [] ∧ s1._pooled_recorders = [] ∧
      s1._instance_count = s._instance_count + 1 := by
    rw [h1]
    have a := set_slot_rest (set_slot { s with _instance_count := s._instance_count + 1 } thread
      (some { id := q1 })) thread (some { id := q1, records := [e1] })
    have b := set_slot_rest { s with _instance_count := s._instance_count + 1 } thread
      (some { id := q1 })
    exact ⟨a.1.trans (b.1.trans hqueue), a.2.1.trans (b.2.1.trans hpool),
      a.2.2.1.trans b.2.2.1⟩
  -- the writes that fill the first recorder
  obtain ⟨hslot2, hb2, hq2, hp2, hi2⟩ := write_events_fill p thread mid s1
    { id := q1, records := [e1] } hsd1 hv1 hslot1 (by simp only [List.length_singleton]; omega)
  generalize hs2 : write_events p s1 thread mid = s2 at hslot2 hb2 hq2 hp2 hi2
  have hv2 : valid_thread s2 thread := valid_thread_of_length hb2.nthreads hv1
  have hsd2 : shutdown_in_progress s2 = false :=
    (shutdown_in_progress_of_state hb2.state).trans hsd1
  -- the write that meets the full recorder
  have h3 := write_tracking_record_overflow p s2 e2 thread q2
    { id := q1, records := [e1] ++ mid.map Prod.fst } hc hsd2 hslot2
    (by simp only [List.length_append, List.length_singleton, List.length_map]; omega)
    (hp2.trans hrest1.2.1)
  generalize hs3 : write_tracking_record p s2 e2.addr e2.flags e2.size e2.seq e2.pc thread (.ok q2)
    = s3 at h3
  have hfin : write_events p s thread ((e1, .ok q1) :: mid ++ [(e2, .ok q2)]) = s3 := by
    rw [List.cons_append]
    simp only [write_events]
    rw [hs1, write_events_append, hs2]
    simp only [write_events]
    rw [hs3]
  rw [hfin, h3]
  have a := set_slot_rest (set_slot
    { s2 with _merge_pending_queue :=
                ({ id := q1, records := [e1] ++ mid.map Prod.fst } : MemRecorder)
                  :: s2._merge_pending_queue,
              _instance_count := s2._instance_count + 1 } thread
      (some { id := q2 })) thread (some { id := q2, records := [e2] })
  have b := set_slot_rest
    { s2 with _merge_pending_queue :=
                ({ id := q1, records := [e1] ++ mid.map Prod.fst } : MemRecorder)
                  :: s2._merge_pending_queue,
              _instance_count := s2._instance_count + 1 } thread (some { id := q2 })
  refine ⟨?_, ?_, ?_, ?_⟩
  · rw [a.1, b.1]
    simp only [hq2, hrest1.1, List.singleton_append]
  · apply get_slot_set_slot
    exact valid_thread_of_length (set_slot_store _ _ _).nthreads
      (valid_thread_of_length (s := s2) rfl hv2)
  · rw [a.2.2.1, b.2.2.1]
    simp only [hi2, hrest1.2.2]
    omega
  · refine SameButStore_trans hb1 (SameButStore_trans hb2 ?_)
    refine SameButStore_trans (SameButStore_trans ?_ (set_slot_store _ _ _)) (set_slot_store _ _ _)
    exact ⟨rfl, rfl, rfl, rfl, rfl, rfl, rfl, rfl, rfl, rfl, fun _ => rfl, rfl, rfl⟩

/-- What the test on the outstanding recorder instances leaves as it is. -/
theorem sync_check_load_fields (x : MemTracker) :
    (sync_check_load x)._worker_thread = x._worker_thread ∧
    (sync_check_load x)._sync_point_skip_count = x._sync_point_skip_count ∧
    (sync_check_load x)._seq_number = x._seq_number ∧
    (sync_check_load x)._generation = x._generation ∧
    (sync_check_load x)._thread_count = x._thread_count ∧
    (sync_check_load x)._tracking_level = x._tracking_level ∧
    ((sync_check_load x)._state = x._state ∨
      (sync_check_load x)._state = .NMT_shutdown_pending) := by
  unfold sync_check_load
  split
  · exact ⟨rfl, rfl, rfl, rfl, rfl, rfl, Or.inl rfl⟩
  · split
    · unfold shutdown
      split
      · exact ⟨rfl, rfl, rfl, rfl, rfl, rfl, Or.inl rfl⟩
      · split
        · exact ⟨rfl, rfl, rfl, rfl, rfl, rfl, Or.inr rfl⟩
        · split
          · exact ⟨rfl, rfl, rfl, rfl, rfl, rfl, Or.inr rfl⟩
          · exact ⟨rfl, rfl, rfl, rfl, rfl, rfl, Or.inl rfl⟩
    · exact ⟨rfl, rfl, rfl, rfl, rfl, rfl, Or.inl rfl⟩

theorem sync_at_sync_point_fields (x : MemTracker) (l : List MemRecorder) (n : Nat) :
    (sync_at_sync_point x l n)._state = x._state ∧
    (sync_at_sync_point x l n)._reason = x._reason ∧
    (sync_at_sync_point x l n)._tracking_level = x._tracking_level ∧
    (sync_at_sync_point x l n)._sync_point_skip_count = x._sync_point_skip_count ∧
    (sync_at_sync_point x l n)._seq_number = x._seq_number ∧
    (sync_at_sync_point x l n)._generation = x._generation ∧
    (sync_at_sync_point x l n)._thread_count = x._thread_count ∧
    (sync_at_sync_point x l n)._worker_thread
      = x._worker_thread.map (fun w => { w with batches := w.batches ++ [(l, n)] }) := by
  unfold sync_at_sync_point
  split
  · rename_i w h
    refine ⟨rfl, rfl, rfl, rfl, rfl, rfl, rfl, ?_⟩
    rw [h]; rfl
  · rename_i h
    refine ⟨rfl, rfl, rfl, rfl, rfl, rfl, rfl, ?_⟩
    rw [h]; rfl

/-- A `sync` in state started with a worker, not throttled and with no pending operation, is
the drain. -/
theorem sync_drains (p : Platform) (s : MemTracker) (n : Nat) (w : MemTrackWorker)
    (hst : s._state = .NMT_started) (hw : s._worker_thread = some w)
    (hthr : ¬ (s._sync_point_skip_count < MAX_SAFEPOINTS_TO_SKIP ∧ sync_should_skip p s w = true))
    (hpend : s._pending_op_count = 0) :
    sync p s n = sync_drain p s n := by
  have hne : (sync_drain p s n)._state ≠ .NMT_final_shutdown := by
    rw [sync_drain_eq, (sync_at_sync_point_fields _ _ _).1]
    rcases (sync_check_load_fields (sync_collect p s)).2.2.2.2.2.2 with h | h
    · rw [h, (sync_collect_fields p s).1, hst]; decide
    · rw [h]; decide
  unfold sync
  rw [if_pos hst, hw]
  simp only []
  rw [if_neg hthr, if_pos hpend]
  unfold sync_final_shutdown
  rw [if_neg hne]

/-- What the drain of `sync` does to the generator, the skip counter and the worker. -/
theorem sync_drain_fields (p : Platform) (s : MemTracker) (n : Nat) :
    (sync_drain p s n)._sync_point_skip_count = 0 ∧
    (sync_drain p s n)._seq_number = 1 ∧
    (sync_drain p s n)._generation = (s._generation + 1) % 2 ^ p.unsigned_long_bits ∧
    (sync_drain p s n)._worker_thread
      = s._worker_thread.map
          (fun w => { w with batches := w.batches ++ [(sync_batch p s, n)] }) := by
  have ha := sync_at_sync_point_fields (sync_check_load (sync_collect p s)) (sync_batch p s) n
  have hl := sync_check_load_fields (sync_collect p s)
  have hc := sync_collect_fields p s
  rw [sync_drain_eq]
  refine ⟨?_, ?_, ?_, ?_⟩
  · rw [ha.2.2.2.1, hl.2.1, hc.2.2.2.2.2.2.1]
  · rw [ha.2.2.2.2.1, hl.2.2.1, hc.2.2.2.2.2.2.2.1]
  · rw [ha.2.2.2.2.2.1, hl.2.2.2.1, hc.2.2.2.2.2.2.2.2.1]
  · rw [ha.2.2.2.2.2.2.2, hl.1, hc.2.2.2.1]

/-- Outside shutdown every recorder of the pending queue is in the batch of the drain. -/
theorem sync_batch_of_queue (p : Platform) (s : MemTracker) (r : MemRecorder)
    (hs : shutdown_in_progress s = false) (hr : r ∈ s._merge_pending_queue) :
    r ∈ sync_batch p s := by
  have hs1 : shutdown_in_progress
      { SequenceGenerator.reset p s with _sync_point_skip_count := 0 } = false := hs
  obtain ⟨-, l, hl⟩ := walk_keeps (Threads.walked
    { SequenceGenerator.reset p s with _sync_point_skip_count := 0 })
    { SequenceGenerator.reset p s with _sync_point_skip_count := 0 } 0 hs1
  have hmem : r ∈ (Threads.threads_do
      { SequenceGenerator.reset p s with _sync_point_skip_count := 0 }).1._merge_pending_queue := by
    unfold Threads.threads_do
    rw [hl]
    exact List.mem_append_right _ hr
  unfold sync_batch sync_take_global
  split
  · exact List.mem_cons_of_mem _ hmem
  · exact hmem

/-- The global recorder is in the batch of the drain. -/
theorem sync_batch_of_global (p : Platform) (s : MemTracker) (r : MemRecorder)
    (hr : s._global_recorder = some r) : r ∈ sync_batch p s := by
  have hg := (threads_do_frame
    { SequenceGenerator.reset p s with _sync_point_skip_count := 0 }).global
  have hg2 : (get_pending_recorders
      { (Threads.threads_do { SequenceGenerator.reset p s with _sync_point_skip_count := 0 }).1 with
          _thread_count :=
            (Threads.threads_do
              { SequenceGenerator.reset p s with _sync_point_skip_count := 0 }).2 }).2._global_recorder
      = some r := hg.trans hr
  unfold sync_batch sync_take_global
  rw [hg2]
  exact List.mem_cons_self _ _

/-- Outside shutdown the recorder in the slot of a Java thread that is safepoint-visible is in
the batch of the drain. -/
theorem sync_batch_of_slot (p : Platform) (s : MemTracker) (i : Nat) (th : Thread)
    (r : MemRecorder) (hs : shutdown_in_progress s = false)
    (hth : s.threads.get? i = some th) (hjava : th.is_Java_thread = true)
    (hvis : th.is_safepoint_visible = true) (hrec : th._recorder = some r) :
    r ∈ sync_batch p s := by
  have hs1 : shutdown_in_progress
      { SequenceGenerator.reset p s with _sync_point_skip_count := 0 } = false := hs
  have hi : i ∈ Threads.walked { SequenceGenerator.reset p s with _sync_point_skip_count := 0 } := by
    have hth1 : ({ SequenceGenerator.reset p s with
        _sync_point_skip_count := 0 } : MemTracker).threads.get? i = some th := hth
    have hlt : i < s.threads.length := by
      rw [List.get?_eq_getElem?] at hth
      exact (List.getElem?_eq_some_iff.mp hth).1
    simp only [Threads.walked, List.mem_filter, List.mem_range]
    refine ⟨hlt, ?_⟩
    rw [hth1]
    simp [hjava, hvis]
  have hmem : r ∈ (Threads.threads_do
      { SequenceGenerator.reset p s with _sync_point_skip_count := 0 }).1._merge_pending_queue :=
    walk_collects _ _ 0 i th r hs1 hi hth hjava hrec
  unfold sync_batch sync_take_global
  split
  · exact List.mem_cons_of_mem _ hmem
  · exact hmem

theorem sync_should_skip_congr (p : Platform) {s s' : MemTracker} (w : MemTrackWorker)
    (h : s'._seq_number = s._seq_number) : sync_should_skip p s' w = sync_should_skip p s w := by
  simp [sync_should_skip, SequenceGenerator.peek, h]

/-- A thread reference that the constructor of the tracker keeps designates a Java thread that
is safepoint-visible. -/
theorem lock_and_route_some (s : MemTracker) (thr : Option Nat) (i : Nat)
    (h : (Tracker.lock_and_route s thr).1 = some i) :
    ∃ th, s.threads.get? i = some th ∧ th.is_Java_thread = true ∧
      th.is_safepoint_visible = true := by
  unfold Tracker.lock_and_route at h
  cases thr with
  | none => simp at h
  | some j =>
    simp only [] at h
    cases hth : s.threads.get? j with
    | none => rw [hth] at h; simp at h
    | some th =>
      rw [hth] at h
      simp only [] at h
      split at h
      · rename_i hc
        simp only [Option.some.injEq] at h
        subst h
        simp only [Bool.and_eq_true] at hc
        exact ⟨th, hth, hc.1, hc.2⟩
      · simp at h

/-! ## C17 -/

/-- C17: no record is lost when a recorder fills.  With a recorder capacity of at least one,
outside shutdown and with a pool of cleared recorders: (1) after any sequence of events is
written through the slot of one thread, every allocation succeeding and no sync in between, the
records of the recorders on the pending queue, oldest first, followed by the records of the
recorder in the slot are those held before followed by the events in the order written; (2) when
one more event than a recorder holds (101 for a capacity of 100) is written through a slot the
tracker routes to, starting with an empty slot, pending queue and pool, the pending queue holds
one recorder with the first events, as many as the capacity, the slot holds a second recorder
with the last event, two recorder instances have been created, and the next `sync` that drains
(state started, worker present, not throttled, no pending operation) hands the worker a batch
that contains both recorders. -/
theorem C17_no_record_lost (p : Platform) (s : MemTracker) (thread : Option Nat)
    (hcap : 1 ≤ p.recorder_capacity) (hs : shutdown_in_progress s = false)
    (hv : valid_thread s thread) (hp : pool_cleared s) :
    (∀ events : List (MemPointerRecord × NewResult), (∀ x ∈ events, ∃ q, x.2 = .ok q) →
      written_records (write_events p s thread events) thread
        = written_records s thread ++ events.map Prod.fst) ∧
    (∀ (e1 e2 : MemPointerRecord) (q1 q2 : Nat) (mid : List (MemPointerRecord × NewResult))
        (thr : Option Nat) (w : MemTrackWorker) (n : Nat),
      mid.length + 1 = p.recorder_capacity →
      thread = (Tracker.lock_and_route s thr).1 →
      get_slot s thread = none → s._merge_pending_queue = [] → s._pooled_recorders = [] →
      s._state = .NMT_started → s._worker_thread = some w →
      ¬ (s._sync_point_skip_count < MAX_SAFEPOINTS_TO_SKIP ∧ sync_should_skip p s w = true) →
      s._pending_op_count = 0 →
      (write_events p s thread ((e1, .ok q1) :: mid ++ [(e2, .ok q2)]))._merge_pending_queue
        = [{ id := q1, records := e1 :: mid.map Prod.fst }] ∧
      get_slot (write_events p s thread ((e1, .ok q1) :: mid ++ [(e2, .ok q2)])) thread
        = some { id := q2, records := [e2] } ∧
      (write_events p s thread ((e1, .ok q1) :: mid ++ [(e2, .ok q2)]))._instance_count
        = s._instance_count + 2 ∧
      (sync p (write_events p s thread ((e1, .ok q1) :: mid ++ [(e2, .ok q2)])) n)._worker_thread
        = some { w with batches := w.batches ++
            [(sync_batch p (write_events p s thread ((e1, .ok q1) :: mid ++ [(e2, .ok q2)])),
              n)] } ∧
      ({ id := q1, records := e1 :: mid.map Prod.fst } : MemRecorder)
        ∈ sync_batch p (write_events p s thread ((e1, .ok q1) :: mid ++ [(e2, .ok q2)])) ∧
      ({ id := q2, records := [e2] } : MemRecorder)
        ∈ sync_batch p (write_events p s thread ((e1, .ok q1) :: mid ++ [(e2, .ok q2)]))) := by
  refine ⟨fun events hok => write_events_written p thread events s (by omega) hs hv hp hok, ?_⟩
  intro e1 e2 q1 q2 mid thr w n hlen hroute hslot hqueue hpool hst hw hthr hpend
  obtain ⟨hq, hsl, hinst, hb⟩ :=
    write_events_overflow p s thread e1 e2 q1 q2 mid hs hv hlen hslot hqueue hpool
  generalize write_events p s thread ((e1, .ok q1) :: mid ++ [(e2, .ok q2)]) = sf
    at hq hsl hinst hb
  have hsf : shutdown_in_progress sf = false := (shutdown_in_progress_of_state hb.state).trans hs
  have hthr' : ¬ (sf._sync_point_skip_count < MAX_SAFEPOINTS_TO_SKIP ∧
      sync_should_skip p sf w = true) := by
    rw [hb.skip, sync_should_skip_congr p w hb.seq]; exact hthr
  refine ⟨hq, hsl, hinst, ?_, ?_, ?_⟩
  · rw [sync_drains p sf n w (hb.state.trans hst) (hb.worker.trans hw) hthr'
      (hb.pending.trans hpend), (sync_drain_fields p sf n).2.2.2, hb.worker.trans hw]
    rfl
  · exact sync_batch_of_queue p sf _ hsf (by rw [hq]; exact List.mem_singleton.mpr rfl)
  · cases thread with
    | none => exact sync_batch_of_global p sf _ hsl
    | some i =>
      obtain ⟨th, hth, hjava, hvis⟩ := lock_and_route_some s thr i hroute.symm
      have hattr := hb.attributes i
      rw [hth] at hattr
      cases hth' : sf.threads.get? i with
      | none => rw [hth'] at hattr; simp at hattr
      | some th' =>
        rw [hth'] at hattr
        simp only [Option.map_some', Option.some.injEq, Thread.attributes, Prod.mk.injEq] at hattr
        have hget : get_slot sf (some i) = th'._recorder := by
          simp only [get_slot]
          rw [hth']
          rfl
        have hrec : th'._recorder = some { id := q2, records := [e2] } := hget.symm.trans hsl
        exact sync_batch_of_slot p sf i th' _ hsf hth' (hattr.1.trans hjava)
          (hattr.2.1.trans hvis) hrec

theorem C17_no_record_lost_witness :
    written_records (write_events demo_platform_100 demo_running (some 0) demo_events) (some 0)
      = written_records demo_running (some 0) ++ demo_events.map Prod.fst ∧
    ((write_events demo_platform_100 demo_running (some 0) demo_events)._merge_pending_queue
      = [{ id := 1, records := demo_first :: demo_mid.map Prod.fst }] ∧
    get_slot (write_events demo_platform_100 demo_running (some 0) demo_events) (some 0)
      = some { id := 2, records := [demo_last] } ∧
    (write_events demo_platform_100 demo_running (some 0) demo_events)._instance_count
      = demo_running._instance_count + 2 ∧
    (sync demo_platform_100
        (write_events demo_platform_100 demo_running (some 0) demo_events) 7)._worker_thread
      = some { ({} : MemTrackWorker) with batches := ({} : MemTrackWorker).batches ++
          [(sync_batch demo_platform_100
              (write_events demo_platform_100 demo_running (some 0) demo_events), 7)] } ∧
    ({ id := 1, records := demo_first :: demo_mid.map Prod.fst } : MemRecorder)
      ∈ sync_batch demo_platform_100
          (write_events demo_platform_100 demo_running (some 0) demo_events) ∧
    ({ id := 2, records := [demo_last] } : MemRecorder)
      ∈ sync_batch demo_platform_100
          (write_events demo_platform_100 demo_running (some 0) demo_events)) :=
  ⟨(C17_no_record_lost demo_platform_100 demo_running (some 0) (by decide) (by decide)
      (by decide) (by decide)).1 _ (fun x hx => by
        simp only [demo_events, demo_mid, List.cons_append, List.mem_cons, List.mem_append,
          List.mem_replicate, List.not_mem_nil, or_false] at hx
        rcases hx with rfl | ⟨-, rfl⟩ | rfl <;> exact ⟨_, rfl⟩),
   (C17_no_record_lost demo_platform_100 demo_running (some 0) (by decide) (by decide)
      (by decide) (by decide)).2 demo_first demo_last 1 2 demo_mid (some 0) {} 7 (by decide)
      (by decide) (by decide) (by decide) (by decide) (by decide) (by decide) (by decide)
      (by decide)⟩

/-! ## Lemmas on the wait for the merge -/

/-- The test that makes the wait return `true` holds only of a processing generation greater
than the generation at query time, in either branch. -/
theorem merge_done_gt (p : Platform) (gq : Nat) (ov : Bool) (gtw0 : Int) (cpg : Nat)
    (h : merge_done p gq ov gtw0 cpg = true) : gq < cpg := by
  unfold merge_done at h
  split at h
  · exact of_decide_eq_true h
  · simp only [Bool.and_eq_true, decide_eq_true_eq] at h
    exact h.2

theorem wbtest_wait_loop_true (p : Platform) (gq : Nat) (ov : Bool) (gtw0 : Int) :
    ∀ (obs : List MergeObservation) (cpg : Nat),
    wbtest_wait_loop p gq ov gtw0 cpg obs = some true →
    ∃ g ∈ cpg :: obs.map MergeObservation.processing_generation,
      merge_done p gq ov gtw0 g = true := by
  intro obs
  induction obs with
  | nil => intro cpg h; simp [wbtest_wait_loop] at h
  | cons o os ih =>
    intro cpg h
    simp only [wbtest_wait_loop] at h
    split at h
    · simp at h
    · split at h
      · rename_i hm
        exact ⟨cpg, List.mem_cons_self _ _, hm⟩
      · split at h
        · simp at h
        · obtain ⟨g, hg, hm⟩ := ih _ h
          exact ⟨g, List.mem_cons_of_mem _ (by simpa using hg), hm⟩

/-- The loop after turns that did not return goes on with the processing generation read
last. -/
theorem wbtest_wait_loop_append (p : Platform) (gq : Nat) (ov : Bool) (gtw0 : Int) :
    ∀ (pre rest : List MergeObservation) (cpg : Nat),
    wbtest_wait_loop p gq ov gtw0 cpg pre = none →
    wbtest_wait_loop p gq ov gtw0 cpg (pre ++ rest)
      = wbtest_wait_loop p gq ov gtw0
          (((pre.map MergeObservation.processing_generation).getLast?).getD cpg) rest := by
  intro pre
  induction pre with
  | nil => intro rest cpg _; rfl
  | cons o os ih =>
    intro rest cpg h
    simp only [wbtest_wait_loop, List.cons_append] at h ⊢
    split at h
    · simp at h
    · rename_i h1
      split at h
      · simp at h
      · rename_i h2
        split at h
        · simp at h
        · rename_i h3
          rw [if_neg h1, if_neg h2, if_neg h3]
          show wbtest_wait_loop p gq ov gtw0 o.processing_generation (os ++ rest) = _
          rw [ih rest _ h]
          congr 1
          cases os with
          | nil => rfl
          | cons o2 os2 =>
            simp only [List.map_cons, List.getLast?_cons_cons]
            rw [List.getLast?_cons, Option.getD_some, Option.getD_some]

/-! ## C18 -/

/-- C18: `wbtest_wait_for_data_merge`, run against the successive readings of the running
system.  (1) When it returns `true`, one of the processing generations it has read, at the query
or in a turn of the loop, is strictly greater than the sequence generation captured at the query
and passes the test of the branch taken, non-wrapped or wrapped.  (2) After turns that did not
return, a turn that reads that shutdown is in progress returns `false`.  (3) After turns that did
not return, a turn that reaches `get_snapshot()`, shutdown not being in progress and the merge
test failing, and reads that the snapshot is gone returns `false`. -/
theorem C18_wait_for_data_merge (p : Platform) (s : MemTracker) :
    (∀ obs : List MergeObservation, wbtest_wait_for_data_merge p s obs = some true →
      ∃ g ∈ s._processing_generation :: obs.map MergeObservation.processing_generation,
        SequenceGenerator.current_generation s < g ∧
        merge_done p (SequenceGenerator.current_generation s)
          (decide (SequenceGenerator.current_generation s < s._processing_generation))
          (generations_to_wrap p s._processing_generation) g = true) ∧
    (∀ (pre post : List MergeObservation) (o : MergeObservation),
      wbtest_wait_for_data_merge p s pre = none → o.shutdown_in_progress = true →
      wbtest_wait_for_data_merge p s (pre ++ o :: post) = some false) ∧
    (∀ (pre post : List MergeObservation) (o : MergeObservation),
      wbtest_wait_for_data_merge p s pre = none → o.shutdown_in_progress = false →
      merge_done p (SequenceGenerator.current_generation s)
        (decide (SequenceGenerator.current_generation s < s._processing_generation))
        (generations_to_wrap p s._processing_generation)
        (processing_generation_after s pre) = false →
      o.snapshot = false →
      wbtest_wait_for_data_merge p s (pre ++ o :: post) = some false) := by
  refine ⟨?_, ?_, ?_⟩
  · intro obs h
    obtain ⟨g, hg, hm⟩ := wbtest_wait_loop_true p _ _ _ obs _ h
    exact ⟨g, hg, merge_done_gt p _ _ _ g hm, hm⟩
  · intro pre post o hpre ho
    unfold wbtest_wait_for_data_merge at hpre ⊢
    simp only [] at hpre ⊢
    rw [wbtest_wait_loop_append p _ _ _ pre (o :: post) _ hpre]
    simp [wbtest_wait_loop, ho]
  · intro pre post o hpre ho hm hsnap
    unfold wbtest_wait_for_data_merge at hpre ⊢
    simp only [] at hpre ⊢
    rw [wbtest_wait_loop_append p _ _ _ pre (o :: post) _ hpre]
    unfold processing_generation_after at hm
    simp only [wbtest_wait_loop, ho, hm, hsnap]
    simp

theorem C18_wait_for_data_merge_witness :
    (∃ g ∈ demo_merging._processing_generation ::
        ([⟨false, false, true, 4⟩, ⟨false, true, true, 6⟩, ⟨false, false, true, 6⟩] :
          List MergeObservation).map MergeObservation.processing_generation,
      SequenceGenerator.current_generation demo_merging < g ∧
      merge_done demo_platform (SequenceGenerator.current_generation demo_merging)
        (decide (SequenceGenerator.current_generation demo_merging
          < demo_merging._processing_generation))
        (generations_to_wrap demo_platform demo_merging._processing_generation) g = true) ∧
    wbtest_wait_for_data_merge demo_platform demo_merging
      ([⟨false, false, true, 4⟩] ++ ⟨true, false, true, 4⟩ :: [⟨false, false, true, 6⟩])
      = some false ∧
    wbtest_wait_for_data_merge demo_platform demo_merging
      ([⟨false, false, true, 4⟩] ++ ⟨false, false, false, 4⟩ :: [⟨false, false, true, 6⟩])
      = some false :=
  ⟨(C18_wait_for_data_merge demo_platform demo_merging).1
      [⟨false, false, true, 4⟩, ⟨false, true, true, 6⟩, ⟨false, false, true, 6⟩] (by decide),
   (C18_wait_for_data_merge demo_platform demo_merging).2.1 [⟨false, false, true, 4⟩]
      [⟨false, false, true, 6⟩] ⟨true, false, true, 4⟩ (by decide) (by decide),
   (C18_wait_for_data_merge demo_platform demo_merging).2.2 [⟨false, false, true, 4⟩]
      [⟨false, false, true, 6⟩] ⟨false, false, false, 4⟩ (by decide) (by decide) (by decide)
      (by decide)⟩

/-! ## Lemmas on the test on the outstanding recorder instances -/

/-- With auto-shutdown configured, in state started with tracking on, the test shuts tracking
down for lack of memory exactly when the instances reach the bound. -/
theorem sync_check_load_auto (x : MemTracker) (hst : x._state = .NMT_started)
    (hl : x._tracking_level ≠ .NMT_off) (hauto : x.AutoShutdownNMT = true) :
    (x._instance_count ≥ jint_wrap (x._thread_count * MAX_RECORDER_PER_THREAD) →
      (sync_check_load x)._state = .NMT_shutdown_pending ∧
      (sync_check_load x)._reason = .NMT_out_of_memory) ∧
    (¬ x._instance_count ≥ jint_wrap (x._thread_count * MAX_RECORDER_PER_THREAD) →
      (sync_check_load x)._state = .NMT_started ∧
      (sync_check_load x)._reason = x._reason) := by
  unfold sync_check_load
  simp only [hauto, Bool.not_true, Bool.false_eq_true, if_false]
  constructor
  · intro h
    rw [if_pos h]
    unfold shutdown
    rw [if_neg hl, hst]
    simp [NMTStates.toNat]
  · intro h
    rw [if_neg h]
    exact ⟨hst, rfl⟩

theorem sync_check_load_manual (x : MemTracker) (hauto : x.AutoShutdownNMT = false) :
    (sync_check_load x)._state = x._state ∧ (sync_check_load x)._reason = x._reason := by
  unfold sync_check_load
  rw [hauto]
  exact ⟨rfl, rfl⟩

/-! ## C19 -/

/-- C19: a `sync` that drains (state started with tracking on, worker present, not throttled,
no pending operation), the thread table small enough for the product with 100 to fit a 32-bit
`int`.  The thread count it stores is the number of threads of its thread walk.  With
auto-shutdown configured, the state becomes shutdown_pending with reason out-of-memory if and
only if the count of recorder instances is at least that thread count times 100, and otherwise
state and reason stay as they were; without auto-shutdown configured the state stays started and
the reason stays as it was. -/
theorem C19_auto_shutdown (p : Platform) (s : MemTracker) (n : Nat) (w : MemTrackWorker)
    (hst : s._state = .NMT_started) (hl : s._tracking_level ≠ .NMT_off)
    (hw : s._worker_thread = some w)
    (hthr : ¬ (s._sync_point_skip_count < MAX_SAFEPOINTS_TO_SKIP ∧ sync_should_skip p s w = true))
    (hpend : s._pending_op_count = 0)
    (hfit : (s.threads.length : Int) * 100 ≤ 2147483647) :
    (sync p s n)._thread_count = (Threads.walked s).length ∧
    (s.AutoShutdownNMT = true →
      (((sync p s n)._state = .NMT_shutdown_pending ∧
          (sync p s n)._reason = .NMT_out_of_memory)
        ↔ s._instance_count ≥ ((Threads.walked s).length : Int) * 100) ∧
      (¬ s._instance_count ≥ ((Threads.walked s).length : Int) * 100 →
        (sync p s n)._state = .NMT_started ∧ (sync p s n)._reason = s._reason)) ∧
    (s.AutoShutdownNMT = false →
      (sync p s n)._state = .NMT_started ∧ (sync p s n)._reason = s._reason) := by
  have hs : shutdown_in_progress s = false := by
    simp [shutdown_in_progress, hst, NMTStates.toNat]
  have hc := sync_collect_fields p s
  have hinst := sync_collect_instance p s hs
  have hlen := walked_length_le s
  have hcount : (sync_collect p s)._thread_count = (Threads.walked s).length := by
    rw [hc.2.2.2.2.2.2.2.2.2.1]
    exact threads_do_count { SequenceGenerator.reset p s with _sync_point_skip_count := 0 }
      (by
        show (s.threads.length : Int) ≤ 2147483647
        omega)
  have hwrap : jint_wrap ((sync_collect p s)._thread_count * MAX_RECORDER_PER_THREAD)
      = ((Threads.walked s).length : Int) * 100 := by
    rw [hcount]
    exact jint_wrap_id _ (by simp only [MAX_RECORDER_PER_THREAD]; omega)
      (by simp only [MAX_RECORDER_PER_THREAD]; omega)
  have ha := sync_at_sync_point_fields (sync_check_load (sync_collect p s)) (sync_batch p s) n
  have hf := sync_check_load_fields (sync_collect p s)
  rw [sync_drains p s n w hst hw hthr hpend, sync_drain_eq, ha.1, ha.2.1, ha.2.2.2.2.2.2.1,
    hf.2.2.2.2.1]
  refine ⟨hcount, ?_, ?_⟩
  · intro hauto
    have h := sync_check_load_auto (sync_collect p s) (hc.1.trans hst) (by rw [hc.2.1]; exact hl)
      (hc.2.2.2.2.1.trans hauto)
    rw [hwrap, hinst, hc.2.2.1] at h
    refine ⟨⟨fun hx => ?_, h.1⟩, h.2⟩
    by_contra hn
    have h2 := (h.2 hn).1
    rw [hx.1] at h2
    exact absurd h2 (by decide)
  · intro hauto
    have h := sync_check_load_manual (sync_collect p s) (hc.2.2.2.2.1.trans hauto)
    rw [hc.1, hc.2.2.1] at h
    exact ⟨h.1.trans hst, h.2⟩

theorem C19_auto_shutdown_witness :
    (sync demo_platform demo_loaded 7)._thread_count = (Threads.walked demo_loaded).length ∧
    (((sync demo_platform demo_loaded 7)._state = .NMT_shutdown_pending ∧
        (sync demo_platform demo_loaded 7)._reason = .NMT_out_of_memory)
      ↔ demo_loaded._instance_count ≥ ((Threads.walked demo_loaded).length : Int) * 100) :=
  ⟨(C19_auto_shutdown demo_platform demo_loaded 7 {} (by decide) (by decide) (by decide)
      (by decide) (by decide) (by decide)).1,
   ((C19_auto_shutdown demo_platform demo_loaded 7 {} (by decide) (by decide) (by decide)
      (by decide) (by decide) (by decide)).2.1 (by decide)).1⟩

/-! ## C20 -/

set_option maxRecDepth 1000000 in
/-- C20, counterexample: from a skip count of zero, 128 `sync` calls in state started with a
worker are throttled and bring the skip count to 128; at the next `sync` an operation is pending,
and that `sync` brings the skip count to 129 and does not drain: the sequence generator is not
reset and the worker is handed no batch. -/
theorem C20_skip_count_exceeds :
    demo_throttled._sync_point_skip_count = 0 ∧
    (sync_repeat demo_platform 7 128 demo_throttled)._sync_point_skip_count = 128 ∧
    (sync_repeat demo_platform 7 128 demo_throttled)._state = .NMT_started ∧
    (sync_repeat demo_platform 7 128 demo_throttled)._worker_thread
      = some { generations_in_use := 400 } ∧
    (sync demo_platform
      { sync_repeat demo_platform 7 128 demo_throttled with _pending_op_count := 1 }
      7)._sync_point_skip_count = 129 ∧
    (sync demo_platform
      { sync_repeat demo_platform 7 128 demo_throttled with _pending_op_count := 1 }
      7)._seq_number = 0 ∧
    (sync demo_platform
      { sync_repeat demo_platform 7 128 demo_throttled with _pending_op_count := 1 }
      7)._generation = 0 ∧
    (sync demo_platform
      { sync_repeat demo_platform 7 128 demo_throttled with _pending_op_count := 1 }
      7)._worker_thread = some { generations_in_use := 400 } := by
  decide

/-- C20, amended: along every run of `sync` calls that starts with a skip count of zero and in
which every `sync` is called in state started, with a worker and with no pending operation, the
skip count is between 0 and `MAX_SAFEPOINTS_TO_SKIP` (128); and a `sync` called in state started,
with a worker and with no pending operation when the skip count has reached 128 drains: it sets
the skip count to zero, resets the sequence generator (counter and generation are those that
`SequenceGenerator::reset()` leaves) and hands the worker a batch. -/
theorem C20_skip_count_bounded (p : Platform) :
    (∀ s : MemTracker, SyncRun p s →
      0 ≤ s._sync_point_skip_count ∧ s._sync_point_skip_count ≤ MAX_SAFEPOINTS_TO_SKIP) ∧
    (∀ (s : MemTracker) (w : MemTrackWorker) (n : Nat),
      s._state = .NMT_started → s._worker_thread = some w → s._pending_op_count = 0 →
      MAX_SAFEPOINTS_TO_SKIP ≤ s._sync_point_skip_count →
      (sync p s n)._sync_point_skip_count = 0 ∧
      SequenceGenerator.peek (sync p s n)
        = SequenceGenerator.peek (SequenceGenerator.reset p s) ∧
      SequenceGenerator.current_generation (sync p s n)
        = SequenceGenerator.current_generation (SequenceGenerator.reset p s) ∧
      (sync p s n)._worker_thread
        = some { w with batches := w.batches ++ [(sync_batch p s, n)] }) := by
  constructor
  · intro s hrun
    induction hrun with
    | first s h => rw [h]; decide
    | next s s' n w _ hst hw hpend hskip ih =>
      rw [hskip]
      by_cases hthr : s._sync_point_skip_count < MAX_SAFEPOINTS_TO_SKIP ∧
          sync_should_skip p s w = true
      · have h : sync p s n
            = { s with _sync_point_skip_count := jint_wrap (s._sync_point_skip_count + 1) } := by
          unfold sync
          rw [if_pos hst, hw]
          simp only []
          rw [if_pos hthr]
        rw [h]
        have h1 := hthr.1
        have h0 := ih.1
        simp only [MAX_SAFEPOINTS_TO_SKIP] at h1 ⊢
        show 0 ≤ jint_wrap (s._sync_point_skip_count + 1) ∧
          jint_wrap (s._sync_point_skip_count + 1) ≤ 128
        rw [jint_wrap_id _ (by omega) (by omega)]
        omega
      · rw [sync_drains p s n w hst hw hthr hpend, (sync_drain_fields p s n).1]
        decide
  · intro s w n hst hw hpend hskip
    have hthr : ¬ (s._sync_point_skip_count < MAX_SAFEPOINTS_TO_SKIP ∧
        sync_should_skip p s w = true) := fun h => absurd h.1 (not_lt.mpr hskip)
    have hf := sync_drain_fields p s n
    rw [sync_drains p s n w hst hw hthr hpend]
    refine ⟨hf.1, hf.2.1, hf.2.2.1, ?_⟩
    rw [hf.2.2.2, hw]
    rfl

theorem C20_skip_count_bounded_witness :
    (0 ≤ (sync demo_platform demo_throttled 7)._sync_point_skip_count ∧
      (sync demo_platform demo_throttled 7)._sync_point_skip_count ≤ MAX_SAFEPOINTS_TO_SKIP) ∧
    ((sync demo_platform demo_skipped 7)._sync_point_skip_count = 0 ∧
      SequenceGenerator.peek (sync demo_platform demo_skipped 7)
        = SequenceGenerator.peek (SequenceGenerator.reset demo_platform demo_skipped) ∧
      SequenceGenerator.current_generation (sync demo_platform demo_skipped 7)
        = SequenceGenerator.current_generation
            (SequenceGenerator.reset demo_platform demo_skipped) ∧
      (sync demo_platform demo_skipped 7)._worker_thread
        = some { ({ generations_in_use := 400 } : MemTrackWorker) with
            batches := ({ generations_in_use := 400 } : MemTrackWorker).batches
              ++ [(sync_batch demo_platform demo_skipped, 7)] }) :=
  ⟨(C20_skip_count_bounded demo_platform).1 (sync demo_platform demo_throttled 7)
      (SyncRun.next demo_throttled (sync demo_platform demo_throttled 7) 7
        { generations_in_use := 400 } (SyncRun.first demo_throttled (by decide)) (by decide)
        (by decide) (by decide) rfl),
   (C20_skip_count_bounded demo_platform).2 demo_skipped { generations_in_use := 400 } 7
      (by decide) (by decide) (by decide) (by decide)⟩

/-! ## C21 -/

/-- C21: a `sync` in state started with a worker, not throttled, while a tracking operation is
pending (`_pending_op_count > 0`), the skip count below the largest `int`: the state after it is
the state before with the skip count raised by one.  So the sequence counter and the generation
are unchanged, the thread table with every recorder slot, the global recorder and the pending
queue are unchanged, and the worker, with the batches handed to it, is unchanged. -/
theorem C21_pending_op_skips (p : Platform) (s : MemTracker) (n : Nat) (w : MemTrackWorker)
    (hst : s._state = .NMT_started) (hw : s._worker_thread = some w)
    (hthr : ¬ (s._sync_point_skip_count < MAX_SAFEPOINTS_TO_SKIP ∧ sync_should_skip p s w = true))
    (hpend : 0 < s._pending_op_count)
    (h0 : 0 ≤ s._sync_point_skip_count) (h1 : s._sync_point_skip_count < max_jint) :
    sync p s n = { s with _sync_point_skip_count := s._sync_point_skip_count + 1 } ∧
    SequenceGenerator.peek (sync p s n) = SequenceGenerator.peek s ∧
    SequenceGenerator.current_generation (sync p s n) = SequenceGenerator.current_generation s ∧
    (sync p s n).threads = s.threads ∧
    (sync p s n)._global_recorder = s._global_recorder ∧
    (sync p s n)._merge_pending_queue = s._merge_pending_queue ∧
    (sync p s n)._worker_thread = s._worker_thread ∧
    (sync p s n)._sync_point_skip_count = s._sync_point_skip_count + 1 := by
  have hne : s._pending_op_count ≠ 0 := by omega
  have hwrap : jint_wrap (s._sync_point_skip_count + 1) = s._sync_point_skip_count + 1 := by
    simp only [max_jint] at h1
    exact jint_wrap_id _ (by omega) (by omega)
  have h : sync p s n = { s with _sync_point_skip_count := s._sync_point_skip_count + 1 } := by
    unfold sync
    rw [if_pos hst, hw]
    simp only []
    rw [if_neg hthr, if_neg hne, hwrap]
    unfold sync_final_shutdown
    rw [if_neg (by rw [hst]; decide)]
  rw [h]
  exact ⟨rfl, rfl, rfl, rfl, rfl, rfl, rfl, rfl⟩

theorem C21_pending_op_skips_witness :
    sync demo_platform { demo_running with _pending_op_count := 1 } 7
      = { ({ demo_running with _pending_op_count := 1 } : MemTracker) with
          _sync_point_skip_count
            := ({ demo_running with _pending_op_count := 1 } : MemTracker)._sync_point_skip_count
                + 1 } :=
  (C21_pending_op_skips demo_platform { demo_running with _pending_op_count := 1 } 7 {}
    (by decide) (by decide) (by decide) (by decide) (by decide) (by decide)).1

/-! ## C22 -/

/-- C22 (the code at the failing input): in state started with a worker that has 400 of the 512
generations in use (78 percent), a skip count of 0 and no pending operation, with the sequence
counter at 1073741823, `sync` returns at the throttle step: the skip count becomes 1, the
generation is not advanced and the worker is handed no batch.  The exact quotient
`100 * 1073741823 / max_jint` is 49, not below 30; the 32-bit product `peek() * 100` the code
computes is -100, and its quotient by `max_jint` is 0. -/
theorem C22_throttle_product_wraps :
    demo_half_used._state = .NMT_started ∧
    demo_half_used._worker_thread = some { generations_in_use := 400 } ∧
    demo_half_used._sync_point_skip_count = 0 ∧
    demo_half_used._pending_op_count = 0 ∧
    SequenceGenerator.peek demo_half_used = 1073741823 ∧
    (100 * SequenceGenerator.peek demo_half_used) / max_jint = 49 ∧
    (100 * 400) / demo_platform.MAX_GENERATIONS = 78 ∧
    jint_wrap (SequenceGenerator.peek demo_half_used * 100) = -100 ∧
    Int.tdiv (jint_wrap (SequenceGenerator.peek demo_half_used * 100)) max_jint = 0 ∧
    sync_should_skip demo_platform demo_half_used { generations_in_use := 400 } = true ∧
    sync demo_platform demo_half_used 7
      = { demo_half_used with _sync_point_skip_count := 1 } := by
  decide

/-! ## C23 -/

theorem sync_at_sync_point_slowdown (x : MemTracker) (l : List MemRecorder) (n : Nat) :
    (sync_at_sync_point x l n)._slowdown_calling_thread = x._slowdown_calling_thread := by
  unfold sync_at_sync_point
  split <;> rfl

/-- The slowdown flag after the test on the outstanding recorder instances. -/
theorem sync_check_load_slowdown (x : MemTracker) :
    (x.AutoShutdownNMT = false →
      (sync_check_load x)._slowdown_calling_thread
        = decide (x._instance_count > jint_wrap ( MAX_RECORDER_THREAD_RATIO * x._thread_count))) ∧
    (x.AutoShutdownNMT = true →
      (sync_check_load x)._slowdown_calling_thread = x._slowdown_calling_thread) := by
  constructor
  · intro h
    unfold sync_check_load
    rw [h]
    rfl
  · intro h
    unfold sync_check_load
    rw [h]
    simp only [Bool.not_true, Bool.false_eq_true, if_false]
    split
    · unfold shutdown
      split
      · rfl
      · split
        · rfl
        · split <;> rfl
    · rfl

/-- C23 (counterexample to the claim as stated): with auto-shutdown configured, three threads
and 200 recorder instances, a `sync` that drains does not initiate the auto-shutdown (200 is
below 3 × 100, the state stays started) and leaves the slowdown flag `false`, although the
instance count is greater than 30 × 3. -/
theorem C23_flag_not_set_with_auto_shutdown :
    demo_busy.AutoShutdownNMT = true ∧
    demo_busy._slowdown_calling_thread = false ∧
    (sync demo_platform demo_busy 7)._state = .NMT_started ∧
    (sync demo_platform demo_busy 7)._sync_point_skip_count = 0 ∧
    (sync demo_platform demo_busy 7)._generation = 1 ∧
    (sync demo_platform demo_busy 7)._thread_count = 3 ∧
    (sync demo_platform demo_busy 7)._instance_count = 200 ∧
    (sync demo_platform demo_busy 7)._slowdown_calling_thread = false ∧
    decide ((sync demo_platform demo_busy 7)._instance_count
      > 30 * (sync demo_platform demo_busy 7)._thread_count) = true := by
  decide

/-- C23 (amended): a `sync` that drains (state started, worker present, not throttled, no
pending operation), the thread table small enough for the product with 30 to fit a 32-bit
`int`.  With auto-shutdown not configured, the slowdown flag after the drain equals
(instance count > 30 × thread count), the thread count being the number of threads of the thread
walk of this `sync`; with auto-shutdown configured the drain leaves the flag as it was. -/
theorem C23_slowdown_flag (p : Platform) (s : MemTracker) (n : Nat) (w : MemTrackWorker)
    (hst : s._state = .NMT_started) (hw : s._worker_thread = some w)
    (hthr : ¬ (s._sync_point_skip_count < MAX_SAFEPOINTS_TO_SKIP ∧ sync_should_skip p s w = true))
    (hpend : s._pending_op_count = 0)
    (hfit : (s.threads.length : Int) * 30 ≤ 2147483647) :
    (sync p s n)._thread_count = (Threads.walked s).length ∧
    (s.AutoShutdownNMT = false →
      (sync p s n)._slowdown_calling_thread
        = decide (s._instance_count > 30 * ((Threads.walked s).length : Int))) ∧
    (s.AutoShutdownNMT = true →
      (sync p s n)._slowdown_calling_thread = s._slowdown_calling_thread) := by
  have hs : shutdown_in_progress s = false := by
    simp [shutdown_in_progress, hst, NMTStates.toNat]
  have hc := sync_collect_fields p s
  have hinst := sync_collect_instance p s hs
  have hlen := walked_length_le s
  have hcount : (sync_collect p s)._thread_count = (Threads.walked s).length := by
    rw [hc.2.2.2.2.2.2.2.2.2.1]
    exact threads_do_count { SequenceGenerator.reset p s with _sync_point_skip_count := 0 }
      (by
        show (s.threads.length : Int) ≤ 2147483647
        omega)
  have hwrap : jint_wrap ( MAX_RECORDER_THREAD_RATIO * (sync_collect p s)._thread_count)
      = 30 * ((Threads.walked s).length : Int) := by
    rw [hcount]
    exact jint_wrap_id _ (by simp only [ MAX_RECORDER_THREAD_RATIO]; omega)
      (by simp only [ MAX_RECORDER_THREAD_RATIO]; omega)
  have ha := sync_at_sync_point_fields (sync_check_load (sync_collect p s)) (sync_batch p s) n
  have hf := sync_check_load_fields (sync_collect p s)
  have hsl := sync_check_load_slowdown (sync_collect p s)
  rw [sync_drains p s n w hst hw hthr hpend, sync_drain_eq, ha.2.2.2.2.2.2.1, hf.2.2.2.2.1,
    sync_at_sync_point_slowdown]
  refine ⟨hcount, ?_, ?_⟩
  · intro hauto
    rw [hsl.1 (hc.2.2.2.2.1.trans hauto), hwrap, hinst]
  · intro hauto
    rw [hsl.2 (hc.2.2.2.2.1.trans hauto), hc.2.2.2.2.2.2.2.2.2.2]

theorem C23_slowdown_flag_witness :
    (sync demo_platform { demo_busy with AutoShutdownNMT := false } 7)._thread_count
      = (Threads.walked { demo_busy with AutoShutdownNMT := false }).length ∧
    (sync demo_platform { demo_busy with AutoShutdownNMT := false } 7)._slowdown_calling_thread
      = decide (({ demo_busy with AutoShutdownNMT := false } : MemTracker)._instance_count
          > 30 * ((Threads.walked { demo_busy with AutoShutdownNMT := false }).length : Int)) ∧
    (sync demo_platform demo_busy 7)._slowdown_calling_thread
      = demo_busy._slowdown_calling_thread :=
  ⟨(C23_slowdown_flag demo_platform { demo_busy with AutoShutdownNMT := false } 7 {}
      (by decide) (by decide) (by decide) (by decide) (by decide)).1,
   (C23_slowdown_flag demo_platform { demo_busy with AutoShutdownNMT := false } 7 {}
      (by decide) (by decide) (by decide) (by decide) (by decide)).2.1 (by decide),
   (C23_slowdown_flag demo_platform demo_busy 7 {}
      (by decide) (by decide) (by decide) (by decide) (by decide)).2.2 (by decide)⟩

/-! ## C27 -/

/-- A write through a slot whose recorder is full, with a cleared recorder at the head of the
pool, pushes the full recorder on the pending queue and puts the pooled recorder, stamped with
the current generation and holding the record, in the slot. -/
theorem write_tracking_record_pooled (p : Platform) (s : MemTracker) (e : MemPointerRecord)
    (thread : Option Nat) (a : NewResult) (r h : MemRecorder) (rest : List MemRecorder)
    (hcap : 0 < p.recorder_capacity)
    (hs : shutdown_in_progress s = false) (hslot : get_slot s thread = some r)
    (hlen : r.records.length = p.recorder_capacity)
    (hpool : s._pooled_recorders = h :: rest) (hclear : h.records = []) :
    write_tracking_record p s e.addr e.flags e.size e.seq e.pc thread a
      = set_slot (set_slot
          { s with _merge_pending_queue := r :: s._merge_pending_queue,
                   _pooled_recorders := rest,
                   _pooled_recorder_count := jint_wrap (s._pooled_recorder_count - 1) } thread
          (some { h with _generation := s._generation })) thread
          (some { h with _generation := s._generation, records := [e] }) := by
  have hf : MemRecorder.is_full p { id := h.id, records := [], _generation := s._generation }
      = false := by
    simp [MemRecorder.is_full]; omega
  have hfr : r.is_full p = true := by
    simp [MemRecorder.is_full, hlen]
  simp [write_tracking_record, get_thread_recorder, hs, hslot, get_new_or_pooled_instance, hpool,
    MemRecorder.record, hf, hfr, enqueue_pending_recorder, hclear]

/-- C27 (counterexample to the claim as stated): with recorders of capacity 2, the recorder of
the first thread holds one record; `record` on a Malloc tracker of that thread writes the second
record, which makes the recorder full.  When the call returns the full recorder is still in the
slot of the thread and the pending queue is empty. -/
theorem C27_full_recorder_stays_in_slot :
    demo_platform.recorder_capacity = 2 ∧
    get_slot demo_filling (some 0) = some { id := 1, records := [demo_first] } ∧
    (demo_malloc_tracker.record demo_platform demo_filling 4096 64 0 0 0 .null .null).map
        (fun x => get_slot x.2 (some 0))
      = some (some { id := 1, records := [demo_first, ⟨4096, 1, 64, 1, 0⟩] }) ∧
    MemRecorder.is_full demo_platform { id := 1, records := [demo_first, ⟨4096, 1, 64, 1, 0⟩] }
      = true ∧
    (demo_malloc_tracker.record demo_platform demo_filling 4096 64 0 0 0 .null .null).map
        (fun x => x.2._merge_pending_queue)
      = some [] := by
  decide

/-- C27 (amended): outside shutdown, when the write of an event makes the recorder of the slot
full, the recorder, holding the record, is still in the slot when the write returns and the
pending queue is as it was.  The next write through that slot pushes the full recorder on the
pending queue and puts a fresh recorder holding the new record in the slot: a newly allocated
one when the pool is empty and the allocation succeeds, the head of the pool, cleared, when the
pool is not empty. -/
theorem C27_full_recorder_enqueued_by_next_write (p : Platform) (s : MemTracker)
    (e e2 : MemPointerRecord) (thread : Option Nat) (a : NewResult) (r : MemRecorder)
    (hs : shutdown_in_progress s = false) (hv : valid_thread s thread)
    (hslot : get_slot s thread = some r)
    (hlen : r.records.length + 1 = p.recorder_capacity) :
    get_slot (write_tracking_record p s e.addr e.flags e.size e.seq e.pc thread a) thread
      = some { r with records := r.records ++ [e] } ∧
    MemRecorder.is_full p { r with records := r.records ++ [e] } = true ∧
    (write_tracking_record p s e.addr e.flags e.size e.seq e.pc thread a)._merge_pending_queue
      = s._merge_pending_queue ∧
    (∀ q : Nat, s._pooled_recorders = [] →
      (write_tracking_record p
          (write_tracking_record p s e.addr e.flags e.size e.seq e.pc thread a)
          e2.addr e2.flags e2.size e2.seq e2.pc thread (.ok q))._merge_pending_queue
        = { r with records := r.records ++ [e] } :: s._merge_pending_queue ∧
      get_slot (write_tracking_record p
          (write_tracking_record p s e.addr e.flags e.size e.seq e.pc thread a)
          e2.addr e2.flags e2.size e2.seq e2.pc thread (.ok q)) thread
        = some { id := q, records := [e2] }) ∧
    (∀ (a2 : NewResult) (h : MemRecorder) (rest : List MemRecorder),
      s._pooled_recorders = h :: rest → h.records = [] →
      (write_tracking_record p
          (write_tracking_record p s e.addr e.flags e.size e.seq e.pc thread a)
          e2.addr e2.flags e2.size e2.seq e2.pc thread a2)._merge_pending_queue
        = { r with records := r.records ++ [e] } :: s._merge_pending_queue ∧
      get_slot (write_tracking_record p
          (write_tracking_record p s e.addr e.flags e.size e.seq e.pc thread a)
          e2.addr e2.flags e2.size e2.seq e2.pc thread a2) thread
        = some { h with _generation := s._generation, records := [e2] }) := by
  have hcap : 0 < p.recorder_capacity := by omega
  have h1 := write_tracking_record_append p s e thread a r hs hslot (by omega)
  generalize write_tracking_record p s e.addr e.flags e.size e.seq e.pc thread a = s1 at h1 ⊢
  have hb1 : SameButStore s s1 := by rw [h1]; exact set_slot_store _ _ _
  have hr1 := set_slot_rest s thread (some { r with records := r.records ++ [e] })
  rw [← h1] at hr1
  have hv1 : valid_thread s1 thread := valid_thread_of_length hb1.nthreads hv
  have hs1 : shutdown_in_progress s1 = false :=
    (shutdown_in_progress_of_state hb1.state).trans hs
  have hslot1 : get_slot s1 thread = some { r with records := r.records ++ [e] } := by
    rw [h1]; exact get_slot_set_slot _ _ _ hv
  have hlen1 : ({ r with records := r.records ++ [e] } : MemRecorder).records.length
      = p.recorder_capacity := by
    simp only [List.length_append, List.length_singleton]; omega
  refine ⟨hslot1, ?_, hr1.1, ?_, ?_⟩
  · simp [MemRecorder.is_full, hlen]
  · intro q hpool
    have h2 := write_tracking_record_overflow p s1 e2 thread q _ hcap hs1 hslot1 hlen1
      (hr1.2.1.trans hpool)
    rw [h2]
    constructor
    · rw [(set_slot_rest _ _ _).1, (set_slot_rest _ _ _).1, hr1.1]
    · apply get_slot_set_slot
      exact valid_thread_of_length (set_slot_store _ _ _).nthreads
        (valid_thread_of_length (s := s1) rfl hv1)
  · intro a2 h rest hpool hclear
    have h2 := write_tracking_record_pooled p s1 e2 thread a2 _ h rest hcap hs1 hslot1 hlen1
      (hr1.2.1.trans hpool) hclear
    rw [h2]
    constructor
    · rw [(set_slot_rest _ _ _).1, (set_slot_rest _ _ _).1, hr1.1]
    · rw [hb1.gen]
      apply get_slot_set_slot
      exact valid_thread_of_length (set_slot_store _ _ _).nthreads
        (valid_thread_of_length (s := s1) rfl hv1)

theorem C27_full_recorder_enqueued_by_next_write_witness :
    get_slot (write_tracking_record demo_platform demo_filling demo_last.addr demo_last.flags
        demo_last.size demo_last.seq demo_last.pc (some 0) .null) (some 0)
      = some { ({ id := 1, records := [demo_first] } : MemRecorder) with
          records := ({ id := 1, records := [demo_first] } : MemRecorder).records
            ++ [demo_last] } ∧
    (write_tracking_record demo_platform
        (write_tracking_record demo_platform demo_filling demo_last.addr demo_last.flags
          demo_last.size demo_last.seq demo_last.pc (some 0) .null)
        demo_first.addr demo_first.flags demo_first.size demo_first.seq demo_first.pc (some 0)
        (.ok 2))._merge_pending_queue
      = { ({ id := 1, records := [demo_first] } : MemRecorder) with
          records := ({ id := 1, records := [demo_first] } : MemRecorder).records
            ++ [demo_last] } :: demo_filling._merge_pending_queue ∧
    get_slot (write_tracking_record demo_platform
        (write_tracking_record demo_platform demo_filling demo_last.addr demo_last.flags
          demo_last.size demo_last.seq demo_last.pc (some 0) .null)
        demo_first.addr demo_first.flags demo_first.size demo_first.seq demo_first.pc (some 0)
        (.ok 2)) (some 0)
      = some { id := 2, records := [demo_first] } :=
  ⟨(C27_full_recorder_enqueued_by_next_write demo_platform demo_filling demo_last demo_first
      (some 0) .null { id := 1, records := [demo_first] } (by decide) (by decide) (by decide)
      (by decide)).1,
   (C27_full_recorder_enqueued_by_next_write demo_platform demo_filling demo_last demo_first
      (some 0) .null { id := 1, records := [demo_first] } (by decide) (by decide) (by decide)
      (by decide)).2.2.2.1 2 (by decide)⟩

/-! ## Lemmas on the recorder pool -/

/-- A `jint` that is not greater than the 32-bit double of an `int` is below the largest
`jint`, which is odd. -/
theorem le_double_lt_max (c t : Int) (h : ¬ c > jint_wrap (t * 2)) : c + 1 ≤ 2147483647 := by
  unfold jint_wrap at h
  omega

/-- What `release_thread_recorder` does: the recorder is deleted in shutdown and when the pool
counts more than twice the thread count, and pushed on the pool, cleared, otherwise. -/
theorem release_thread_recorder_cases (s : MemTracker) (rec : MemRecorder) :
    ((shutdown_in_progress s = true ∨ s._pooled_recorder_count > jint_wrap (s._thread_count * 2)) →
      release_thread_recorder s rec = { s with _instance_count := s._instance_count - 1 }) ∧
    (shutdown_in_progress s = false → ¬ s._pooled_recorder_count > jint_wrap (s._thread_count * 2) →
      release_thread_recorder s rec
        = { s with _pooled_recorders := rec.clear :: s._pooled_recorders,
                   _pooled_recorder_count := jint_wrap (s._pooled_recorder_count + 1) }) := by
  constructor
  · intro h
    unfold release_thread_recorder
    rw [if_pos (by simpa using h)]
    simp [delete_recorders]
  · intro h1 h2
    unfold release_thread_recorder
    rw [if_neg (by simp [h1]; simpa using h2)]

theorem shutdown_pool (s : MemTracker) (r : ShutdownReason) :
    (shutdown s r)._pooled_recorders = s._pooled_recorders ∧
    (shutdown s r)._pooled_recorder_count = s._pooled_recorder_count ∧
    (shutdown s r)._thread_count = s._thread_count := by
  unfold shutdown
  split
  · exact ⟨rfl, rfl, rfl⟩
  · split
    · exact ⟨rfl, rfl, rfl⟩
    · split <;> exact ⟨rfl, rfl, rfl⟩

/-- A call on the pool keeps the pooled-recorder counter, a `jint`, equal to the length of the
pool, and leaves the thread count as it is. -/
theorem PoolCall_run_count (s : MemTracker) (c : PoolCall)
    (h : s._pooled_recorder_count = s._pooled_recorders.length)
    (hj : s._pooled_recorder_count ≤ 2147483647) :
    (c.run s)._pooled_recorder_count = (c.run s)._pooled_recorders.length ∧
    (c.run s)._pooled_recorder_count ≤ 2147483647 ∧
    (c.run s)._thread_count = s._thread_count := by
  cases c with
  | release rec =>
    simp only [PoolCall.run]
    by_cases hd : shutdown_in_progress s = true ∨
        s._pooled_recorder_count > jint_wrap (s._thread_count * 2)
    · rw [(release_thread_recorder_cases s rec).1 hd]
      exact ⟨h, hj, rfl⟩
    · have hs : shutdown_in_progress s = false := by
        cases hx : shutdown_in_progress s
        · rfl
        · exact absurd (Or.inl hx) hd
      have hc : ¬ s._pooled_recorder_count > jint_wrap (s._thread_count * 2) :=
        fun hx => hd (Or.inr hx)
      rw [(release_thread_recorder_cases s rec).2 hs hc]
      have hb := le_double_lt_max _ _ hc
      have hw : jint_wrap (s._pooled_recorder_count + 1) = s._pooled_recorder_count + 1 :=
        jint_wrap_id _ (by omega) (by omega)
      refine ⟨?_, ?_, rfl⟩
      · show jint_wrap (s._pooled_recorder_count + 1)
          = ((rec.clear :: s._pooled_recorders).length : Int)
        rw [hw, h]
        simp
      · show jint_wrap (s._pooled_recorder_count + 1) ≤ 2147483647
        rw [hw]; exact hb
  | acquire a =>
    simp only [PoolCall.run, get_new_or_pooled_instance]
    cases hp : s._pooled_recorders with
    | nil =>
      cases a with
      | null =>
        show (shutdown s _)._pooled_recorder_count = ((shutdown s _)._pooled_recorders.length : Int) ∧
          (shutdown s _)._pooled_recorder_count ≤ 2147483647 ∧ (shutdown s _)._thread_count = _
        rw [(shutdown_pool s _).1, (shutdown_pool s _).2.1, (shutdown_pool s _).2.2]
        exact ⟨h, hj, rfl⟩
      | oom q =>
        show (shutdown s _)._pooled_recorder_count = ((shutdown s _)._pooled_recorders.length : Int) ∧
          (shutdown s _)._pooled_recorder_count ≤ 2147483647 ∧ (shutdown s _)._thread_count = _
        rw [(shutdown_pool s _).1, (shutdown_pool s _).2.1, (shutdown_pool s _).2.2]
        exact ⟨h, hj, rfl⟩
      | ok q =>
        rw [hp] at h
        exact ⟨h, hj, rfl⟩
    | cons hd tl =>
      rw [hp] at h
      simp only [List.length_cons, Nat.cast_add, Nat.cast_one] at h
      have hw : jint_wrap (s._pooled_recorder_count - 1) = s._pooled_recorder_count - 1 :=
        jint_wrap_id _ (by omega) (by omega)
      refine ⟨?_, ?_, rfl⟩
      · show jint_wrap (s._pooled_recorder_count - 1) = (tl.length : Int)
        rw [hw, h]
        omega
      · show jint_wrap (s._pooled_recorder_count - 1) ≤ 2147483647
        rw [hw]; omega
  | delete_all =>
    simp only [PoolCall.run, delete_all_pooled_recorders]
    cases hp : s._pooled_recorders with
    | nil => exact ⟨h, hj, rfl⟩
    | cons hd tl =>
      refine ⟨rfl, ?_, rfl⟩
      show (0 : Int) ≤ 2147483647
      decide

/-- A sequence of calls on the pool keeps the pooled-recorder counter equal to the length of the
pool. -/
theorem pool_calls_count (calls : List PoolCall) : ∀ (s : MemTracker),
    s._pooled_recorder_count = s._pooled_recorders.length →
    s._pooled_recorder_count ≤ 2147483647 →
    (pool_calls s calls)._pooled_recorder_count = (pool_calls s calls)._pooled_recorders.length ∧
    (pool_calls s calls)._pooled_recorder_count ≤ 2147483647 ∧
    (pool_calls s calls)._thread_count = s._thread_count := by
  induction calls with
  | nil => intro s h hj; exact ⟨h, hj, rfl⟩
  | cons c cs ih =>
    intro s h hj
    obtain ⟨h1, h2, h3⟩ := PoolCall_run_count s c h hj
    obtain ⟨h4, h5, h6⟩ := ih (c.run s) h1 h2
    exact ⟨h4, h5, h6.trans h3⟩

/-- With a thread count whose double fits a `jint`, a call on the pool keeps the pool within
twice the thread count plus one. -/
theorem PoolCall_run_bound (s : MemTracker) (c : PoolCall)
    (h : s._pooled_recorder_count = s._pooled_recorders.length)
    (h0 : 0 ≤ s._thread_count) (h1 : s._thread_count ≤ 1073741823)
    (hb : (s._pooled_recorders.length : Int) ≤ 2 * s._thread_count + 1) :
    ((c.run s)._pooled_recorders.length : Int) ≤ 2 * s._thread_count + 1 := by
  have hw : jint_wrap (s._thread_count * 2) = s._thread_count * 2 :=
    jint_wrap_id _ (by omega) (by omega)
  cases c with
  | release rec =>
    simp only [PoolCall.run]
    by_cases hd : shutdown_in_progress s = true ∨
        s._pooled_recorder_count > jint_wrap (s._thread_count * 2)
    · rw [(release_thread_recorder_cases s rec).1 hd]
      exact hb
    · have hs : shutdown_in_progress s = false := by
        cases hx : shutdown_in_progress s
        · rfl
        · exact absurd (Or.inl hx) hd
      have hc : ¬ s._pooled_recorder_count > jint_wrap (s._thread_count * 2) :=
        fun hx => hd (Or.inr hx)
      rw [(release_thread_recorder_cases s rec).2 hs hc]
      rw [hw, h] at hc
      show (((rec.clear :: s._pooled_recorders).length : Nat) : Int) ≤ _
      simp only [List.length_cons, Nat.cast_add, Nat.cast_one]
      omega
  | acquire a =>
    simp only [PoolCall.run, get_new_or_pooled_instance]
    cases hp : s._pooled_recorders with
    | nil =>
      cases a with
      | null =>
        show (((shutdown s _)._pooled_recorders.length : Nat) : Int) ≤ _
        rw [(shutdown_pool s _).1]; exact hb
      | oom q =>
        show (((shutdown s _)._pooled_recorders.length : Nat) : Int) ≤ _
        rw [(shutdown_pool s _).1]; exact hb
      | ok q =>
        rw [hp] at hb
        exact hb
    | cons hd tl =>
      rw [hp] at hb
      simp only [List.length_cons, Nat.cast_add, Nat.cast_one] at hb
      show ((tl.length : Nat) : Int) ≤ _
      omega
  | delete_all =>
    simp only [PoolCall.run, delete_all_pooled_recorders]
    cases hp : s._pooled_recorders with
    | nil => exact hb
    | cons hd tl =>
      show (((([] : List MemRecorder).length : Nat)) : Int) ≤ _
      simp only [List.length_nil, Nat.cast_zero]
      omega

theorem pool_calls_bound (calls : List PoolCall) : ∀ (s : MemTracker),
    s._pooled_recorder_count = s._pooled_recorders.length →
    s._pooled_recorder_count ≤ 2147483647 →
    0 ≤ s._thread_count → s._thread_count ≤ 1073741823 →
    (s._pooled_recorders.length : Int) ≤ 2 * s._thread_count + 1 →
    ((pool_calls s calls)._pooled_recorders.length : Int) ≤ 2 * s._thread_count + 1 := by
  induction calls with
  | nil => intro s _ _ _ _ hb; exact hb
  | cons c cs ih =>
    intro s h hj h0 h1 hb
    obtain ⟨h2, h3, h4⟩ := PoolCall_run_count s c h hj
    have h5 := PoolCall_run_bound s c h h0 h1 hb
    have := ih (c.run s) h2 h3 (by rw [h4]; exact h0) (by rw [h4]; exact h1)
      (by rw [h4]; exact h5)
    rw [h4] at this
    exact this

/-! ## C26 -/

/-- C26 (counterexample to the claim as stated): with a thread count of one, from an empty
pool, two recorders are released and the pool holds 2 = 2 × 1 recorders; a third recorder
released then is pooled, not deleted, and the pool holds 3 recorders; a fourth is deleted. -/
theorem C26_pool_holds_one_more :
    demo_single._thread_count = 1 ∧
    demo_single._pooled_recorders = [] ∧
    demo_single._pooled_recorder_count = 0 ∧
    (pool_calls demo_single [.release { id := 1 }, .release { id := 2 }])._pooled_recorders.length
      = 2 ∧
    (release_thread_recorder
        (pool_calls demo_single [.release { id := 1 }, .release { id := 2 }])
        { id := 3 })._pooled_recorders.length = 3 ∧
    (pool_calls demo_single
        [.release { id := 1 }, .release { id := 2 }, .release { id := 3 },
          .release { id := 4 }])._pooled_recorders.length = 3 ∧
    (pool_calls demo_single
        [.release { id := 1 }, .release { id := 2 }, .release { id := 3 },
          .release { id := 4 }])._instance_count
      = (pool_calls demo_single
          [.release { id := 1 }, .release { id := 2 },
            .release { id := 3 }])._instance_count - 1 := by
  decide

/-- C26 (amended): for a fixed thread count, not negative and with a double that fits a `jint`,
and every sequence of `release_thread_recorder`, `get_new_or_pooled_instance` and
`delete_all_pooled_recorders` calls starting from an empty pool, the thread count stays as it
is and the number of pooled recorders never exceeds 2 × thread count + 1; a recorder released
when the pool holds more than 2 × thread count recorders is deleted instead of pooled, and a
recorder released outside shutdown when the pool holds at most 2 × thread count recorders is
cleared and pooled. -/
theorem C26_pool_bound (s : MemTracker) (calls : List PoolCall) (rec : MemRecorder)
    (hpool : s._pooled_recorders = []) (hcount : s._pooled_recorder_count = 0)
    (h0 : 0 ≤ s._thread_count) (h1 : s._thread_count ≤ 1073741823) :
    (pool_calls s calls)._thread_count = s._thread_count ∧
    ((pool_calls s calls)._pooled_recorders.length : Int) ≤ 2 * s._thread_count + 1 ∧
    (((pool_calls s calls)._pooled_recorders.length : Int) > 2 * s._thread_count →
      (release_thread_recorder (pool_calls s calls) rec)._pooled_recorders
        = (pool_calls s calls)._pooled_recorders ∧
      (release_thread_recorder (pool_calls s calls) rec)._instance_count
        = (pool_calls s calls)._instance_count - 1) ∧
    (((pool_calls s calls)._pooled_recorders.length : Int) ≤ 2 * s._thread_count →
      shutdown_in_progress (pool_calls s calls) = false →
      (release_thread_recorder (pool_calls s calls) rec)._pooled_recorders
        = rec.clear :: (pool_calls s calls)._pooled_recorders) := by
  have hinv : s._pooled_recorder_count = s._pooled_recorders.length := by
    rw [hcount, hpool]; rfl
  have hj : s._pooled_recorder_count ≤ 2147483647 := by rw [hcount]; decide
  obtain ⟨hc, -, ht⟩ := pool_calls_count calls s hinv hj
  have hb := pool_calls_bound calls s hinv hj h0 h1 (by rw [hpool]; simp; omega)
  generalize pool_calls s calls = x at hc ht hb ⊢
  have hw : jint_wrap (x._thread_count * 2) = x._thread_count * 2 := by
    rw [ht]; exact jint_wrap_id _ (by omega) (by omega)
  refine ⟨ht, hb, ?_, ?_⟩
  · intro hgt
    rw [(release_thread_recorder_cases x rec).1 (Or.inr (by rw [hw, hc, ht]; omega))]
    exact ⟨rfl, rfl⟩
  · intro hle hs
    rw [(release_thread_recorder_cases x rec).2 hs (by rw [hw, hc, ht]; omega)]

theorem C26_pool_bound_witness :
    (pool_calls demo_single [.release { id := 1 }, .acquire .null, .release { id := 2 }])._thread_count
      = demo_single._thread_count ∧
    ((pool_calls demo_single
        [.release { id := 1 }, .acquire .null, .release { id := 2 }])._pooled_recorders.length
        : Int) ≤ 2 * demo_single._thread_count + 1 ∧
    (release_thread_recorder
        (pool_calls demo_single [.release { id := 1 }, .acquire .null, .release { id := 2 }])
        { id := 3 })._pooled_recorders
      = MemRecorder.clear { id := 3 } ::
        (pool_calls demo_single
          [.release { id := 1 }, .acquire .null, .release { id := 2 }])._pooled_recorders :=
  ⟨(C26_pool_bound demo_single [.release { id := 1 }, .acquire .null, .release { id := 2 }]
      { id := 3 } (by decide) (by decide) (by decide) (by decide)).1,
   (C26_pool_bound demo_single [.release { id := 1 }, .acquire .null, .release { id := 2 }]
      { id := 3 } (by decide) (by decide) (by decide) (by decide)).2.1,
   (C26_pool_bound demo_single [.release { id := 1 }, .acquire .null, .release { id := 2 }]
      { id := 3 } (by decide) (by decide) (by decide) (by decide)).2.2.2 (by decide) (by decide)⟩

/-! ## C30 -/

/-- C30: in a state where the pooled-recorder counter, a `jint`, equals the number of recorders
in the pool, (1) after every sequence of `release_thread_recorder`,
`get_new_or_pooled_instance` and `delete_all_pooled_recorders` calls the counter equals the
number of recorders in the pool and is not negative; (2) `get_new_or_pooled_instance` on a pool
that is not empty returns the head of the pool, stamped with the current generation, leaves the
rest of the pool, from which the returned recorder is unlinked, and lowers the counter by exactly
one; (3) the recorder popped after a recorder has been released to the pool is that recorder,
cleared, and pool and counter are back to what they were before the release. -/
theorem C30_pooled_count_exact (s : MemTracker)
    (hinv : s._pooled_recorder_count = s._pooled_recorders.length)
    (hj : s._pooled_recorder_count ≤ max_jint) :
    (∀ calls : List PoolCall,
      (pool_calls s calls)._pooled_recorder_count
        = (pool_calls s calls)._pooled_recorders.length ∧
      0 ≤ (pool_calls s calls)._pooled_recorder_count) ∧
    (∀ (a : NewResult) (h : MemRecorder) (rest : List MemRecorder),
      s._pooled_recorders = h :: rest →
      (get_new_or_pooled_instance s a).1
        = some { h with _generation := SequenceGenerator.current_generation s } ∧
      (get_new_or_pooled_instance s a).2._pooled_recorders = rest ∧
      (get_new_or_pooled_instance s a).2._pooled_recorder_count
        = s._pooled_recorder_count - 1) ∧
    (∀ (rec : MemRecorder) (a : NewResult),
      shutdown_in_progress s = false →
      ¬ s._pooled_recorder_count > jint_wrap (s._thread_count * 2) →
      (get_new_or_pooled_instance (release_thread_recorder s rec) a).1
        = some { rec.clear with _generation := SequenceGenerator.current_generation s } ∧
      (get_new_or_pooled_instance (release_thread_recorder s rec) a).2._pooled_recorders
        = s._pooled_recorders ∧
      (get_new_or_pooled_instance (release_thread_recorder s rec) a).2._pooled_recorder_count
        = s._pooled_recorder_count) := by
  simp only [max_jint] at hj
  refine ⟨?_, ?_, ?_⟩
  · intro calls
    obtain ⟨hc, -, -⟩ := pool_calls_count calls s hinv hj
    exact ⟨hc, by rw [hc]; exact Int.natCast_nonneg _⟩
  · intro a h rest hp
    have hpos : 1 ≤ s._pooled_recorder_count := by
      rw [hinv, hp]; simp
    unfold get_new_or_pooled_instance
    rw [hp]
    refine ⟨rfl, rfl, ?_⟩
    exact jint_wrap_id _ (by omega) (by omega)
  · intro rec a hs hc
    have hb := le_double_lt_max _ _ hc
    have hnn : 0 ≤ s._pooled_recorder_count := by rw [hinv]; exact Int.natCast_nonneg _
    rw [(release_thread_recorder_cases s rec).2 hs hc]
    unfold get_new_or_pooled_instance
    refine ⟨rfl, rfl, ?_⟩
    show jint_wrap (jint_wrap (s._pooled_recorder_count + 1) - 1) = s._pooled_recorder_count
    rw [jint_wrap_id (s._pooled_recorder_count + 1) (by omega) (by omega)]
    rw [jint_wrap_id _ (by omega) (by omega)]
    omega

theorem C30_pooled_count_exact_witness :
    ((pool_calls demo_single
        [.release { id := 1 }, .release { id := 2 }, .acquire .null, .delete_all,
          .release { id := 3 }])._pooled_recorder_count
      = (pool_calls demo_single
        [.release { id := 1 }, .release { id := 2 }, .acquire .null, .delete_all,
          .release { id := 3 }])._pooled_recorders.length ∧
      0 ≤ (pool_calls demo_single
        [.release { id := 1 }, .release { id := 2 }, .acquire .null, .delete_all,
          .release { id := 3 }])._pooled_recorder_count) ∧
    ((get_new_or_pooled_instance (release_thread_recorder demo_single { id := 1 }) .null).1
        = some { MemRecorder.clear { id := 1 } with
            _generation := SequenceGenerator.current_generation demo_single } ∧
      (get_new_or_pooled_instance
          (release_thread_recorder demo_single { id := 1 }) .null).2._pooled_recorders
        = demo_single._pooled_recorders ∧
      (get_new_or_pooled_instance
          (release_thread_recorder demo_single { id := 1 }) .null).2._pooled_recorder_count
        = demo_single._pooled_recorder_count) :=
  ⟨(C30_pooled_count_exact demo_single (by decide) (by decide)).1 _,
   (C30_pooled_count_exact demo_single (by decide) (by decide)).2.2 { id := 1 } .null
      (by decide) (by decide)⟩

/-! ## Lemmas on what the thread walk collects -/

theorem Thread_clear_none (th : Thread) (h : th._recorder = none) :
    ({ th with _recorder := none } : Thread) = th := by
  cases th
  simp only at h
  simp [h]

/-- The thread table after `do_thread` on entry `i`: the slot of entry `i` is cleared if it is a
Java thread, the other entries are as they were. -/
theorem do_thread_threads (s : MemTracker) (c : Int) (i j : Nat) :
    (SyncThreadRecorderClosure.do_thread s c i).1.threads.get? j
      = (s.threads.get? j).map
          (fun th => if j = i ∧ th.is_Java_thread = true then { th with _recorder := none }
            else th) := by
  by_cases hji : j = i
  · subst hji
    unfold SyncThreadRecorderClosure.do_thread
    cases hth : s.threads.get? j with
    | none => exact hth
    | some th =>
      have hth2 : s.threads[j]? = some th := by rw [← List.get?_eq_getElem?]; exact hth
      by_cases hjava : th.is_Java_thread = true
      · rw [Option.map_some', if_pos ⟨rfl, hjava⟩]
        show (if th.is_Java_thread = true then
            (match th._recorder with
              | some recorder => set_slot (enqueue_pending_recorder s recorder) (some j) none
              | none => s)
          else s).threads.get? j = _
        rw [if_pos hjava]
        cases hrec : th._recorder with
        | none =>
          show s.threads.get? j = some { th with _recorder := none }
          rw [hth, Thread_clear_none th hrec]
        | some r =>
          simp only []
          unfold enqueue_pending_recorder
          split <;> simp [set_slot, List.get?_eq_getElem?, List.getElem?_modify, hth2]
      · rw [Option.map_some', if_neg (fun h => hjava h.2)]
        show (if th.is_Java_thread = true then
            (match th._recorder with
              | some recorder => set_slot (enqueue_pending_recorder s recorder) (some j) none
              | none => s)
          else s).threads.get? j = _
        rw [if_neg hjava]
        exact hth
  · rw [do_thread_other s c i j (fun h => hji h.symm)]
    cases s.threads.get? j with
    | none => rfl
    | some th => simp [hji]

/-- The thread table after the walk over `is`: the slots of the Java threads among `is` are
cleared, the other entries are as they were. -/
theorem walk_threads (is : List Nat) : ∀ (s : MemTracker) (c : Int) (j : Nat),
    (SyncThreadRecorderClosure.walk s c is).1.threads.get? j
      = (s.threads.get? j).map
          (fun th => if j ∈ is ∧ th.is_Java_thread = true then { th with _recorder := none }
            else th) := by
  induction is with
  | nil =>
    intro s c j
    simp [SyncThreadRecorderClosure.walk]
  | cons i is ih =>
    intro s c j
    simp only [SyncThreadRecorderClosure.walk]
    rw [ih, do_thread_threads]
    cases s.threads.get? j with
    | none => rfl
    | some th =>
      simp only [Option.map_some', Option.some.injEq, List.mem_cons]
      by_cases hjava : th.is_Java_thread = true
      · by_cases h1 : j = i
        · by_cases h2 : j ∈ is <;> simp [hjava, h1, h2]
        · by_cases h2 : j ∈ is <;> simp [hjava, h1, h2]
      · simp [hjava]

theorem java_slot_recorders_single (s : MemTracker) (i : Nat) :
    java_slot_recorders s [i] = ((s.threads.get? i).bind Thread.java_recorder).toList := by
  unfold java_slot_recorders
  simp only [List.filterMap_cons, List.filterMap_nil]
  cases (s.threads.get? i).bind Thread.java_recorder <;> rfl

/-- What `do_thread` does to the pending queue and to the count of recorder instances: outside
shutdown the recorder of a Java thread is pushed on the queue, in shutdown it is deleted. -/
theorem do_thread_store (s : MemTracker) (c : Int) (i : Nat) :
    (shutdown_in_progress s = false →
      (SyncThreadRecorderClosure.do_thread s c i).1._merge_pending_queue
        = (java_slot_recorders s [i]).reverse ++ s._merge_pending_queue ∧
      (SyncThreadRecorderClosure.do_thread s c i).1._instance_count = s._instance_count) ∧
    (shutdown_in_progress s = true →
      (SyncThreadRecorderClosure.do_thread s c i).1._merge_pending_queue
        = s._merge_pending_queue ∧
      (SyncThreadRecorderClosure.do_thread s c i).1._instance_count
        = s._instance_count - (java_slot_recorders s [i]).length) := by
  rw [java_slot_recorders_single]
  unfold SyncThreadRecorderClosure.do_thread
  cases hth : s.threads.get? i with
  | none =>
    constructor <;> intro _ <;> simp
  | some th =>
    by_cases hjava : th.is_Java_thread = true
    · cases hrec : th._recorder with
      | none =>
        constructor <;> intro _ <;> simp [Thread.java_recorder, hjava, hrec]
      | some r =>
        constructor <;> intro hs <;>
          simp [Thread.java_recorder, hjava, hrec, enqueue_pending_recorder, hs, set_slot]
    · constructor <;> intro _ <;> simp [Thread.java_recorder, hjava]

theorem java_slot_recorders_congr (s s' : MemTracker) (is : List Nat)
    (h : ∀ j ∈ is, s'.threads.get? j = s.threads.get? j) :
    java_slot_recorders s' is = java_slot_recorders s is := by
  unfold java_slot_recorders
  induction is with
  | nil => rfl
  | cons i is ih =>
    simp only [List.filterMap_cons]
    rw [h i (List.mem_cons_self _ _), ih (fun j hj => h j (List.mem_cons_of_mem _ hj))]

theorem java_slot_recorders_cons (s : MemTracker) (i : Nat) (is : List Nat) :
    java_slot_recorders s (i :: is) = java_slot_recorders s [i] ++ java_slot_recorders s is := by
  unfold java_slot_recorders
  simp only [List.filterMap_cons, List.filterMap_nil]
  cases (s.threads.get? i).bind Thread.java_recorder <;> rfl

/-- What the walk over distinct entries does to the pending queue and to the count of recorder
instances: outside shutdown the recorders of the Java threads are pushed on the queue one after
the other, in shutdown they are deleted. -/
theorem walk_store (is : List Nat) : ∀ (s : MemTracker) (c : Int), is.Nodup →
    (shutdown_in_progress s = false →
      (SyncThreadRecorderClosure.walk s c is).1._merge_pending_queue
        = (java_slot_recorders s is).reverse ++ s._merge_pending_queue ∧
      (SyncThreadRecorderClosure.walk s c is).1._instance_count = s._instance_count) ∧
    (shutdown_in_progress s = true →
      (SyncThreadRecorderClosure.walk s c is).1._merge_pending_queue
        = s._merge_pending_queue ∧
      (SyncThreadRecorderClosure.walk s c is).1._instance_count
        = s._instance_count - (java_slot_recorders s is).length) := by
  induction is with
  | nil =>
    intro s c _
    simp [SyncThreadRecorderClosure.walk, java_slot_recorders]
  | cons i is ih =>
    intro s c hnd
    have hi : i ∉ is := (List.nodup_cons.mp hnd).1
    have hnd' : is.Nodup := (List.nodup_cons.mp hnd).2
    have hcongr : java_slot_recorders (SyncThreadRecorderClosure.do_thread s c i).1 is
        = java_slot_recorders s is :=
      java_slot_recorders_congr _ _ _ (fun j hj =>
        do_thread_other s c i j (fun h => hi (h ▸ hj)))
    have hsd : shutdown_in_progress (SyncThreadRecorderClosure.do_thread s c i).1
        = shutdown_in_progress s :=
      shutdown_in_progress_of_state (do_thread_frame s c i).state
    have hd := do_thread_store s c i
    have hw := ih (SyncThreadRecorderClosure.do_thread s c i).1
      (SyncThreadRecorderClosure.do_thread s c i).2 hnd'
    simp only [SyncThreadRecorderClosure.walk]
    rw [java_slot_recorders_cons]
    constructor
    · intro hs
      obtain ⟨h1, h2⟩ := hw.1 (hsd.trans hs)
      obtain ⟨h3, h4⟩ := hd.1 hs
      rw [h1, h2, h3, h4, hcongr]
      simp
    · intro hs
      obtain ⟨h1, h2⟩ := hw.2 (hsd.trans hs)
      obtain ⟨h3, h4⟩ := hd.2 hs
      refine ⟨h1.trans h3, ?_⟩
      rw [h2, h4, hcongr]
      simp only [List.length_append, Nat.cast_add]
      omega

theorem walked_nodup (s : MemTracker) : (Threads.walked s).Nodup := by
  unfold Threads.walked
  exact List.Nodup.filter _ (List.nodup_range _)

theorem filterMap_range_get? {α β : Type} (g : α → Option β) : ∀ l : List α,
    (List.range l.length).filterMap (fun i => (l.get? i).bind g) = l.filterMap g := by
  intro l
  induction l with
  | nil => rfl
  | cons a l ih =>
    rw [List.length_cons, List.range_succ_eq_map, List.filterMap_cons, List.filterMap_map]
    have h0 : ((a :: l).get? 0).bind g = g a := rfl
    have hs : ((fun i => ((a :: l).get? i).bind g) ∘ Nat.succ) = fun i => (l.get? i).bind g := by
      funext i
      rfl
    rw [h0, hs, ih, List.filterMap_cons]

/-- When every Java thread that holds a recorder is safepoint-visible, the recorders the thread
walk meets are the recorders in the slots of the Java threads, in the order of the thread
table. -/
theorem java_slot_recorders_walked (s : MemTracker) (hvis : slots_visible s) :
    java_slot_recorders s (Threads.walked s) = s.threads.filterMap Thread.java_recorder := by
  unfold java_slot_recorders Threads.walked
  rw [List.filterMap_filter, ← filterMap_range_get? Thread.java_recorder s.threads]
  apply List.filterMap_congr
  intro i _
  cases hth : s.threads.get? i with
  | none => simp
  | some th =>
    have hmem : th ∈ s.threads := List.get?_mem hth
    simp only [Option.bind_some]
    by_cases hjava : th.is_Java_thread = true
    · by_cases hv : th.is_safepoint_visible = true
      · simp [hjava, hv]
      · have hrec : th._recorder = none := by
          by_contra hne
          exact hv (hvis th hmem hjava hne)
        simp [hjava, hv, Thread.java_recorder, hrec]
    · simp [hjava]

/-- What the test on the outstanding recorder instances leaves of the store. -/
theorem sync_check_load_store (x : MemTracker) :
    (sync_check_load x).threads = x.threads ∧
    (sync_check_load x)._global_recorder = x._global_recorder ∧
    (sync_check_load x)._merge_pending_queue = x._merge_pending_queue ∧
    (sync_check_load x)._instance_count = x._instance_count := by
  unfold sync_check_load
  split
  · exact ⟨rfl, rfl, rfl, rfl⟩
  · split
    · unfold shutdown
      split
      · exact ⟨rfl, rfl, rfl, rfl⟩
      · split
        · exact ⟨rfl, rfl, rfl, rfl⟩
        · split <;> exact ⟨rfl, rfl, rfl, rfl⟩
    · exact ⟨rfl, rfl, rfl, rfl⟩

theorem sync_at_sync_point_store (x : MemTracker) (l : List MemRecorder) (n : Nat) :
    (sync_at_sync_point x l n).threads = x.threads ∧
    (sync_at_sync_point x l n)._global_recorder = x._global_recorder ∧
    (sync_at_sync_point x l n)._merge_pending_queue = x._merge_pending_queue ∧
    (sync_at_sync_point x l n)._instance_count = x._instance_count := by
  unfold sync_at_sync_point
  split <;> exact ⟨rfl, rfl, rfl, rfl⟩

/-- The store when the drain has collected the recorders: the thread table is that of the
thread walk, the global recorder and the pending queue are empty. -/
theorem sync_collect_store (p : Platform) (s : MemTracker) :
    (sync_collect p s).threads
      = (Threads.threads_do { SequenceGenerator.reset p s with
          _sync_point_skip_count := 0 }).1.threads ∧
    (sync_collect p s)._global_recorder = none ∧
    (sync_collect p s)._merge_pending_queue = [] := by
  unfold sync_collect sync_take_global
  split
  · exact ⟨rfl, rfl, rfl⟩
  · rename_i h
    exact ⟨rfl, h, rfl⟩

/-- The batch of the drain, outside shutdown: the global recorder if there is one, then the
recorders of the Java threads walked, the last one walked first, then the pending queue. -/
theorem sync_batch_eq (p : Platform) (s : MemTracker) (hs : shutdown_in_progress s = false) :
    sync_batch p s
      = s._global_recorder.toList ++ ((java_slot_recorders s (Threads.walked s)).reverse
          ++ s._merge_pending_queue) := by
  have hs1 : shutdown_in_progress
      { SequenceGenerator.reset p s with _sync_point_skip_count := 0 } = false := hs
  have hq : (Threads.threads_do
      { SequenceGenerator.reset p s with _sync_point_skip_count := 0 }).1._merge_pending_queue
      = (java_slot_recorders s (Threads.walked s)).reverse ++ s._merge_pending_queue :=
    ((walk_store _ { SequenceGenerator.reset p s with _sync_point_skip_count := 0 } 0
      (walked_nodup _)).1 hs1).1
  have hg : (Threads.threads_do
      { SequenceGenerator.reset p s with _sync_point_skip_count := 0 }).1._global_recorder
      = s._global_recorder :=
    (threads_do_frame { SequenceGenerator.reset p s with _sync_point_skip_count := 0 }).global
  unfold sync_batch sync_take_global get_pending_recorders
  simp only []
  rw [hg, hq]
  cases s._global_recorder <;> rfl

/-- After the thread walk the slot of every Java thread is empty, when every Java thread that
holds a recorder is safepoint-visible. -/
theorem threads_do_slots (s : MemTracker) (hvis : slots_visible s) (j : Nat) (th : Thread)
    (hth : (Threads.threads_do s).1.threads.get? j = some th)
    (hjava : th.is_Java_thread = true) : th._recorder = none := by
  unfold Threads.threads_do at hth
  rw [walk_threads] at hth
  cases hth0 : s.threads.get? j with
  | none => rw [hth0] at hth; simp at hth
  | some th0 =>
    rw [hth0, Option.map_some', Option.some.injEq] at hth
    have hmem : th0 ∈ s.threads := List.get?_mem hth0
    by_cases hc : j ∈ Threads.walked s ∧ th0.is_Java_thread = true
    · rw [if_pos hc] at hth
      rw [← hth]
    · rw [if_neg hc] at hth
      subst hth
      by_contra hne
      apply hc
      refine ⟨?_, hjava⟩
      have hv := hvis th0 hmem hjava hne
      have hlt : j < s.threads.length := by
        rw [List.get?_eq_getElem?] at hth0
        exact (List.getElem?_eq_some_iff.mp hth0).1
      simp only [Threads.walked, List.mem_filter, List.mem_range]
      refine ⟨hlt, ?_⟩
      rw [hth0]
      simp [hv]

/-! ## C24 -/

/-- C24: a `sync` that drains (state started, worker present, not throttled, no pending
operation), in a state where every Java thread that holds a recorder is safepoint-visible.
Afterwards the generation is the one before plus one, in `unsigned long` arithmetic, and the
skip count is 0; the slot of every Java thread and the global recorder are empty; the pending
queue is empty; and the worker has been handed one more batch, which is the global recorder, if
there was one, at the head, followed by the recorders of the Java threads, the last one walked
first, followed by the pending queue: the batch holds the recorders that were in the global
slot, in the slots of the Java threads and on the pending queue, each as many times as it was
there. -/
theorem C24_drain (p : Platform) (s : MemTracker) (n : Nat) (w : MemTrackWorker)
    (hst : s._state = .NMT_started) (hw : s._worker_thread = some w)
    (hthr : ¬ (s._sync_point_skip_count < MAX_SAFEPOINTS_TO_SKIP ∧ sync_should_skip p s w = true))
    (hpend : s._pending_op_count = 0) (hvis : slots_visible s) :
    SequenceGenerator.current_generation (sync p s n)
      = (SequenceGenerator.current_generation s + 1) % 2 ^ p.unsigned_long_bits ∧
    (SequenceGenerator.current_generation s + 1 < 2 ^ p.unsigned_long_bits →
      SequenceGenerator.current_generation (sync p s n)
        = SequenceGenerator.current_generation s + 1) ∧
    (sync p s n)._sync_point_skip_count = 0 ∧
    (∀ (j : Nat) (th : Thread), (sync p s n).threads.get? j = some th →
      th.is_Java_thread = true → th._recorder = none) ∧
    (sync p s n)._global_recorder = none ∧
    (sync p s n)._merge_pending_queue = [] ∧
    (sync p s n)._worker_thread
      = some { w with batches := w.batches ++ [(sync_batch p s, n)] } ∧
    sync_batch p s
      = s._global_recorder.toList ++ ((java_slot_recorders s (Threads.walked s)).reverse
          ++ s._merge_pending_queue) ∧
    List.Perm (sync_batch p s)
      (s._global_recorder.toList ++ (s.threads.filterMap Thread.java_recorder
        ++ s._merge_pending_queue)) ∧
    (∀ g : MemRecorder, s._global_recorder = some g → (sync_batch p s).head? = some g) := by
  have hs : shutdown_in_progress s = false := by
    simp [shutdown_in_progress, hst, NMTStates.toNat]
  have hf := sync_drain_fields p s n
  have hcs := sync_collect_store p s
  have hl := sync_check_load_store (sync_collect p s)
  have ha := sync_at_sync_point_store (sync_check_load (sync_collect p s)) (sync_batch p s) n
  have hb := sync_batch_eq p s hs
  rw [sync_drains p s n w hst hw hthr hpend]
  refine ⟨hf.2.2.1, ?_, hf.1, ?_, ?_, ?_, ?_, hb, ?_, ?_⟩
  · intro hlt
    exact hf.2.2.1.trans (Nat.mod_eq_of_lt hlt)
  · intro j th hth hjava
    rw [sync_drain_eq, ha.1, hl.1, hcs.1] at hth
    exact threads_do_slots { SequenceGenerator.reset p s with _sync_point_skip_count := 0 }
      hvis j th hth hjava
  · rw [sync_drain_eq, ha.2.1, hl.2.1, hcs.2.1]
  · rw [sync_drain_eq, ha.2.2.1, hl.2.2.1, hcs.2.2]
  · rw [hf.2.2.2, hw]
    rfl
  · rw [hb, java_slot_recorders_walked s hvis]
    exact List.Perm.append_left _ (List.Perm.append_right _ (List.reverse_perm _))
  · intro g hg
    rw [hb, hg]
    rfl

theorem C24_drain_witness :
    (sync demo_platform demo_collect 7)._sync_point_skip_count = 0 ∧
    (sync demo_platform demo_collect 7)._global_recorder = none ∧
    (sync demo_platform demo_collect 7)._merge_pending_queue = [] ∧
    (sync demo_platform demo_collect 7)._worker_thread
      = some { ({} : MemTrackWorker) with
          batches := ({} : MemTrackWorker).batches ++ [(sync_batch demo_platform demo_collect, 7)] } ∧
    sync_batch demo_platform demo_collect
      = demo_collect._global_recorder.toList
        ++ ((java_slot_recorders demo_collect (Threads.walked demo_collect)).reverse
          ++ demo_collect._merge_pending_queue) :=
  ⟨(C24_drain demo_platform demo_collect 7 {} (by decide) (by decide) (by decide) (by decide)
      (by decide)).2.2.1,
   (C24_drain demo_platform demo_collect 7 {} (by decide) (by decide) (by decide) (by decide)
      (by decide)).2.2.2.2.1,
   (C24_drain demo_platform demo_collect 7 {} (by decide) (by decide) (by decide) (by decide)
      (by decide)).2.2.2.2.2.1,
   (C24_drain demo_platform demo_collect 7 {} (by decide) (by decide) (by decide) (by decide)
      (by decide)).2.2.2.2.2.2.1,
   (C24_drain demo_platform demo_collect 7 {} (by decide) (by decide) (by decide) (by decide)
      (by decide)).2.2.2.2.2.2.2.1⟩

/-! ## C25 -/

/-- The last part of `sync` in state final_shutdown: a state with the thread table of the walk,
no global recorder, an empty pending queue and the recorders deleted taken off the count of
instances, which becomes state shutdown with tracking off when no instance is left. -/
theorem sync_final_shutdown_eq (s : MemTracker) (hst : s._state = .NMT_final_shutdown) :
    ∃ x : MemTracker,
      x.threads = (Threads.threads_do s).1.threads ∧ x._global_recorder = none ∧
      x._merge_pending_queue = [] ∧ x._instance_count = instances_after_deletion s ∧
      x._state = s._state ∧ x._tracking_level = s._tracking_level ∧
      x._worker_thread = s._worker_thread ∧
      sync_final_shutdown s
        = if x._instance_count = 0 then
            { x with _state := .NMT_shutdown, _tracking_level := .NMT_off }
          else x := by
  have hs : shutdown_in_progress s = true := by
    simp [shutdown_in_progress, hst, NMTStates.toNat]
  have hfr := threads_do_frame s
  obtain ⟨hq, hi⟩ := (walk_store (Threads.walked s) s 0 (walked_nodup s)).2 hs
  change (Threads.threads_do s).1._merge_pending_queue = _ at hq
  change (Threads.threads_do s).1._instance_count = _ at hi
  unfold sync_final_shutdown
  rw [if_pos hst]
  simp only []
  generalize (Threads.threads_do s).1 = s1 at hfr hq hi ⊢
  cases hg : s1._global_recorder with
  | none =>
    refine ⟨delete_recorders (get_pending_recorders s1).2 (get_pending_recorders s1).1,
      rfl, hg, rfl, ?_, hfr.state, hfr.level, hfr.worker, rfl⟩
    have hg0 : s._global_recorder = none := hfr.global.symm.trans hg
    simp only [delete_recorders, get_pending_recorders, instances_after_deletion, hi, hq, hg0,
      Option.toList, List.length_nil, Nat.cast_zero]
    omega
  | some g =>
    refine ⟨delete_recorders
        (get_pending_recorders { delete_recorders s1 [g] with _global_recorder := none }).2
        (get_pending_recorders { delete_recorders s1 [g] with _global_recorder := none }).1,
      rfl, rfl, rfl, ?_, hfr.state, hfr.level, hfr.worker, rfl⟩
    have hg0 : s._global_recorder = some g := hfr.global.symm.trans hg
    simp only [delete_recorders, get_pending_recorders, instances_after_deletion, hi, hq, hg0,
      Option.toList, List.length_cons, List.length_nil, Nat.cast_one, zero_add]

/-- C25: `sync` in state final_shutdown, in a state where every Java thread that holds a
recorder is safepoint-visible.  Afterwards the slot of every Java thread is empty, the global
recorder is empty and the pending queue is empty; nothing has been handed to the worker; the
count of recorder instances is the count before less the recorders that were in the slots of the
Java threads, the global recorder and the recorders of the pending queue, which have been
deleted; and the state is shutdown with the tracking level off if and only if that count is 0,
the state staying final_shutdown and the tracking level as it was otherwise. -/
theorem C25_final_shutdown_sync (p : Platform) (s : MemTracker) (n : Nat)
    (hst : s._state = .NMT_final_shutdown) (hvis : slots_visible s) :
    (∀ (j : Nat) (th : Thread), (sync p s n).threads.get? j = some th →
      th.is_Java_thread = true → th._recorder = none) ∧
    (sync p s n)._global_recorder = none ∧
    (sync p s n)._merge_pending_queue = [] ∧
    (sync p s n)._worker_thread = s._worker_thread ∧
    (sync p s n)._instance_count = instances_after_deletion s ∧
    (((sync p s n)._state = .NMT_shutdown ∧ (sync p s n)._tracking_level = .NMT_off)
      ↔ instances_after_deletion s = 0) ∧
    (instances_after_deletion s ≠ 0 →
      (sync p s n)._state = .NMT_final_shutdown ∧
      (sync p s n)._tracking_level = s._tracking_level) := by
  have hsync : sync p s n = sync_final_shutdown s := by
    unfold sync
    rw [if_neg (by rw [hst]; decide)]
  obtain ⟨x, hx1, hx2, hx3, hx4, hx5, hx6, hx7, hx8⟩ := sync_final_shutdown_eq s hst
  rw [hsync, hx8]
  by_cases h0 : x._instance_count = 0
  · rw [if_pos h0]
    refine ⟨?_, hx2, hx3, hx7, hx4, ?_, ?_⟩
    · intro j th hth hjava
      exact threads_do_slots s hvis j th (by rw [← hx1]; exact hth) hjava
    · exact ⟨fun _ => hx4.symm.trans h0, fun _ => ⟨rfl, rfl⟩⟩
    · intro hne
      exact absurd (hx4.symm.trans h0) hne
  · rw [if_neg h0]
    refine ⟨?_, hx2, hx3, hx7, hx4, ?_, ?_⟩
    · intro j th hth hjava
      exact threads_do_slots s hvis j th (by rw [← hx1]; exact hth) hjava
    · constructor
      · intro h
        rw [hx5, hst] at h
        exact absurd h.1 (by decide)
      · intro h
        exact absurd (hx4.trans h) h0
    · intro _
      exact ⟨hx5.trans hst, hx6⟩

theorem C25_final_shutdown_sync_witness :
    (sync demo_platform demo_final 7)._global_recorder = none ∧
    (sync demo_platform demo_final 7)._merge_pending_queue = [] ∧
    (sync demo_platform demo_final 7)._instance_count = instances_after_deletion demo_final ∧
    (((sync demo_platform demo_final 7)._state = .NMT_shutdown ∧
        (sync demo_platform demo_final 7)._tracking_level = .NMT_off)
      ↔ instances_after_deletion demo_final = 0) :=
  ⟨(C25_final_shutdown_sync demo_platform demo_final 7 (by decide) (by decide)).2.1,
   (C25_final_shutdown_sync demo_platform demo_final 7 (by decide) (by decide)).2.2.1,
   (C25_final_shutdown_sync demo_platform demo_final 7 (by decide) (by decide)).2.2.2.2.1,
   (C25_final_shutdown_sync demo_platform demo_final 7 (by decide) (by decide)).2.2.2.2.2.1⟩

/-! ## Lemmas on the recorders in use -/

theorem mem_recorders_in_use (s : MemTracker) (r : MemRecorder) :
    r ∈ recorders_in_use s ↔
      (∃ j th, s.threads.get? j = some th ∧ th._recorder = some r) ∨
      s._global_recorder = some r ∨ r ∈ s._merge_pending_queue := by
  unfold recorders_in_use
  simp only [List.mem_append, List.mem_filterMap, Option.mem_toList, Option.mem_def]
  constructor
  · rintro (⟨th, hmem, hrec⟩ | h | h)
    · obtain ⟨j, hj⟩ := List.mem_iff_get?.mp hmem
      exact Or.inl ⟨j, th, hj, hrec⟩
    · exact Or.inr (Or.inl h)
    · exact Or.inr (Or.inr h)
  · rintro (⟨j, th, hj, hrec⟩ | h | h)
    · exact Or.inl ⟨th, List.get?_mem hj, hrec⟩
    · exact Or.inr (Or.inl h)
    · exact Or.inr (Or.inr h)

theorem in_use_set_slot (s : MemTracker) (thread : Option Nat) (rc : Option MemRecorder)
    (r : MemRecorder) (h : r ∈ recorders_in_use (set_slot s thread rc)) :
    r ∈ recorders_in_use s ∨ rc = some r := by
  rw [mem_recorders_in_use] at h ⊢
  cases thread with
  | none =>
    rcases h with h | h | h
    · exact Or.inl (Or.inl h)
    · exact Or.inr h
    · exact Or.inl (Or.inr (Or.inr h))
  | some i =>
    rcases h with ⟨j, th, hj, hrec⟩ | h | h
    · simp only [set_slot, List.get?_eq_getElem?, List.getElem?_modify] at hj
      cases hth0 : s.threads[j]? with
      | none => rw [hth0] at hj; simp at hj
      | some th0 =>
        rw [hth0] at hj
        by_cases hij : i = j
        · simp only [hij, if_true, Option.map_eq_map, Option.map_some', Option.some.injEq] at hj
          rw [← hj] at hrec
          exact Or.inr hrec
        · simp only [hij, if_false, Option.map_eq_map, Option.map_some', Option.some.injEq] at hj
          subst hj
          exact Or.inl (Or.inl ⟨j, th0, by rw [List.get?_eq_getElem?]; exact hth0, hrec⟩)
    · exact Or.inl (Or.inr (Or.inl h))
    · exact Or.inl (Or.inr (Or.inr h))

theorem in_use_congr {s s' : MemTracker} (h1 : s'.threads = s.threads)
    (h2 : s'._global_recorder = s._global_recorder)
    (h3 : s'._merge_pending_queue = s._merge_pending_queue) :
    recorders_in_use s' = recorders_in_use s := by
  unfold recorders_in_use
  rw [h1, h2, h3]

theorem shutdown_store (s : MemTracker) (r : ShutdownReason) :
    (shutdown s r).threads = s.threads ∧ (shutdown s r)._global_recorder = s._global_recorder ∧
    (shutdown s r)._merge_pending_queue = s._merge_pending_queue ∧
    (shutdown s r)._pooled_recorders = s._pooled_recorders ∧
    (shutdown s r)._seq_number = s._seq_number := by
  unfold shutdown
  split
  · exact ⟨rfl, rfl, rfl, rfl, rfl⟩
  · split
    · exact ⟨rfl, rfl, rfl, rfl, rfl⟩
    · split <;> exact ⟨rfl, rfl, rfl, rfl, rfl⟩

/-- Taking a recorder from the pool, or a new one, changes no recorder in use; the recorder
obtained holds no record when the pool is cleared, and the pool stays cleared. -/
theorem get_new_or_pooled_instance_in_use (s : MemTracker) (a : NewResult)
    (hp : pool_cleared s) :
    recorders_in_use (get_new_or_pooled_instance s a).2 = recorders_in_use s ∧
    (∀ r, (get_new_or_pooled_instance s a).1 = some r → r.records = []) ∧
    pool_cleared (get_new_or_pooled_instance s a).2 := by
  unfold get_new_or_pooled_instance
  cases hpool : s._pooled_recorders with
  | nil =>
    cases a with
    | null =>
      have h := shutdown_store s .NMT_out_of_memory
      refine ⟨in_use_congr h.1 h.2.1 h.2.2.1, fun r hr => by simp at hr, ?_⟩
      intro r hr
      rw [h.2.2.2.1] at hr
      exact hp r hr
    | oom q =>
      have h := shutdown_store s .NMT_out_of_memory
      refine ⟨in_use_congr h.1 h.2.1 h.2.2.1, fun r hr => by simp at hr, ?_⟩
      intro r hr
      rw [h.2.2.2.1] at hr
      exact hp r hr
    | ok q =>
      refine ⟨rfl, ?_, ?_⟩
      · intro r hr
        simp only [Option.some.injEq] at hr
        rw [← hr]
      · intro r hr
        exact hp r (by rw [hpool]; exact hr)
  | cons hd tl =>
    refine ⟨rfl, ?_, ?_⟩
    · intro r hr
      simp only [Option.some.injEq] at hr
      rw [← hr]
      exact hp hd (by rw [hpool]; exact List.mem_cons_self _ _)
    · intro r hr
      exact hp r (by rw [hpool]; exact List.mem_cons_of_mem _ hr)

theorem pool_cleared_congr {s s' : MemTracker} (h : s'._pooled_recorders = s._pooled_recorders)
    (hp : pool_cleared s) : pool_cleared s' := by
  intro r hr
  rw [h] at hr
  exact hp r hr

theorem in_use_enqueue (s : MemTracker) (rec r : MemRecorder)
    (h : r ∈ recorders_in_use (enqueue_pending_recorder s rec)) :
    r ∈ recorders_in_use s ∨ r = rec := by
  unfold enqueue_pending_recorder at h
  split at h
  · exact Or.inl h
  · rw [mem_recorders_in_use] at h ⊢
    rcases h with h | h | h
    · exact Or.inl (Or.inl h)
    · exact Or.inl (Or.inr (Or.inl h))
    · rcases List.mem_cons.mp h with h | h
      · exact Or.inr h
      · exact Or.inl (Or.inr (Or.inr h))

theorem get_slot_in_use (s : MemTracker) (thread : Option Nat) (r : MemRecorder)
    (h : get_slot s thread = some r) : r ∈ recorders_in_use s := by
  rw [mem_recorders_in_use]
  cases thread with
  | none => exact Or.inr (Or.inl h)
  | some i =>
    simp only [get_slot] at h
    cases hth : s.threads.get? i with
    | none => rw [hth] at h; simp at h
    | some th =>
      rw [hth] at h
      exact Or.inl ⟨i, th, hth, h⟩

/-- The recorder that `get_thread_recorder` returns is one in use or one that holds no record,
and so is every recorder in use afterwards; the pool stays cleared. -/
theorem get_thread_recorder_in_use (p : Platform) (s : MemTracker) (thread : Option Nat)
    (a : NewResult) (hp : pool_cleared s) :
    (∀ r, r ∈ recorders_in_use (get_thread_recorder p s thread a).2 →
      r ∈ recorders_in_use s ∨ r.records = []) ∧
    (∀ r, (get_thread_recorder p s thread a).1 = some r →
      r ∈ recorders_in_use s ∨ r.records = []) ∧
    pool_cleared (get_thread_recorder p s thread a).2 := by
  have hnew : ∀ s0 : MemTracker, pool_cleared s0 →
      (∀ r, r ∈ recorders_in_use
          (set_slot (get_new_or_pooled_instance s0 a).2 thread
            (get_new_or_pooled_instance s0 a).1) →
        r ∈ recorders_in_use s0 ∨ r.records = []) ∧
      (∀ r, (get_new_or_pooled_instance s0 a).1 = some r → r.records = []) ∧
      pool_cleared (set_slot (get_new_or_pooled_instance s0 a).2 thread
        (get_new_or_pooled_instance s0 a).1) := by
    intro s0 hp0
    obtain ⟨h1, h2, h3⟩ := get_new_or_pooled_instance_in_use s0 a hp0
    refine ⟨?_, h2, pool_cleared_congr (set_slot_rest _ _ _).2.1 h3⟩
    intro r hr
    rcases in_use_set_slot _ _ _ _ hr with h | h
    · rw [h1] at h; exact Or.inl h
    · exact Or.inr (h2 r h)
  unfold get_thread_recorder
  by_cases hs : shutdown_in_progress s = true
  · rw [if_pos hs]
    exact ⟨fun r hr => Or.inl hr, fun r hr => by simp at hr, hp⟩
  · rw [if_neg hs]
    cases hslot : get_slot s thread with
    | none =>
      obtain ⟨h1, h2, h3⟩ := hnew s hp
      exact ⟨h1, fun r hr => Or.inr (h2 r hr), h3⟩
    | some r0 =>
      have hr0 : r0 ∈ recorders_in_use s := get_slot_in_use s thread r0 hslot
      by_cases hf : r0.is_full p = true
      · simp only [hf, if_true]
        have hpe : pool_cleared (enqueue_pending_recorder s r0) := by
          apply pool_cleared_congr _ hp
          unfold enqueue_pending_recorder
          split <;> rfl
        obtain ⟨h1, h2, h3⟩ := hnew (enqueue_pending_recorder s r0) hpe
        refine ⟨?_, fun r hr => Or.inr (h2 r hr), h3⟩
        intro r hr
        rcases h1 r hr with h | h
        · rcases in_use_enqueue s r0 r h with h | h
          · exact Or.inl h
          · exact Or.inl (h ▸ hr0)
        · exact Or.inr h
      · simp only [hf, Bool.false_eq_true, if_false]
        refine ⟨fun r hr => Or.inl hr, ?_, hp⟩
        intro r hr
        simp only [Option.some.injEq] at hr
        exact Or.inl (hr ▸ hr0)

/-- Every recorder in use after a write is a recorder in use before, a recorder that holds no
record, or such a recorder with the record written to it; the pool stays cleared. -/
theorem write_tracking_record_in_use (p : Platform) (s : MemTracker) (addr flags size : Nat)
    (seq : Int) (pc : Nat) (thread : Option Nat) (a : NewResult) (hp : pool_cleared s) :
    (∀ r, r ∈ recorders_in_use (write_tracking_record p s addr flags size seq pc thread a) →
      r ∈ recorders_in_use s ∨ r.records = [] ∨
      ∃ r0, (r0 ∈ recorders_in_use s ∨ r0.records = []) ∧
        r = r0.record p addr flags size seq pc) ∧
    pool_cleared (write_tracking_record p s addr flags size seq pc thread a) := by
  obtain ⟨h1, h2, h3⟩ := get_thread_recorder_in_use p s thread a hp
  unfold write_tracking_record
  cases hg : get_thread_recorder p s thread a with
  | mk rc s1 =>
    rw [hg] at h1 h2 h3
    simp only at h1 h2 h3 ⊢
    cases rc with
    | none =>
      refine ⟨?_, h3⟩
      intro r hr
      rcases h1 r hr with h | h
      · exact Or.inl h
      · exact Or.inr (Or.inl h)
    | some r0 =>
      refine ⟨?_, pool_cleared_congr (set_slot_rest _ _ _).2.1 h3⟩
      intro r hr
      rcases in_use_set_slot _ _ _ _ hr with h | h
      · rcases h1 r h with h | h
        · exact Or.inl h
        · exact Or.inr (Or.inl h)
      · simp only [Option.some.injEq] at h
        exact Or.inr (Or.inr ⟨r0, h2 r0 rfl, h.symm⟩)

/-- A write with a sequence number above those of all records in use keeps the records of
every recorder in use in strictly increasing order of sequence numbers. -/
theorem write_tracking_record_ordered (p : Platform) (s : MemTracker) (addr flags size : Nat)
    (seq : Int) (pc : Nat) (thread : Option Nat) (a : NewResult) (b : Int)
    (ho : seq_ordered s b) (hp : pool_cleared s) (hb : b < seq) :
    seq_ordered (write_tracking_record p s addr flags size seq pc thread a) seq ∧
    pool_cleared (write_tracking_record p s addr flags size seq pc thread a) := by
  obtain ⟨h1, h2⟩ := write_tracking_record_in_use p s addr flags size seq pc thread a hp
  refine ⟨?_, h2⟩
  have hold : ∀ r0 : MemRecorder, (r0 ∈ recorders_in_use s ∨ r0.records = []) →
      r0.seq_increasing ∧ ∀ e ∈ r0.records, e.seq ≤ b := by
    intro r0 h0
    rcases h0 with h0 | h0
    · exact ho r0 h0
    · rw [MemRecorder.seq_increasing, h0]
      exact ⟨List.Pairwise.nil, fun e he => by simp at he⟩
  intro r hr
  rcases h1 r hr with h | h | ⟨r0, h0, h⟩
  · obtain ⟨ha, hb'⟩ := ho r h
    exact ⟨ha, fun e he => le_trans (hb' e he) (le_of_lt hb)⟩
  · obtain ⟨ha, hb'⟩ := hold r (Or.inr h)
    exact ⟨ha, fun e he => le_trans (hb' e he) (le_of_lt hb)⟩
  · obtain ⟨ha, hb'⟩ := hold r0 h0
    subst h
    unfold MemRecorder.record
    split
    · exact ⟨ha, fun e he => le_trans (hb' e he) (le_of_lt hb)⟩
    · constructor
      · unfold MemRecorder.seq_increasing at ha ⊢
        simp only [List.map_append, List.map_cons, List.map_nil]
        rw [List.pairwise_append]
        refine ⟨ha, List.pairwise_singleton _ _, ?_⟩
        intro x hx y hy
        simp only [List.mem_singleton] at hy
        obtain ⟨e, he, rfl⟩ := List.mem_map.mp hx
        rw [hy]
        exact lt_of_le_of_lt (hb' e he) hb
      · intro e he
        simp only [List.mem_append, List.mem_singleton] at he
        rcases he with he | he
        · exact le_trans (hb' e he) (le_of_lt hb)
        · rw [he]

theorem seq_ordered_congr {s s' : MemTracker} {b : Int} (h1 : s'.threads = s.threads)
    (h2 : s'._global_recorder = s._global_recorder)
    (h3 : s'._merge_pending_queue = s._merge_pending_queue) (ho : seq_ordered s b) :
    seq_ordered s' b := by
  unfold seq_ordered
  rw [in_use_congr h1 h2 h3]
  exact ho

theorem seq_ordered_mono {s : MemTracker} {b b' : Int} (h : b ≤ b') (ho : seq_ordered s b) :
    seq_ordered s b' :=
  fun r hr => ⟨(ho r hr).1, fun e he => le_trans ((ho r hr).2 e he) h⟩

/-- The writes of `record` keep the records in order when the sequence number the tracker
reserved, if it reserved one, is above those of all records in use and not above the counter. -/
theorem record_writes_ordered (p : Platform) (t : Tracker) (s : MemTracker)
    (addr flags orig_flags size pc : Nat) (a1 a2 : NewResult) (b : Int)
    (ho : seq_ordered s b) (hp : pool_cleared s) (hb : b ≤ s._seq_number)
    (hseq : t._seq = 0 ∨ (b < t._seq ∧ t._seq ≤ s._seq_number))
    (h0 : 0 ≤ s._seq_number)
    (hsat : s._seq_number + (if t._seq = 0 then 1 else 0) + 1 ≤ 2147483647) :
    seq_ordered (Tracker.record_writes p t s addr flags orig_flags size pc a1 a2)
      (Tracker.record_writes p t s addr flags orig_flags size pc a1 a2)._seq_number ∧
    pool_cleared (Tracker.record_writes p t s addr flags orig_flags size pc a1 a2) ∧
    s._seq_number ≤ (Tracker.record_writes p t s addr flags orig_flags size pc a1 a2)._seq_number ∧
    (Tracker.record_writes p t s addr flags orig_flags size pc a1 a2)._seq_number
      ≤ s._seq_number + (if t._seq = 0 then 1 else 0) + 1 := by
  -- the first write
  have hfirst : ∃ (sq : Int) (s2 : MemTracker),
      (if t._seq = 0 then SequenceGenerator.next s else (t._seq, s)) = (sq, s2) ∧
      seq_ordered s2 b ∧ pool_cleared s2 ∧ b < sq ∧ sq ≤ s2._seq_number ∧
      s2._seq_number = s._seq_number + (if t._seq = 0 then 1 else 0) := by
    by_cases hz : t._seq = 0
    · have hsat1 : s._seq_number + 1 + 1 ≤ 2147483647 := by
        rw [if_pos hz] at hsat
        exact hsat
      rw [if_pos hz, if_pos hz]
      have hw : jint_wrap (s._seq_number + 1) = s._seq_number + 1 :=
        jint_wrap_id _ (by omega) (by omega)
      refine ⟨_, _, rfl, seq_ordered_congr rfl rfl rfl ho, pool_cleared_congr rfl hp, ?_, ?_, ?_⟩
      · show b < jint_wrap (s._seq_number + 1)
        rw [hw]; omega
      · exact le_refl _
      · exact hw
    · rw [if_neg hz, if_neg hz]
      rcases hseq with h | h
      · exact absurd h hz
      · exact ⟨_, _, rfl, ho, hp, h.1, h.2, by omega⟩
  obtain ⟨sq, s2, he, ho2, hp2, hb2, hle2, hc2⟩ := hfirst
  have hw1 := write_tracking_record_ordered p s2 addr flags size sq pc t._java_thread a1 b ho2 hp2
    hb2
  have hc1 := (write_tracking_record_counters p s2 addr flags size sq pc t._java_thread a1).seq
  unfold Tracker.record_writes
  rw [he]
  simp only []
  generalize write_tracking_record p s2 addr flags size sq pc t._java_thread a1 = s3 at hw1 hc1 ⊢
  have hi : (if t._seq = 0 then (1 : Int) else 0) ≤ 1 := by split <;> omega
  have hi0 : (0 : Int) ≤ (if t._seq = 0 then (1 : Int) else 0) := by split <;> omega
  by_cases hrc : t._op = .ReserveAndCommit
  · rw [if_pos hrc]
    have hw : jint_wrap (s3._seq_number + 1) = s3._seq_number + 1 :=
      jint_wrap_id _ (by omega) (by omega)
    have hn : (SequenceGenerator.next s3) = (s3._seq_number + 1,
        { s3 with _seq_number := s3._seq_number + 1 }) := by
      unfold SequenceGenerator.next
      rw [hw]
    rw [hn]
    simp only []
    have ho3 : seq_ordered { s3 with _seq_number := s3._seq_number + 1 } s3._seq_number :=
      seq_ordered_congr rfl rfl rfl
        (seq_ordered_mono (by rw [hc1]; exact hle2) hw1.1)
    have hw2 := write_tracking_record_ordered p { s3 with _seq_number := s3._seq_number + 1 }
      addr (orig_flags ||| p.virtual_memory_commit_tag) size (s3._seq_number + 1) pc
      t._java_thread a2 s3._seq_number ho3 (pool_cleared_congr rfl hw1.2) (by omega)
    have hc3 := (write_tracking_record_counters p { s3 with _seq_number := s3._seq_number + 1 }
      addr (orig_flags ||| p.virtual_memory_commit_tag) size (s3._seq_number + 1) pc
      t._java_thread a2).seq
    generalize write_tracking_record p { s3 with _seq_number := s3._seq_number + 1 }
      addr (orig_flags ||| p.virtual_memory_commit_tag) size (s3._seq_number + 1) pc
      t._java_thread a2 = s4 at hw2 hc3 ⊢
    have hc3' : s4._seq_number = s3._seq_number + 1 := hc3
    refine ⟨?_, hw2.2, ?_, ?_⟩
    · rw [hc3']; exact hw2.1
    · omega
    · omega
  · rw [if_neg hrc]
    refine ⟨?_, hw1.2, ?_, ?_⟩
    · exact seq_ordered_mono (by rw [hc1]; exact hle2) hw1.1
    · omega
    · omega

/-- The writes of the realloc variant of `record` keep the records in order when the sequence
number the tracker reserved is above those of all records in use and not above the counter. -/
theorem realloc_writes_ordered (p : Platform) (t : Tracker) (s : MemTracker)
    (old_addr new_addr size flags pc : Nat) (a1 a2 : NewResult) (b : Int)
    (ho : seq_ordered s b) (hp : pool_cleared s)
    (hseq : b < t._seq ∧ t._seq ≤ s._seq_number)
    (h0 : 0 ≤ s._seq_number) (hsat : s._seq_number + 1 ≤ 2147483647) :
    seq_ordered (Tracker.realloc_writes p t s old_addr new_addr size flags pc a1 a2)
      (Tracker.realloc_writes p t s old_addr new_addr size flags pc a1 a2)._seq_number ∧
    pool_cleared (Tracker.realloc_writes p t s old_addr new_addr size flags pc a1 a2) ∧
    (Tracker.realloc_writes p t s old_addr new_addr size flags pc a1 a2)._seq_number
      = s._seq_number + 1 := by
  have hw1 := write_tracking_record_ordered p s old_addr p.free_tag 0 t._seq pc t._java_thread a1
    b ho hp hseq.1
  have hc1 := (write_tracking_record_counters p s old_addr p.free_tag 0 t._seq pc
    t._java_thread a1).seq
  unfold Tracker.realloc_writes
  simp only []
  generalize write_tracking_record p s old_addr p.free_tag 0 t._seq pc t._java_thread a1 = s3
    at hw1 hc1 ⊢
  have hw : jint_wrap (s3._seq_number + 1) = s3._seq_number + 1 :=
    jint_wrap_id _ (by omega) (by omega)
  have hn : (SequenceGenerator.next s3) = (s3._seq_number + 1,
      { s3 with _seq_number := s3._seq_number + 1 }) := by
    unfold SequenceGenerator.next
    rw [hw]
  rw [hn]
  simp only []
  have ho3 : seq_ordered { s3 with _seq_number := s3._seq_number + 1 } s3._seq_number :=
    seq_ordered_congr rfl rfl rfl (seq_ordered_mono (by rw [hc1]; exact hseq.2) hw1.1)
  have hw2 := write_tracking_record_ordered p { s3 with _seq_number := s3._seq_number + 1 }
    new_addr (flags ||| p.malloc_tag) size (s3._seq_number + 1) pc
    t._java_thread a2 s3._seq_number ho3 (pool_cleared_congr rfl hw1.2) (by omega)
  have hc3 := (write_tracking_record_counters p { s3 with _seq_number := s3._seq_number + 1 }
    new_addr (flags ||| p.malloc_tag) size (s3._seq_number + 1) pc t._java_thread a2).seq
  generalize write_tracking_record p { s3 with _seq_number := s3._seq_number + 1 }
    new_addr (flags ||| p.malloc_tag) size (s3._seq_number + 1) pc t._java_thread a2 = s4
    at hw2 hc3 ⊢
  have hc3' : s4._seq_number = s3._seq_number + 1 := hc3
  refine ⟨?_, hw2.2, ?_⟩
  · rw [hc3']; exact hw2.1
  · omega

/-- What the constructor reserves: either nothing, the counter staying as it is and the tracker
being for NoOp or for an operation that reserves nothing, or the next sequence number, for an
operation that reserves one. -/
theorem Tracker_new_seq (s : MemTracker) (mem : Tracker) (op : MemoryOperation)
    (thr tls : Option Nat) (h0 : 0 ≤ s._seq_number) (hsat : s._seq_number + 1 ≤ 2147483647) :
    ((Tracker.new s mem op thr tls).1._seq = 0 ∧
      (Tracker.new s mem op thr tls).2._seq_number = s._seq_number ∧
      ((Tracker.new s mem op thr tls).1._op = .NoOp ∨ op.pre_reserves = false)) ∨
    ((Tracker.new s mem op thr tls).1._seq = s._seq_number + 1 ∧
      (Tracker.new s mem op thr tls).2._seq_number = s._seq_number + 1 ∧
      op.pre_reserves = true) := by
  have hw : jint_wrap (s._seq_number + 1) = s._seq_number + 1 :=
    jint_wrap_id _ (by omega) (by omega)
  by_cases hon : is_on s = true
  · rw [Tracker.new_on s mem op thr tls hon]
    by_cases hpre : op.pre_reserves = true
    · right
      simp only [hpre, if_true]
      exact ⟨hw, hw, trivial⟩
    · left
      have hpre' : op.pre_reserves = false := by
        cases h : op.pre_reserves
        · rfl
        · exact absurd h hpre
      refine ⟨?_, ?_, Or.inr hpre'⟩ <;> simp [hpre']
  · left
    unfold Tracker.new
    rw [if_neg hon]
    exact ⟨rfl, rfl, Or.inl rfl⟩

theorem Tracker_new_op (s : MemTracker) (mem : Tracker) (op : MemoryOperation)
    (thr tls : Option Nat) :
    (Tracker.new s mem op thr tls).1._op = .NoOp ∨ (Tracker.new s mem op thr tls).1._op = op := by
  by_cases hon : is_on s = true
  · rw [Tracker.new_on s mem op thr tls hon]
    exact Or.inr rfl
  · unfold Tracker.new
    rw [if_neg hon]
    exact Or.inl rfl

/-- One use of a tracker keeps the records of every recorder in use in strictly increasing
order of sequence numbers and draws at most two sequence numbers. -/
theorem TrackerUse_run_ordered (p : Platform) (s s' : MemTracker) (u : TrackerUse)
    (ho : seq_ordered s s._seq_number) (hp : pool_cleared s) (h0 : 0 ≤ s._seq_number)
    (hsat : s._seq_number + 2 ≤ 2147483647) (hass : u.asserted) (hrun : u.run p s = some s') :
    seq_ordered s' s'._seq_number ∧ pool_cleared s' ∧ s._seq_number ≤ s'._seq_number ∧
    s'._seq_number ≤ s._seq_number + 2 := by
  have hstore := new_written s u.mem u.op u.thr u.tls
  have hseq := Tracker_new_seq s u.mem u.op u.thr u.tls h0 (by omega)
  have hop := Tracker_new_op s u.mem u.op u.thr u.tls
  unfold TrackerUse.run at hrun
  unfold TrackerUse.asserted at hass
  generalize Tracker.new s u.mem u.op u.thr u.tls = ts at hstore hseq hop hrun
  obtain ⟨t, s1⟩ := ts
  simp only at hstore hseq hop hrun
  have ho1 : seq_ordered s1 s._seq_number :=
    seq_ordered_congr hstore.2.2.1 hstore.2.1 hstore.1 ho
  have hp1 : pool_cleared s1 := pool_cleared_congr hstore.2.2.2.1 hp
  have hc1 : s._seq_number ≤ s1._seq_number ∧ s1._seq_number ≤ s._seq_number + 1 := by
    rcases hseq with h | h <;> omega
  -- the state is the one the constructor left
  have hsame : ∀ x : MemTracker, x.threads = s1.threads →
      x._global_recorder = s1._global_recorder →
      x._merge_pending_queue = s1._merge_pending_queue →
      x._pooled_recorders = s1._pooled_recorders → x._seq_number = s1._seq_number →
      seq_ordered x x._seq_number ∧ pool_cleared x ∧ s._seq_number ≤ x._seq_number ∧
        x._seq_number ≤ s._seq_number + 2 := by
    intro x h1 h2 h3 h4 h5
    refine ⟨seq_ordered_congr h1 h2 h3 (seq_ordered_mono (by rw [h5]; exact hc1.1) ho1),
      pool_cleared_congr h4 hp1, ?_, ?_⟩ <;> omega
  cases hcomp : u.completion with
  | record addr size flags pc cpc a1 a2 =>
    rw [hcomp] at hrun
    simp only at hrun
    by_cases haddr : addr = 0
    · unfold Tracker.record at hrun
      rw [if_pos haddr] at hrun
      simp only [Option.map_some', Option.some.injEq] at hrun
      subst hrun
      exact hsame _ rfl rfl rfl rfl rfl
    · by_cases hg : (is_on s1 && p.NMT_CAN_TRACK flags && t._op != .NoOp) = true
      · simp only [Bool.and_eq_true, bne_iff_ne, ne_eq] at hg
        obtain ⟨⟨hon1, hct⟩, hnoop⟩ := hg
        cases hsw : Tracker.record_switch p t._op addr flags with
        | none =>
          unfold Tracker.record at hrun
          rw [if_neg haddr] at hrun
          simp [hon1, hct, hnoop, hsw] at hrun
        | some ta =>
          obtain ⟨tag, addr'⟩ := ta
          rw [record_eq p t s1 addr size flags pc cpc a1 a2 tag addr' haddr hon1 hct hsw] at hrun
          simp only [Option.map_some', Option.some.injEq] at hrun
          have hts : t._seq = 0 ∨ (s._seq_number < t._seq ∧ t._seq ≤ s1._seq_number) := by
            rcases hseq with h | h
            · exact Or.inl h.1
            · exact Or.inr ⟨by omega, by omega⟩
          have hrac : s1._seq_number + (if t._seq = 0 then (1 : Int) else 0)
              ≤ s._seq_number + 1 := by
            rcases hseq with h | h
            · rw [if_pos h.1]; omega
            · rw [if_neg (by omega)]; omega
          obtain ⟨hw1, hw2, hw3, hw4⟩ := record_writes_ordered p t s1 addr' tag flags size cpc
            a1 a2 s._seq_number ho1 hp1 hc1.1 hts (by omega) (by omega)
          generalize Tracker.record_writes p t s1 addr' tag flags size cpc a1 a2 = s2
            at hw1 hw2 hw3 hw4 hrun
          split at hrun
          · subst hrun
            exact ⟨seq_ordered_congr rfl rfl rfl hw1, pool_cleared_congr rfl hw2,
              by show s._seq_number ≤ s2._seq_number; omega,
              by show s2._seq_number ≤ s._seq_number + 2; omega⟩
          · subst hrun
            exact ⟨hw1, hw2, by omega, by omega⟩
      · unfold Tracker.record at hrun
        rw [if_neg haddr, if_neg hg] at hrun
        simp only [Option.map_some', Option.some.injEq] at hrun
        subst hrun
        exact hsame _ rfl rfl rfl rfl rfl
  | record_realloc old_addr new_addr size flags pc a1 a2 =>
    rw [hcomp] at hrun hass
    simp only [Option.some.injEq] at hrun hass
    by_cases hg : (is_on s1 && p.NMT_CAN_TRACK flags && t._op != .NoOp) = true
    · simp only [Bool.and_eq_true, bne_iff_ne, ne_eq] at hg
      obtain ⟨⟨hon1, hct⟩, hnoop⟩ := hg
      have hre : u.op = .Realloc := by
        rcases hass with h | h
        · exact h
        · rcases hop with h2 | h2
          · exact absurd h2 hnoop
          · exact absurd (h2.trans h) hnoop
      have hts : s._seq_number < t._seq ∧ t._seq ≤ s1._seq_number := by
        rcases hseq with h | h
        · rcases h.2.2 with h2 | h2
          · exact absurd h2 hnoop
          · rw [hre] at h2; exact absurd h2 (by decide)
        · omega
      have hc1' : s1._seq_number = s._seq_number + 1 := by
        rcases hseq with h | h
        · rcases h.2.2 with h2 | h2
          · exact absurd h2 hnoop
          · rw [hre] at h2; exact absurd h2 (by decide)
        · exact h.2.1
      rw [record_realloc_eq p t s1 old_addr new_addr size flags pc a1 a2 hon1 hct hnoop] at hrun
      simp only at hrun
      obtain ⟨hw1, hw2, hw3⟩ := realloc_writes_ordered p t s1 old_addr new_addr size flags pc
        a1 a2 s._seq_number ho1 hp1 hts (by omega) (by omega)
      generalize Tracker.realloc_writes p t s1 old_addr new_addr size flags pc a1 a2 = s2
        at hw1 hw2 hw3 hrun
      split at hrun
      · subst hrun
        exact ⟨seq_ordered_congr rfl rfl rfl hw1, pool_cleared_congr rfl hw2,
          by show s._seq_number ≤ s2._seq_number; omega,
          by show s2._seq_number ≤ s._seq_number + 2; omega⟩
      · subst hrun
        exact ⟨hw1, hw2, by omega, by omega⟩
    · unfold Tracker.record_realloc at hrun
      rw [if_neg hg] at hrun
      subst hrun
      exact hsame _ rfl rfl rfl rfl rfl
  | discard =>
    rw [hcomp] at hrun
    simp only [Option.some.injEq] at hrun
    subst hrun
    have hd := discard_written t s1
    unfold Tracker.discard
    split
    · split <;> exact hsame _ rfl rfl rfl rfl rfl
    · exact hsame _ rfl rfl rfl rfl rfl

/-- A sequence of uses of trackers, each completed before the next is constructed, keeps the
records of every recorder in use in strictly increasing order of sequence numbers. -/
theorem tracker_uses_ordered (p : Platform) (uses : List TrackerUse) :
    ∀ (s s' : MemTracker), seq_ordered s s._seq_number → pool_cleared s → 0 ≤ s._seq_number →
    s._seq_number + 2 * uses.length ≤ 2147483647 → (∀ u ∈ uses, u.asserted) →
    tracker_uses p s uses = some s' →
    seq_ordered s' s'._seq_number ∧ s._seq_number ≤ s'._seq_number := by
  induction uses with
  | nil =>
    intro s s' ho _ _ _ _ hrun
    simp only [tracker_uses, Option.some.injEq] at hrun
    subst hrun
    exact ⟨ho, le_refl _⟩
  | cons u us ih =>
    intro s s' ho hp h0 hsat hass hrun
    simp only [List.length_cons, Nat.cast_add, Nat.cast_one] at hsat
    simp only [tracker_uses] at hrun
    cases hu : u.run p s with
    | none => rw [hu] at hrun; simp at hrun
    | some s1 =>
      rw [hu] at hrun
      simp only at hrun
      obtain ⟨h1, h2, h3, h4⟩ := TrackerUse_run_ordered p s s1 u ho hp h0 (by omega)
        (hass u (List.mem_cons_self _ _)) hu
      obtain ⟨h5, h6⟩ := ih s1 s' h1 h2 (by omega) (by omega)
        (fun x hx => hass x (List.mem_cons_of_mem _ hx)) hrun
      exact ⟨h5, by omega⟩

/-! ## C28 -/

/-- C28 (counterexample to the claim as stated): the first thread of `demo_started` constructs
a Release tracker, which reserves sequence number 1; it then constructs a Malloc tracker and
records with it, which appends a record with sequence number 2 to the recorder of the thread; it
then records with the Release tracker, which appends a record with sequence number 1 to the same
recorder.  The sequence numbers in the recorder, in append order, are 2 then 1; the generation
has not changed. -/
theorem C28_overlapping_trackers_out_of_order :
    (Tracker.new demo_started demo_storage .Release (some 0) none).1._seq = 1 ∧
    demo_overlap.map (fun s => (get_slot s (some 0)).map
      (fun r => r.records.map (fun e => e.seq))) = some (some [2, 1]) ∧
    demo_overlap.map (fun s => (get_slot s (some 0)).map
      (fun r => decide r.seq_increasing)) = some (some false) ∧
    demo_overlap.map (fun s => SequenceGenerator.current_generation s)
      = some (SequenceGenerator.current_generation demo_started) := by
  decide

/-- C28 (amended): within one generation, for every sequence of uses of trackers in which each
tracker is completed, by one of the two variants of `record` or by `discard`, before the next
tracker is constructed, and the realloc variant of `record` completes Realloc or NoOp trackers
only, as the source asserts: if the sequence numbers of the records of every recorder in use are
strictly increasing in append order and not above the counter of the generator before, the pool
is cleared, and the counter is not negative and leaves room for two sequence numbers per use,
then the sequence numbers of the records of every recorder in use are strictly increasing in
append order afterwards. -/
theorem C28_seq_increasing (p : Platform) (s s' : MemTracker) (uses : List TrackerUse)
    (ho : seq_ordered s (SequenceGenerator.peek s)) (hp : pool_cleared s)
    (h0 : 0 ≤ SequenceGenerator.peek s)
    (hsat : SequenceGenerator.peek s + 2 * uses.length ≤ max_jint)
    (hass : ∀ u ∈ uses, u.asserted) (hrun : tracker_uses p s uses = some s') :
    (∀ r ∈ recorders_in_use s', r.seq_increasing) ∧
    (∀ r ∈ recorders_in_use s', ∀ e ∈ r.records, e.seq ≤ SequenceGenerator.peek s') := by
  have h := (tracker_uses_ordered p uses s s' ho hp h0 hsat hass hrun).1
  exact ⟨fun r hr => (h r hr).1, fun r hr => (h r hr).2⟩

theorem C28_seq_increasing_witness :
    (∀ r ∈ recorders_in_use ((tracker_uses demo_platform demo_started demo_uses).getD
        demo_started), r.seq_increasing) ∧
    (∀ r ∈ recorders_in_use ((tracker_uses demo_platform demo_started demo_uses).getD
        demo_started), ∀ e ∈ r.records,
      e.seq ≤ SequenceGenerator.peek ((tracker_uses demo_platform demo_started demo_uses).getD
        demo_started)) :=
  C28_seq_increasing demo_platform demo_started
    ((tracker_uses demo_platform demo_started demo_uses).getD demo_started) demo_uses
    (by decide) (by decide) (by decide) (by decide) (by decide) (by decide)

/-! ## Lemmas on the references to recorders -/

theorem id_count_nil (a : Nat) : id_count a [] = 0 := rfl

theorem id_count_append (a : Nat) (l1 l2 : List MemRecorder) :
    id_count a (l1 ++ l2) = id_count a l1 + id_count a l2 := by
  simp [id_count, List.count_append]

theorem id_count_cons (a : Nat) (r : MemRecorder) (l : List MemRecorder) :
    id_count a (r :: l) = id_count a [r] + id_count a l :=
  id_count_append a [r] l

theorem id_count_referenced (a : Nat) (s : MemTracker) :
    id_count a (referenced s)
      = id_count a (slot_recorders s) + id_count a s._global_recorder.toList
        + id_count a s._pooled_recorders + id_count a s._merge_pending_queue
        + id_count a (worker_recorders s) := by
  unfold referenced
  simp only [id_count_append]
  omega

theorem filterMap_cons_toList {α β : Type} (f : α → Option β) (t : α) (l : List α) :
    (t :: l).filterMap f = (f t).toList ++ l.filterMap f := by
  rw [List.filterMap_cons]
  cases f t <;> rfl

/-- The recorders in the slots after an assignment to the slot of entry `i`. -/
theorem modify_slot_count (a : Nat) (rc : Option MemRecorder) :
    ∀ (l : List Thread) (i : Nat),
    id_count a ((l.modify (fun t => { t with _recorder := rc }) i).filterMap
        (fun t => t._recorder))
      + id_count a ((l.get? i).bind (fun t => t._recorder)).toList
      = id_count a (l.filterMap (fun t => t._recorder))
        + (if i < l.length then id_count a rc.toList else 0) := by
  intro l
  induction l with
  | nil =>
    intro i
    have h1 : ([] : List Thread).modify (fun t => { t with _recorder := rc }) i = [] := by
      cases i <;> rfl
    rw [h1]
    rfl
  | cons t l ih =>
    intro i
    cases i with
    | zero =>
      have h1 : (t :: l).modify (fun t => { t with _recorder := rc }) 0
          = { t with _recorder := rc } :: l := rfl
      have h2 : ((t :: l).get? 0).bind (fun t => t._recorder) = t._recorder := rfl
      rw [h1, h2, filterMap_cons_toList, filterMap_cons_toList, id_count_append,
        id_count_append, if_pos (by simp)]
      show id_count a rc.toList + _ + _ = _
      omega
    | succ i =>
      have h := ih i
      have h1 : (t :: l).modify (fun t => { t with _recorder := rc }) (i + 1)
          = t :: l.modify (fun t => { t with _recorder := rc }) i := rfl
      have h2 : ((t :: l).get? (i + 1)) = l.get? i := rfl
      rw [h1, h2, filterMap_cons_toList, filterMap_cons_toList, id_count_append,
        id_count_append]
      by_cases hi : i < l.length
      · rw [if_pos hi] at h
        rw [if_pos (by simp only [List.length_cons]; omega)]
        omega
      · rw [if_neg hi] at h
        rw [if_neg (by simp only [List.length_cons]; omega)]
        omega

/-- The references after an assignment to a slot: what the slot held is no longer referenced
from it, what is assigned is. -/
theorem set_slot_count (a : Nat) (s : MemTracker) (thread : Option Nat)
    (rc : Option MemRecorder) :
    id_count a (referenced (set_slot s thread rc)) + id_count a (get_slot s thread).toList
      = id_count a (referenced s)
        + (if valid_thread s thread then id_count a rc.toList else 0) := by
  rw [id_count_referenced, id_count_referenced]
  cases thread with
  | none =>
    have e1 : slot_recorders (set_slot s none rc) = slot_recorders s := rfl
    have e2 : (set_slot s none rc)._global_recorder = rc := rfl
    have e3 : (set_slot s none rc)._pooled_recorders = s._pooled_recorders := rfl
    have e4 : (set_slot s none rc)._merge_pending_queue = s._merge_pending_queue := rfl
    have e5 : worker_recorders (set_slot s none rc) = worker_recorders s := rfl
    have e6 : get_slot s none = s._global_recorder := rfl
    rw [e1, e2, e3, e4, e5, e6, if_pos (by trivial)]
    omega
  | some i =>
    have h := modify_slot_count a rc s.threads i
    have e1 : slot_recorders (set_slot s (some i) rc)
        = (s.threads.modify (fun t => { t with _recorder := rc }) i).filterMap
            (fun t => t._recorder) := rfl
    have e2 : (set_slot s (some i) rc)._global_recorder = s._global_recorder := rfl
    have e3 : (set_slot s (some i) rc)._pooled_recorders = s._pooled_recorders := rfl
    have e4 : (set_slot s (some i) rc)._merge_pending_queue = s._merge_pending_queue := rfl
    have e5 : worker_recorders (set_slot s (some i) rc) = worker_recorders s := rfl
    have e6 : get_slot s (some i) = (s.threads.get? i).bind (fun t => t._recorder) := rfl
    have e7 : slot_recorders s = s.threads.filterMap (fun t => t._recorder) := rfl
    have e8 : valid_thread s (some i) = (i < s.threads.length) := rfl
    rw [e1, e2, e3, e4, e5, e6, e7]
    simp only [e8]
    omega

/-- The count of the references in a state given by its fields. -/
theorem id_count_referenced_of (a : Nat) (s' s : MemTracker)
    (h1 : s'.threads = s.threads) (g : Option MemRecorder) (h2 : s'._global_recorder = g)
    (pl : List MemRecorder) (h3 : s'._pooled_recorders = pl)
    (q : List MemRecorder) (h4 : s'._merge_pending_queue = q)
    (h5 : s'._worker_thread = s._worker_thread) :
    id_count a (referenced s')
      = id_count a (slot_recorders s) + id_count a g.toList + id_count a pl + id_count a q
        + id_count a (worker_recorders s) := by
  rw [id_count_referenced]
  unfold slot_recorders worker_recorders
  rw [h1, h2, h3, h4, h5]

theorem referenced_congr {s s' : MemTracker} (h1 : s'.threads = s.threads)
    (h2 : s'._global_recorder = s._global_recorder)
    (h3 : s'._pooled_recorders = s._pooled_recorders)
    (h4 : s'._merge_pending_queue = s._merge_pending_queue)
    (h5 : s'._worker_thread = s._worker_thread) : referenced s' = referenced s := by
  unfold referenced slot_recorders worker_recorders
  rw [h1, h2, h3, h4, h5]

theorem shutdown_referenced (s : MemTracker) (r : ShutdownReason) :
    referenced (shutdown s r) = referenced s := by
  apply referenced_congr
  all_goals
    unfold shutdown
    split
    · rfl
    · split
      · rfl
      · split <;> rfl

/-- The references after `enqueue_pending_recorder`: the recorder is referenced from the
pending queue, or deleted in shutdown. -/
theorem enqueue_count (a : Nat) (s : MemTracker) (rec : MemRecorder) :
    id_count a (referenced (enqueue_pending_recorder s rec))
      = id_count a (referenced s)
        + (if shutdown_in_progress s = true then 0 else id_count a [rec]) ∧
    (enqueue_pending_recorder s rec).threads = s.threads ∧
    (enqueue_pending_recorder s rec)._global_recorder = s._global_recorder := by
  unfold enqueue_pending_recorder
  by_cases hs : shutdown_in_progress s = true
  · rw [if_pos hs, if_pos hs]
    exact ⟨by rw [referenced_congr rfl rfl rfl rfl rfl]; rfl, rfl, rfl⟩
  · rw [if_neg hs, if_neg hs]
    refine ⟨?_, rfl, rfl⟩
    simp only [referenced, slot_recorders, worker_recorders, id_count_append]
    rw [id_count_cons a rec]
    omega

/-- The references after `get_new_or_pooled_instance`: the recorder returned is no longer
referenced from the pool; a newly allocated one has the identity the allocator gave it. -/
theorem get_new_or_pooled_instance_count (a : Nat) (s : MemTracker) (n : NewResult) :
    id_count a (referenced (get_new_or_pooled_instance s n).2)
        + id_count a (get_new_or_pooled_instance s n).1.toList
      ≤ id_count a (referenced s) + n.id_count a := by
  unfold get_new_or_pooled_instance NewResult.id_count
  cases hp : s._pooled_recorders with
  | nil =>
    cases n with
    | null =>
      show id_count a (referenced (shutdown s _)) + id_count a [] ≤ id_count a (referenced s) + 0
      rw [shutdown_referenced, id_count_nil]
    | oom q =>
      show id_count a (referenced (shutdown s _)) + id_count a [] ≤ id_count a (referenced s) + 0
      rw [shutdown_referenced, id_count_nil]
    | ok q =>
      simp only []
      simp only [referenced, slot_recorders, worker_recorders, id_count_append, hp]
      have e : id_count a (some ({ id := q } : MemRecorder)).toList = if q = a then 1 else 0 := by
        show List.count a [q] = _
        rw [List.count_singleton]
        by_cases hq : q = a
        · simp [hq]
        · have hq' : ¬ a = q := fun h => hq h.symm
          simp [hq, hq']
      rw [e]
  | cons hd tl =>
    have h0 : (match n with
        | .ok q => if q = a then 1 else 0
        | _ => 0) ≥ 0 := Nat.zero_le _
    have e6 : id_count a (some ({ hd with _generation := s._generation } : MemRecorder)).toList
        = id_count a [hd] := rfl
    simp only []
    simp only [referenced, slot_recorders, worker_recorders, id_count_append, hp]
    rw [e6, id_count_cons a hd tl]
    omega

theorem get_new_or_pooled_instance_slots (s : MemTracker) (n : NewResult) :
    (get_new_or_pooled_instance s n).2.threads = s.threads ∧
    (get_new_or_pooled_instance s n).2._global_recorder = s._global_recorder := by
  unfold get_new_or_pooled_instance
  cases s._pooled_recorders with
  | nil =>
    cases n with
    | null => exact ⟨(shutdown_store s _).1, (shutdown_store s _).2.1⟩
    | oom q => exact ⟨(shutdown_store s _).1, (shutdown_store s _).2.1⟩
    | ok q => exact ⟨rfl, rfl⟩
  | cons hd tl => exact ⟨rfl, rfl⟩

theorem get_slot_congr {s s' : MemTracker} (thread : Option Nat) (h1 : s'.threads = s.threads)
    (h2 : s'._global_recorder = s._global_recorder) : get_slot s' thread = get_slot s thread := by
  unfold get_slot
  rw [h1, h2]

/-- Taking a recorder, from the pool or new, and assigning it to a slot creates no reference
but that to a newly allocated recorder, and drops the reference the slot held. -/
theorem acquire_to_slot_count (a : Nat) (s : MemTracker) (thread : Option Nat) (n : NewResult) :
    id_count a (referenced (set_slot (get_new_or_pooled_instance s n).2 thread
        (get_new_or_pooled_instance s n).1)) + id_count a (get_slot s thread).toList
      ≤ id_count a (referenced s) + n.id_count a := by
  have h1 := get_new_or_pooled_instance_count a s n
  have h2 := set_slot_count a (get_new_or_pooled_instance s n).2 thread
    (get_new_or_pooled_instance s n).1
  have h3 := get_new_or_pooled_instance_slots s n
  rw [get_slot_congr thread h3.1 h3.2] at h2
  split at h2 <;> omega

/-- `get_thread_recorder` creates no reference but that to a newly allocated recorder. -/
theorem get_thread_recorder_count (a : Nat) (p : Platform) (s : MemTracker)
    (thread : Option Nat) (n : NewResult) :
    id_count a (referenced (get_thread_recorder p s thread n).2)
      ≤ id_count a (referenced s) + n.id_count a := by
  unfold get_thread_recorder
  by_cases hs : shutdown_in_progress s = true
  · rw [if_pos hs]
    exact Nat.le_add_right _ _
  · rw [if_neg hs]
    cases hslot : get_slot s thread with
    | none =>
      have h := acquire_to_slot_count a s thread n
      simp only []
      omega
    | some r =>
      by_cases hf : r.is_full p = true
      · simp only [hf, if_true]
        have he := enqueue_count a s r
        rw [if_neg hs] at he
        have h := acquire_to_slot_count a (enqueue_pending_recorder s r) thread n
        rw [get_slot_congr thread he.2.1 he.2.2, hslot] at h
        have e : id_count a (some r).toList = id_count a [r] := rfl
        omega
      · simp only [hf, Bool.false_eq_true, if_false]
        exact Nat.le_add_right _ _

/-- `release_thread_recorder` references the recorder from the pool, or deletes it. -/
theorem release_thread_recorder_count (a : Nat) (s : MemTracker) (rec : MemRecorder) :
    id_count a (referenced (release_thread_recorder s rec))
      ≤ id_count a (referenced s) + id_count a [rec] := by
  by_cases hd : shutdown_in_progress s = true ∨
      s._pooled_recorder_count > jint_wrap (s._thread_count * 2)
  · rw [(release_thread_recorder_cases s rec).1 hd, referenced_congr (s := s) rfl rfl rfl rfl rfl]
    exact Nat.le_add_right _ _
  · have hs : shutdown_in_progress s = false := by
      cases hx : shutdown_in_progress s
      · rfl
      · exact absurd (Or.inl hx) hd
    rw [(release_thread_recorder_cases s rec).2 hs (fun hx => hd (Or.inr hx))]
    simp only [referenced, slot_recorders, worker_recorders, id_count_append]
    rw [id_count_cons a rec.clear]
    have e : id_count a [rec.clear] = id_count a [rec] := rfl
    omega

theorem id_count_erase (a : Nat) (held : List MemRecorder) (rec : MemRecorder)
    (h : rec ∈ held) : id_count a (held.erase rec) + id_count a [rec] = id_count a held := by
  have hp := List.perm_cons_erase h
  have hc : id_count a held = id_count a (rec :: held.erase rec) := by
    unfold id_count
    exact (hp.map _).count_eq a
  rw [hc, id_count_cons a rec (held.erase rec)]
  omega

/-- `thread_exiting` creates no reference. -/
theorem thread_exiting_count (a : Nat) (s : MemTracker) (thread : Nat) :
    id_count a (referenced (thread_exiting s thread)) ≤ id_count a (referenced s) := by
  unfold thread_exiting
  split
  · cases hslot : get_slot s (some thread) with
    | none => exact le_refl _
    | some rec =>
      simp only []
      have he := enqueue_count a s rec
      have h := set_slot_count a (enqueue_pending_recorder s rec) (some thread) none
      rw [get_slot_congr (some thread) he.2.1 he.2.2, hslot] at h
      have e : id_count a (some rec).toList = id_count a [rec] := rfl
      have e0 : id_count a (none : Option MemRecorder).toList = 0 := rfl
      split at he <;> split at h <;> omega
  · exact le_refl _

/-- Exclusive ownership in terms of the count of the references to each identity. -/
theorem exclusive_iff (s : MemTracker) (held : List MemRecorder) :
    exclusive s held ↔ ∀ a, id_count a (referenced s) + id_count a held ≤ 1 := by
  unfold exclusive owner_ids
  rw [List.nodup_iff_count_le_one]
  constructor
  · intro h a
    have := h a
    rw [List.map_append, List.count_append] at this
    exact this
  · intro h a
    rw [List.map_append, List.count_append]
    exact h a

/-- Exclusive ownership is kept by a step that creates no reference but that to a recorder the
allocator has just returned. -/
theorem exclusive_of_count (s s' : MemTracker) (held held' : List MemRecorder) (n : NewResult)
    (hex : exclusive s held) (hfresh : n.fresh s held)
    (h : ∀ a, id_count a (referenced s') + id_count a held'
      ≤ id_count a (referenced s) + id_count a held + n.id_count a) :
    exclusive s' held' := by
  rw [exclusive_iff] at hex ⊢
  intro a
  have h1 := h a
  have h2 := hex a
  cases n with
  | null => simp only [NewResult.id_count] at h1; omega
  | oom q => simp only [NewResult.id_count] at h1; omega
  | ok q =>
    simp only [NewResult.id_count] at h1
    by_cases hq : q = a
    · rw [if_pos hq] at h1
      have h0 : id_count a (referenced s) + id_count a held = 0 := by
        have hc : List.count a (owner_ids s held) = 0 :=
          List.count_eq_zero.mpr (hq ▸ hfresh)
        unfold owner_ids at hc
        rw [List.map_append, List.count_append] at hc
        exact hc
      omega
    · rw [if_neg hq] at h1
      omega

/-- `do_thread` creates no reference. -/
theorem do_thread_refs (a : Nat) (s : MemTracker) (c : Int) (i : Nat) :
    id_count a (referenced (SyncThreadRecorderClosure.do_thread s c i).1)
      ≤ id_count a (referenced s) := by
  unfold SyncThreadRecorderClosure.do_thread
  cases hth : s.threads.get? i with
  | none => exact le_refl _
  | some th =>
    simp only []
    split
    · cases hrec : th._recorder with
      | none => exact le_refl _
      | some rec =>
        simp only []
        have hslot : get_slot s (some i) = some rec := by
          simp only [get_slot]
          rw [hth]
          exact hrec
        have he := enqueue_count a s rec
        have h := set_slot_count a (enqueue_pending_recorder s rec) (some i) none
        rw [get_slot_congr (some i) he.2.1 he.2.2, hslot] at h
        have e : id_count a (some rec).toList = id_count a [rec] := rfl
        have e0 : id_count a (none : Option MemRecorder).toList = 0 := rfl
        split at he <;> split at h <;> omega
    · exact le_refl _

theorem walk_refs (a : Nat) (is : List Nat) : ∀ (s : MemTracker) (c : Int),
    id_count a (referenced (SyncThreadRecorderClosure.walk s c is).1)
      ≤ id_count a (referenced s) := by
  induction is with
  | nil => intro s c; exact le_refl _
  | cons i is ih =>
    intro s c
    simp only [SyncThreadRecorderClosure.walk]
    exact le_trans (ih _ _) (do_thread_refs a s c i)

theorem threads_do_refs (a : Nat) (s : MemTracker) :
    id_count a (referenced (Threads.threads_do s).1) ≤ id_count a (referenced s) :=
  walk_refs a _ s 0

/-- `get_pending_recorders` moves the references of the pending queue to the batch it
returns. -/
theorem get_pending_recorders_refs (a : Nat) (s : MemTracker) :
    id_count a (referenced (get_pending_recorders s).2)
        + id_count a (get_pending_recorders s).1
      = id_count a (referenced s) := by
  unfold get_pending_recorders
  simp only [referenced, slot_recorders, worker_recorders, id_count_append, id_count_nil]
  omega

theorem sync_take_global_refs (a : Nat) (s : MemTracker) (l : List MemRecorder) :
    id_count a (referenced (sync_take_global s l).2) + id_count a (sync_take_global s l).1
      = id_count a (referenced s) + id_count a l := by
  unfold sync_take_global
  cases hg : s._global_recorder with
  | none => rfl
  | some g =>
    simp only [referenced, slot_recorders, worker_recorders, id_count_append, hg,
      Option.toList, id_count_nil]
    rw [id_count_cons a g l]
    omega

theorem sync_check_load_refs (s : MemTracker) :
    referenced (sync_check_load s) = referenced s := by
  unfold sync_check_load
  split
  · exact referenced_congr rfl rfl rfl rfl rfl
  · split
    · exact shutdown_referenced _ _
    · rfl

theorem flatten_append_singleton (bs : List (List MemRecorder × Nat)) (l : List MemRecorder)
    (n : Nat) :
    ((bs ++ [(l, n)]).map Prod.fst).flatten = (bs.map Prod.fst).flatten ++ l := by
  simp

theorem sync_at_sync_point_refs (a : Nat) (s : MemTracker) (l : List MemRecorder) (n : Nat) :
    id_count a (referenced (sync_at_sync_point s l n))
      ≤ id_count a (referenced s) + id_count a l := by
  unfold sync_at_sync_point
  cases hw : s._worker_thread with
  | none => exact Nat.le_add_right _ _
  | some w =>
    simp only [referenced, slot_recorders, worker_recorders, id_count_append, hw,
      flatten_append_singleton]
    omega

/-- The drain of `sync` creates no reference. -/
theorem sync_drain_refs (a : Nat) (p : Platform) (s : MemTracker) (n : Nat) :
    id_count a (referenced (sync_drain p s n)) ≤ id_count a (referenced s) := by
  have hW := threads_do_refs a { SequenceGenerator.reset p s with _sync_point_skip_count := 0 }
  have h0 : referenced { SequenceGenerator.reset p s with _sync_point_skip_count := 0 }
      = referenced s := referenced_congr rfl rfl rfl rfl rfl
  rw [h0] at hW
  have hX : referenced
      { (Threads.threads_do { SequenceGenerator.reset p s with _sync_point_skip_count := 0 }).1 with
          _thread_count :=
            (Threads.threads_do
              { SequenceGenerator.reset p s with _sync_point_skip_count := 0 }).2 }
      = referenced (Threads.threads_do
          { SequenceGenerator.reset p s with _sync_point_skip_count := 0 }).1 :=
    referenced_congr rfl rfl rfl rfl rfl
  have hgp := get_pending_recorders_refs a
      { (Threads.threads_do { SequenceGenerator.reset p s with _sync_point_skip_count := 0 }).1 with
          _thread_count :=
            (Threads.threads_do
              { SequenceGenerator.reset p s with _sync_point_skip_count := 0 }).2 }
  rw [hX] at hgp
  have htg := sync_take_global_refs a
    (get_pending_recorders
      { (Threads.threads_do { SequenceGenerator.reset p s with _sync_point_skip_count := 0 }).1 with
          _thread_count :=
            (Threads.threads_do
              { SequenceGenerator.reset p s with _sync_point_skip_count := 0 }).2 }).2
    (get_pending_recorders
      { (Threads.threads_do { SequenceGenerator.reset p s with _sync_point_skip_count := 0 }).1 with
          _thread_count :=
            (Threads.threads_do
              { SequenceGenerator.reset p s with _sync_point_skip_count := 0 }).2 }).1
  have hcol : id_count a (referenced (sync_collect p s)) + id_count a (sync_batch p s)
      ≤ id_count a (referenced s) := by
    change id_count a (referenced (sync_collect p s)) + id_count a (sync_batch p s) = _ at htg
    omega
  have hat := sync_at_sync_point_refs a (sync_check_load (sync_collect p s)) (sync_batch p s) n
  rw [sync_check_load_refs] at hat
  rw [sync_drain_eq]
  omega

/-- The last part of `sync` creates no reference. -/
theorem sync_final_shutdown_refs (a : Nat) (s : MemTracker) :
    id_count a (referenced (sync_final_shutdown s)) ≤ id_count a (referenced s) := by
  have hG : ∀ x : MemTracker, id_count a (referenced
      (match x._global_recorder with
        | some g => { delete_recorders x [g] with _global_recorder := none }
        | none => x)) ≤ id_count a (referenced x) := by
    intro x
    cases hg : x._global_recorder with
    | none => exact le_refl _
    | some g =>
      simp only [referenced, slot_recorders, worker_recorders, id_count_append, hg,
        delete_recorders, Option.toList, id_count_nil]
      omega
  have hQ : ∀ x : MemTracker, id_count a (referenced
      (delete_recorders (get_pending_recorders x).2 (get_pending_recorders x).1))
      ≤ id_count a (referenced x) := by
    intro x
    simp only [referenced, slot_recorders, worker_recorders, id_count_append,
      delete_recorders, get_pending_recorders, id_count_nil]
    omega
  have hF : ∀ x : MemTracker, id_count a (referenced
      (if x._instance_count = 0 then
        { x with _state := .NMT_shutdown, _tracking_level := .NMT_off }
      else x)) ≤ id_count a (referenced x) := by
    intro x
    split
    · exact le_of_eq (congrArg (id_count a) (referenced_congr rfl rfl rfl rfl rfl))
    · exact le_refl _
  unfold sync_final_shutdown
  split
  · exact le_trans (hF _) (le_trans (hQ _) (le_trans (hG _) (threads_do_refs a s)))
  · exact le_refl _

/-- `sync` creates no reference. -/
theorem sync_refs (a : Nat) (p : Platform) (s : MemTracker) (n : Nat) :
    id_count a (referenced (sync p s n)) ≤ id_count a (referenced s) := by
  unfold sync
  split
  · cases hw : s._worker_thread with
    | none => exact le_refl _
    | some w =>
      simp only []
      split
      · exact le_of_eq (congrArg (id_count a) (referenced_congr rfl rfl rfl rfl hw.symm))
      · refine le_trans (sync_final_shutdown_refs a _) ?_
        split
        · exact sync_drain_refs a p s n
        · exact le_of_eq (congrArg (id_count a) (referenced_congr rfl rfl rfl rfl hw.symm))
  · exact sync_final_shutdown_refs a s

/-- A step keeps exclusive ownership. -/
theorem OwnerStep_exclusive (p : Platform) (σ σ' : MemTracker × List MemRecorder)
    (hstep : OwnerStep p σ σ') (hex : exclusive σ.1 σ.2) : exclusive σ'.1 σ'.2 := by
  cases hstep with
  | get_thread_recorder s held thread n hfresh =>
    dsimp only at hex ⊢
    refine exclusive_of_count s _ held held n hex hfresh ?_
    intro a
    have := get_thread_recorder_count a p s thread n
    omega
  | get_new_or_pooled_instance s held n hfresh =>
    dsimp only at hex ⊢
    refine exclusive_of_count s _ held _ n hex hfresh ?_
    intro a
    have := get_new_or_pooled_instance_count a s n
    simp only [id_count_append]
    omega
  | release_thread_recorder s held rec hmem =>
    dsimp only at hex ⊢
    refine exclusive_of_count s _ held _ .null hex trivial ?_
    intro a
    have h1 := release_thread_recorder_count a s rec
    have h2 := id_count_erase a held rec hmem
    simp only [NewResult.id_count]
    omega
  | enqueue_pending_recorder s held rec hmem =>
    dsimp only at hex ⊢
    refine exclusive_of_count s _ held _ .null hex trivial ?_
    intro a
    have h1 := (enqueue_count a s rec).1
    have h2 := id_count_erase a held rec hmem
    simp only [NewResult.id_count]
    split at h1 <;> omega
  | get_pending_recorders s held =>
    dsimp only at hex ⊢
    refine exclusive_of_count s _ held _ .null hex trivial ?_
    intro a
    have h1 := get_pending_recorders_refs a s
    simp only [NewResult.id_count, id_count_append]
    omega
  | thread_exiting s held thread =>
    dsimp only at hex ⊢
    refine exclusive_of_count s _ held held .null hex trivial ?_
    intro a
    have h1 := thread_exiting_count a s thread
    simp only [NewResult.id_count]
    omega
  | sync s held n =>
    dsimp only at hex ⊢
    refine exclusive_of_count s _ held held .null hex trivial ?_
    intro a
    have h1 := sync_refs a p s n
    simp only [NewResult.id_count]
    omega
  | worker_takes s held w hw =>
    dsimp only at hex ⊢
    refine exclusive_of_count s _ held _ .null hex trivial ?_
    intro a
    simp only [NewResult.id_count, id_count_append, referenced, slot_recorders,
      worker_recorders, hw, List.map_nil, List.flatten_nil, id_count_nil]
    omega

/-! ## C29 -/

/-- C29: exclusive ownership is an invariant of the sequential steps on the recorders
(`get_thread_recorder`, `get_new_or_pooled_instance`, `release_thread_recorder`,
`enqueue_pending_recorder`, `get_pending_recorders`, `thread_exiting`, `sync`, and the worker
taking the batches handed to it), where the allocator returns the address of no recorder that is
referenced and a caller passes to `release_thread_recorder` and `enqueue_pending_recorder` a
recorder it holds: in every state reached from a state with exclusive ownership, no recorder
identity occurs twice among the slots of the threads, the global slot, the pool, the pending
queue, the batches handed to the worker and the recorders held by callers. -/
theorem C29_exclusive_ownership (p : Platform) (σ0 σ : MemTracker × List MemRecorder)
    (h0 : exclusive σ0.1 σ0.2) (hreach : Relation.ReflTransGen (OwnerStep p) σ0 σ) :
    exclusive σ.1 σ.2 := by
  induction hreach with
  | refl => exact h0
  | tail _ hstep ih => exact OwnerStep_exclusive p _ _ hstep ih

theorem C29_exclusive_ownership_witness :
    exclusive (sync demo_platform (thread_exiting demo_collect 0) 7) [] :=
  C29_exclusive_ownership demo_platform (demo_collect, [])
    (sync demo_platform (thread_exiting demo_collect 0) 7, []) (by decide)
    (Relation.ReflTransGen.tail
      (Relation.ReflTransGen.single (OwnerStep.thread_exiting demo_collect [] 0))
      (OwnerStep.sync (thread_exiting demo_collect 0) [] 7))

end NMT
